import Mathlib

/-!
# WebXR / three.js demo pages: event handlers as state machines

Each demo page of the repository is one `App` object whose fields are mutated
by event handlers (`onSelect`, `onClick`, `onTouchEnd`, the button handlers) and
by the callbacks of asynchronous operations (`createAnchor` promises, timers,
font loads).  JavaScript runs one callback at a time, so every page is
modelled as a record of the `App` fields plus the pending asynchronous work, and
every handler as a function on that record.

Conventions of the embedding

* Geometry is not modelled.  What `THREE.Raycaster` reports for a ray is an
  argument of the handler (an oracle), indexed by the device coordinates the
  handler passes to `setFromCamera`.
* JavaScript numbers that hold coordinates, opacities and colours are rationals
  and naturals; `clickCount` is a `Count`, which keeps `undefined` and `NaN`.
* A handler that can raise returns an `Outcome`: the state it reached, and
  whether it returned or raised there (mutations made before a raise persist).
* `console` output is kept as a list of messages (timestamps and object dumps
  are dropped).
-/

/-- Result of running a callback: it returned, or an uncaught exception stopped
it; either way the mutations made so far are kept. -/
inductive Outcome (σ : Type) where
  | ok (s : σ)
  | threw (s : σ)
  deriving Repr, DecidableEq

namespace Outcome

/-- The state the callback left behind. -/
def state {σ : Type} : Outcome σ → σ
  | ok s => s
  | threw s => s

/-- Whether the callback ended by an uncaught exception. -/
def raised {σ : Type} : Outcome σ → Bool
  | ok _ => false
  | threw _ => true

/-- Sequencing of two statements: an exception in the first skips the second. -/
def andThen {σ : Type} (o : Outcome σ) (f : σ → Outcome σ) : Outcome σ :=
  match o with
  | ok s => f s
  | threw s => threw s

end Outcome

/-- A JavaScript value used as a counter: `undefined`, `NaN` or a number. -/
inductive Count where
  | undefined
  | nan
  | num (n : Nat)
  deriving Repr, DecidableEq

namespace Count

/-- The value stored by `x++`. -/
def incr : Count → Count
  | undefined => nan
  | nan => nan
  | num n => num (n + 1)

/-- String conversion used by `+` with a string operand. -/
def render : Count → String
  | undefined => "undefined"
  | nan => "NaN"
  | num n => toString n

end Count

/-- The comparison `x > k` of JavaScript; it is false for `undefined` and `NaN`. -/
def Count.gt : Count → Nat → Bool
  | .num n, k => decide (n > k)
  | _, _ => false

/-- The value of `style.visibility` of a button. -/
inductive Visibility where
  | unset
  | hidden
  | visible
  deriving Repr, DecidableEq

/-- `Map.prototype.get` on a map kept as an association list. -/
def mapGet {α : Type} : List (String × α) → String → Option α
  | [], _ => none
  | (k, v) :: rest, key => if k = key then some v else mapGet rest key

/-- `Map.prototype.set`: overwrite the entry of the key, or append a new one. -/
def mapSet {α : Type} : List (String × α) → String → α → List (String × α)
  | [], key, val => [(key, val)]
  | (k, v) :: rest, key, val =>
    if k = key then (k, val) :: rest else (k, v) :: mapSet rest key val

/-- Pointer coordinates of a DOM event together with the window size. -/
structure PointerEvent where
  clientX : ℚ
  clientY : ℚ
  innerWidth : ℚ
  innerHeight : ℚ
  deriving Repr, DecidableEq

/-- Device coordinates computed by the `onTouchEnd` handlers:
`+(clientX / innerWidth) * 2 + -1` and `-(clientY / innerHeight) * 2 + 1`. -/
def deviceCoords (e : PointerEvent) : ℚ × ℚ :=
  ((e.clientX / e.innerWidth) * 2 + -1, -(e.clientY / e.innerHeight) * 2 + 1)

/-! ## object-interaction-base-case/js/app.js -/

namespace BaseCase

/-- A cube mesh made by `makeCube` or `makeTransparentCube`. -/
structure Cube where
  name : String
  color : Nat
  opacity : ℚ
  visible : Bool
  deriving Repr, DecidableEq

/-- What `raycaster.intersectObjects(this.anchoredObjects)` returns after
`setFromCamera(mouse, camera)`: the intersected objects, nearest first. -/
abbrev Raycaster := ℚ × ℚ → List Cube

/-- A pending `setTimeout` callback of `makeCube` / `makeTransparentCube`.  For
the last cube of a `Promise.all` batch `batch` holds the results of the whole
batch, which the `then` callback adds to the scene right after the timer. -/
structure Timer where
  cube : Cube
  batch : List Cube
  deriving Repr, DecidableEq

/-- The fields of `App` and the asynchronous work in flight. -/
structure App where
  singleAnchor : Bool
  anchoredObjects : List Cube
  objectLabels : List (String × Bool)
  scene : List String
  pendingAnchors : Nat
  anchorRequests : Nat
  timers : List Timer
  fontLoads : List (String × String)
  console : List String
  deriving Repr, DecidableEq

/-- State after `onSessionStarted`; `singleAnchor` is still `undefined`. -/
def init : App :=
  { singleAnchor := false, anchoredObjects := [], objectLabels := [], scene := [],
    pendingAnchors := 0, anchorRequests := 0, timers := [], fontLoads := [],
    console := [] }

/-- The `while` loop of `onClick`, started at index `toRemove` with `rest` the
entries of `intersects` from that index on. -/
def skipLoop : List Cube → Nat → Nat
  | [], toRemove => toRemove
  | c :: rest, toRemove =>
    if !c.visible || c.opacity == 0 then skipLoop rest (toRemove + 1) else toRemove

/-- Handler `onClick`: the ray is cast from `new THREE.Vector2()`, i.e. (0, 0). -/
def onClick (s : App) (raycaster : Raycaster) (_event : PointerEvent) : Outcome App :=
  let intersects := raycaster (0, 0)
  let s := { s with console := s.console ++ ["intersects: " ++ toString intersects.length] }
  if intersects.length > 0 then
    let toRemove := skipLoop intersects 0
    match intersects[toRemove]? with
    | some hit =>
      match mapGet s.objectLabels hit.name with
      | some v => .ok { s with objectLabels := mapSet s.objectLabels hit.name (!v) }
      | none => .threw s
    | none => .ok s
  else .ok s

/-- Handler `onSelect`. -/
def onSelect (s : App) : App :=
  if !s.singleAnchor then
    { s with
      console := s.console ++ ["Creating anchor..."]
      singleAnchor := true
      pendingAnchors := s.pendingAnchors + 1
      anchorRequests := s.anchorRequests + 1 }
  else
    { s with console := s.console ++ ["Already have anchor: " ++ toString s.singleAnchor] }

/-- The cube built by `makeTransparentCube("cubeT", ..., 0x000000, 0, ...)`. -/
def cubeT : Cube := { name := "cubeT", color := 0x000000, opacity := 0, visible := true }

/-- The cube built by `makeCube("cube1", ..., 0xaa0000, ...)`. -/
def cube1 : Cube := { name := "cube1", color := 0xaa0000, opacity := 1, visible := true }

/-- Fulfilment callback of `createAnchor`: both cube timers are scheduled. -/
def anchorResolved (s : App) : App :=
  if s.pendingAnchors = 0 then s else
  { s with
    pendingAnchors := s.pendingAnchors - 1
    timers := s.timers ++ [{ cube := cubeT, batch := [] }, { cube := cube1, batch := [cubeT, cube1] }] }

/-- Rejection callback of `createAnchor`. -/
def anchorRejected (s : App) (error : String) : App :=
  if s.pendingAnchors = 0 then s else
  { s with
    pendingAnchors := s.pendingAnchors - 1
    console := s.console ++ ["Could not create anchor: " ++ error] }

/-- The oldest timer fires: the cube is created, its label is requested, and a
completed batch is added to the scene. -/
def timerFired (s : App) : App :=
  match s.timers with
  | [] => s
  | t :: rest =>
    { s with
      timers := rest
      fontLoads := s.fontLoads ++ [(t.cube.name, t.cube.name)]
      anchoredObjects := s.anchoredObjects ++ [t.cube]
      scene := s.scene ++ t.batch.map Cube.name
      console := s.console ++ [t.cube.name] ++ (if t.batch = [] then [] else ["anchoredObjects:"]) }

/-- The oldest font load completes: `makeCubeMarker` registers a hidden label. -/
def fontLoaded (s : App) : App :=
  match s.fontLoads with
  | [] => s
  | (name, parentName) :: rest =>
    { s with
      fontLoads := rest
      objectLabels := mapSet s.objectLabels parentName false
      scene := s.scene ++ [name ++ "_label"] }

/-- Everything that can happen to the page. -/
inductive Event where
  | select
  | click (raycaster : Raycaster) (event : PointerEvent)
  | resolved
  | rejected (error : String)
  | timer
  | font

/-- One callback run. -/
def step (s : App) : Event → App
  | .select => onSelect s
  | .click r e => (onClick s r e).state
  | .resolved => anchorResolved s
  | .rejected err => anchorRejected s err
  | .timer => timerFired s
  | .font => fontLoaded s

/-- A sequence of callbacks, run in order. -/
def run (s : App) (es : List Event) : App := es.foldl step s

end BaseCase

/-! ## js/app.js -/

namespace JsApp

/-- The fields of `App`, the cubes added to the scene (by colour) and the
asynchronous work in flight. -/
structure App where
  singleAnchor : Bool
  scene : List Nat
  pendingAnchors : Nat
  anchorRequests : Nat
  console : List String
  deriving Repr, DecidableEq

/-- State after `onSessionStarted`; `singleAnchor` is still `undefined`. -/
def init : App :=
  { singleAnchor := false, scene := [], pendingAnchors := 0, anchorRequests := 0, console := [] }

/-- Handler `onSelect`. -/
def onSelect (s : App) : App :=
  if !s.singleAnchor then
    { s with
      console := s.console ++ ["Creating anchor..."]
      singleAnchor := true
      pendingAnchors := s.pendingAnchors + 1
      anchorRequests := s.anchorRequests + 1 }
  else
    { s with console := s.console ++ ["Already have anchor: " ++ toString s.singleAnchor] }

/-- Fulfilment callback of `createAnchor`: the green and the red cube are added. -/
def anchorResolved (s : App) : App :=
  if s.pendingAnchors = 0 then s else
  { s with
    pendingAnchors := s.pendingAnchors - 1
    singleAnchor := true
    scene := s.scene ++ [0x00aa00, 0xaa0000]
    console := s.console ++ ["Anchor created:"] }

/-- Rejection callback of `createAnchor`. -/
def anchorRejected (s : App) (error : String) : App :=
  if s.pendingAnchors = 0 then s else
  { s with
    pendingAnchors := s.pendingAnchors - 1
    console := s.console ++ ["Could not create anchor: " ++ error] }

/-- Everything that can happen to the page. -/
inductive Event where
  | select
  | resolved
  | rejected (error : String)
  deriving Repr, DecidableEq

/-- One callback run. -/
def step (s : App) : Event → App
  | .select => onSelect s
  | .resolved => anchorResolved s
  | .rejected err => anchorRejected s err

/-- A sequence of callbacks, run in order. -/
def run (s : App) (es : List Event) : App := es.foldl step s

end JsApp

/-! ## same-space-tests/js/app.js -/

namespace SameSpace

/-- A cube mesh made by `makeCube`, with its click counter. -/
structure Cube where
  name : String
  color : Nat
  opacity : ℚ
  visible : Bool
  clickCount : Count
  deriving Repr, DecidableEq

/-- What `raycaster.intersectObjects(this.anchoredObjects)` returns after
`setFromCamera(mouse, camera)`: the intersected objects, nearest first, each
given by its index in `anchoredObjects`. -/
abbrev Raycaster := ℚ × ℚ → List Nat

/-- The fields of `App`, the DOM elements it writes and the asynchronous work
in flight.  Fields the page never initialises start as `undefined`. -/
structure App where
  singleAnchor : Bool
  anchoredObjects : List Cube
  cubeInfoAreas : List String
  scene : List String
  objectLabels : List (String × Bool)
  wallPlaced : Option Bool
  shouldDisplayTransparentCube : Option Bool
  transparencyType : Count
  nextButton : Visibility
  snackbarShow : Bool
  pendingAnchors : Nat
  anchorRequests : Nat
  fontLoads : List (String × String)
  timeouts : Nat
  console : List String
  deriving Repr, DecidableEq

/-- State after `activateXR`: `createInfoScreen` has made the four info lines and
`setupThreeJs` has hidden the Next button. -/
def init : App :=
  { singleAnchor := false, anchoredObjects := [],
    cubeInfoAreas := (List.range 4).map (fun i => "Cube " ++ toString (i + 1) ++ ": not initialized"),
    scene := [], objectLabels := [], wallPlaced := none,
    shouldDisplayTransparentCube := none, transparencyType := .undefined,
    nextButton := .hidden, snackbarShow := false, pendingAnchors := 0,
    anchorRequests := 0, fontLoads := [], timeouts := 0, console := [] }

/-- Function `makeClickText`. -/
def makeClickText (cubeId : String) (clickCount : Count) : String :=
  "Cube " ++ cubeId ++ ": " ++ clickCount.render

/-- Value of a string of decimal digits, read left to right on top of `acc`. -/
def decimalValue : List Char → Nat → Option Nat
  | [], acc => some acc
  | c :: cs, acc =>
    if c.isDigit then decimalValue cs (acc * 10 + (c.toNat - 48)) else none

/-- The array index `currObj.name - 1`: defined when the name is a decimal
numeral of a positive integer (any other name indexes no element). -/
def nameIndex (name : String) : Option Nat :=
  match name.data with
  | [] => none
  | c :: cs =>
    match decimalValue (c :: cs) 0 with
    | some (n + 1) => some n
    | _ => none

/-- Handler `onTouchEnd`. -/
def onTouchEnd (s : App) (raycaster : Raycaster) (event : PointerEvent) : Outcome App :=
  let mouse := deviceCoords event
  let intersects := raycaster mouse
  let s := { s with console := s.console ++ ["intersects: " ++ toString intersects.length] }
  match intersects with
  | [] => .ok s
  | i :: _ =>
    match s.anchoredObjects[i]? with
    | none => .ok s
    | some currObj =>
      let currObj := { currObj with clickCount := currObj.clickCount.incr }
      let s := { s with anchoredObjects := s.anchoredObjects.set i currObj }
      match nameIndex currObj.name with
      | none => .threw s
      | some k =>
        if k < s.cubeInfoAreas.length then
          .ok { s with
                cubeInfoAreas := s.cubeInfoAreas.set k (makeClickText currObj.name currObj.clickCount)
                console := s.console ++ [currObj.name ++ " " ++ currObj.clickCount.render] }
        else .threw s

/-- Handler `onSelect`. -/
def onSelect (s : App) : App :=
  if !s.singleAnchor then
    { s with
      console := s.console ++ ["Creating anchor..."]
      singleAnchor := true
      pendingAnchors := s.pendingAnchors + 1
      anchorRequests := s.anchorRequests + 1 }
  else s

/-- Function `makeCube` followed by the three statements its callers run on the
result: the info line `slot` is reset and the cube is added to the scene. -/
def placeCube (s : App) (name : String) (hexColor : Nat) (slot : Nat) : Outcome App :=
  let cube : Cube :=
    { name := name, color := hexColor, opacity := 1, visible := true, clickCount := .num 0 }
  let s := { s with
             fontLoads := s.fontLoads ++ [(name, name)]
             anchoredObjects := s.anchoredObjects ++ [cube]
             console := s.console ++ [name] }
  if slot < s.cubeInfoAreas.length then
    .ok { s with
          cubeInfoAreas := s.cubeInfoAreas.set slot (makeClickText (toString (slot + 1)) (.num 0))
          scene := s.scene ++ [name] }
  else .threw s

/-- Function `componentA`: cubes "1" and "2". -/
def componentA (s : App) : Outcome App :=
  (placeCube s "1" 0xff0000 0).andThen fun s => placeCube s "2" 0xff0000 1

/-- Function `componentB`: cubes "3" and "4". -/
def componentB (s : App) : Outcome App :=
  (placeCube s "3" 0x0000ff 2).andThen fun s => placeCube s "4" 0x0000ff 3

/-- Fulfilment callback of `createAnchor`. -/
def anchorResolved (s : App) : Outcome App :=
  if s.pendingAnchors = 0 then .ok s else
  (componentA { s with pendingAnchors := s.pendingAnchors - 1 }).andThen componentB

/-- Rejection callback of `createAnchor`. -/
def anchorRejected (s : App) (error : String) : App :=
  if s.pendingAnchors = 0 then s else
  { s with
    pendingAnchors := s.pendingAnchors - 1
    console := s.console ++ ["Could not create anchor: " ++ error] }

/-- The call `this.removeObjectByName(...)`: the class defines no such method,
so the call raises a TypeError. -/
def removeObjectByName (s : App) (_objectName : String) : Outcome App := .threw s

/-- Handler `onYesClick`. -/
def onYesClick (s : App) : Outcome App :=
  (removeObjectByName { s with snackbarShow := false } "Cube 2 Mesh").andThen fun s =>
    .ok { s with wallPlaced := some false }

/-- Handler `onNoClick`: after the alert a timer is set that un-shows the snackbar. -/
def onNoClick (s : App) : App :=
  { s with timeouts := s.timeouts + 1 }

/-- The timer of `onNoClick` fires. -/
def timeoutFired (s : App) : App :=
  if s.timeouts = 0 then s else { s with timeouts := s.timeouts - 1, snackbarShow := false }

/-- Handler `onNextClick`. -/
def onNextClick (s : App) : Outcome App :=
  (removeObjectByName s "Cube 2 Mesh").andThen fun s =>
    let s := { s with
               shouldDisplayTransparentCube := some true
               transparencyType := s.transparencyType.incr }
    if s.transparencyType.gt 3 then
      .ok { s with nextButton := .hidden, snackbarShow := false }
    else .ok s

/-- The oldest font load completes: `makeCubeMarker` registers a visible label. -/
def fontLoaded (s : App) : App :=
  match s.fontLoads with
  | [] => s
  | (name, parentName) :: rest =>
    { s with
      fontLoads := rest
      objectLabels := mapSet s.objectLabels parentName true
      scene := s.scene ++ [name ++ "_label"] }

/-- Everything that can happen to the page. -/
inductive Event where
  | select
  | touch (raycaster : Raycaster) (event : PointerEvent)
  | resolved
  | rejected (error : String)
  | yes
  | no
  | next
  | font
  | timeout

/-- One callback run. -/
def step (s : App) : Event → App
  | .select => onSelect s
  | .touch r e => (onTouchEnd s r e).state
  | .resolved => (anchorResolved s).state
  | .rejected err => anchorRejected s err
  | .yes => (onYesClick s).state
  | .no => onNoClick s
  | .next => (onNextClick s).state
  | .font => fontLoaded s
  | .timeout => timeoutFired s

/-- A sequence of callbacks, run in order. -/
def run (s : App) (es : List Event) : App := es.foldl step s

end SameSpace

/-! ## Scene objects of the invisibility experiments -/

/-- A single three.js material: its colour and its opacity. -/
structure Material where
  color : Nat
  opacity : ℚ
  deriving Repr, DecidableEq

/-- An object of the scene graph.  `material` is `none` when the object has no
single material (a light, or a label, whose `material` is an array of two). -/
structure Object3D where
  name : String
  material : Option Material
  visible : Bool
  clickCount : Count
  deriving Repr, DecidableEq

/-- What `raycaster.intersectObject(obj)` says after `setFromCamera(mouse, camera)`:
whether the ray through `mouse` meets the object with the given reference. -/
abbrev Raycaster := ℚ × ℚ → Nat → Bool

/-- The mesh built by `new THREE.Mesh(geometry, material)`. -/
def newMesh (material : Material) : Object3D :=
  { name := "", material := some material, visible := true, clickCount := .undefined }

/-- The text mesh built by the font callback of `makeCubeMarker`. -/
def newText (name : String) : Object3D :=
  { name := name, material := none, visible := true, clickCount := .undefined }

/-- Field update through an object reference (an index into the heap). -/
def updateObject (objects : List Object3D) (ref : Nat) (f : Object3D → Object3D) :
    List Object3D :=
  match objects[ref]? with
  | some o => objects.set ref (f o)
  | none => objects

/-- The `name` read through an object reference. -/
def nameOf (objects : List Object3D) (ref : Nat) : String :=
  match objects[ref]? with
  | some o => o.name
  | none => ""

/-- The `clickCount` read through an object reference. -/
def clickCountOf (objects : List Object3D) (ref : Nat) : Count :=
  match objects[ref]? with
  | some o => o.clickCount
  | none => .undefined

/-- The pair (opacity, visible) of an object with a single material. -/
def materialState (o : Object3D) : Option (ℚ × Bool) :=
  o.material.map fun m => (m.opacity, o.visible)

/-- The material states of the objects of a given name, in creation order. -/
def statesOfName (objects : List Object3D) (name : String) : List (ℚ × Bool) :=
  (objects.filter fun o => o.name == name).filterMap materialState

/-! ## invisibility-experiments-arka/invisibility-experiments/final -/

namespace InvisFinal

/-- The loop of `changeColorOnIntersect` (interactions.js), over the entries of
`meshes` from the last index down; `random` is the value of
`Math.random() * 0xffffff` as `setHex` stores it. -/
def changeColorLoop (objects : List Object3D) (intersects : Nat → Bool) (random : Nat) :
    List Nat → Outcome (List Object3D × Option Nat)
  | [] => .ok (objects, none)
  | m :: rest =>
    if intersects m then
      match objects[m]? with
      | some o =>
        match o.material with
        | some mat =>
          .ok (objects.set m { o with material := some { mat with color := random } }, some m)
        | none => .threw (objects, none)
      | none => .threw (objects, none)
    else changeColorLoop objects intersects random rest

/-- Function `changeColorOnIntersect(raycaster, meshes)` of interactions.js. -/
def changeColorOnIntersect (objects : List Object3D) (intersects : Nat → Bool) (random : Nat)
    (meshes : List Nat) : Outcome (List Object3D × Option Nat) :=
  changeColorLoop objects intersects random meshes.reverse

/-- The fields of `App`, the heap of scene objects (`objects`, referenced by
index), the DOM elements the page writes and the asynchronous work in flight. -/
structure App where
  objects : List Object3D
  scene : List Nat
  anchoredObjects : List Nat
  meshes : List Nat
  anchorPlaced : Bool
  componentBEnabled : Bool
  wallPlaced : Bool
  shouldDisplayInitialCube : Bool
  shouldDisplayTransparentCube : Bool
  shouldDisplay : Bool
  transparencyType : Nat
  mouse : ℚ × ℚ
  cubeInfoAreas : List String
  objectLabels : List (String × Nat)
  yesButton : Visibility
  noButton : Visibility
  nextButton : Visibility
  snackbarShow : Bool
  snackbarContent : String
  pendingAnchors : Nat
  anchorRequests : Nat
  fontLoads : List (String × String)
  timeouts : Nat
  console : List String
  deriving Repr, DecidableEq

/-- State after `onSessionStarted`.  `lit` holds the children the scene starts
with: those of `DemoUtils.createLitScene()` and the reticle. -/
def init (lit : List Object3D) : App :=
  { objects := lit, scene := List.range lit.length, anchoredObjects := [], meshes := [],
    anchorPlaced := false, componentBEnabled := false, wallPlaced := false,
    shouldDisplayInitialCube := true, shouldDisplayTransparentCube := false,
    shouldDisplay := true, transparencyType := 0, mouse := (1, 1), cubeInfoAreas := [],
    objectLabels := [], yesButton := .unset, noButton := .unset, nextButton := .hidden,
    snackbarShow := false, snackbarContent := "", pendingAnchors := 0, anchorRequests := 0,
    fontLoads := [], timeouts := 0, console := [] }

/-- The loop of `updateInfoScreen`, at index `i` with the meshes from `i` on. -/
def updateInfoLoop (objects : List Object3D) : List Nat → Nat → List String → List String
  | [], _, areas => areas
  | m :: rest, i, areas =>
    if i < areas.length then
      updateInfoLoop objects rest (i + 1)
        (areas.set i ("Cube " ++ toString (i + 1) ++ ": " ++ (clickCountOf objects m).render))
    else
      updateInfoLoop objects rest (i + 1)
        (areas ++ ["Cube " ++ toString (i + 1) ++ ": not initialized"])

/-- Method `updateInfoScreen`. -/
def updateInfoScreen (s : App) : App :=
  { s with cubeInfoAreas := updateInfoLoop s.objects s.meshes 0 s.cubeInfoAreas }

/-- Method `makeCubeMarker`: the label is built when the font has loaded. -/
def makeCubeMarker (s : App) (name parentName : String) : App :=
  { s with fontLoads := s.fontLoads ++ [(name, parentName)] }

/-- The call `this.scene.getObjectByName(objectName)`. -/
def getObjectByName (s : App) (objectName : String) : Option Nat :=
  s.scene.find? fun ref => nameOf s.objects ref == objectName

/-- Method `removeObjectByName`; it raises when no scene object has the name,
and in `geometry.dispose()` / `material.dispose()` when the object found is not
a mesh with a single material (a light has no geometry, the material array of
a label has no `dispose`). -/
def removeObjectByName (s : App) (objectName : String) : Outcome App :=
  match getObjectByName s objectName with
  | none => .threw s
  | some selectedObject =>
    match (s.objects[selectedObject]?).bind Object3D.material with
    | none => .threw s
    | some _ =>
      .ok { s with
            scene := s.scene.erase selectedObject
            meshes := s.meshes.filter fun ref => nameOf s.objects ref != objectName }

/-- Handler `onYesClick`. -/
def onYesClick (s : App) : Outcome App :=
  let s := { s with console := s.console ++ ["CLICKED!"], snackbarShow := false }
  (removeObjectByName s "Cube 2 Mesh").andThen fun s => .ok { s with wallPlaced := false }

/-- Handler `onNoClick`: after the alert a timer is set that un-shows the snackbar. -/
def onNoClick (s : App) : App :=
  { s with timeouts := s.timeouts + 1 }

/-- The timer of `onNoClick` fires. -/
def timeoutFired (s : App) : App :=
  if s.timeouts = 0 then s else { s with timeouts := s.timeouts - 1, snackbarShow := false }

/-- Handler `onNextClick`. -/
def onNextClick (s : App) : Outcome App :=
  (removeObjectByName s "Cube 2 Mesh").andThen fun s =>
    let s := { s with
               shouldDisplayTransparentCube := true
               transparencyType := s.transparencyType + 1 }
    let s := if s.transparencyType > 2 then
               { s with nextButton := .hidden, snackbarShow := false }
             else s
    .ok { s with console := s.console ++ ["CLICKED!"], wallPlaced := false }

/-- Method `addBoxToScene`: returns the state and the reference of the new mesh. -/
def addBoxToScene (s : App) (material : Material) : App × Nat :=
  let mesh := s.objects.length
  ({ s with
     objects := s.objects ++ [{ newMesh material with clickCount := .num 0 }]
     meshes := s.meshes ++ [mesh] }, mesh)

/-- Method `addAnchoredBoxToScene`. -/
def addAnchoredBoxToScene (s : App) (material : Material) : App × Nat :=
  let s := { s with console := s.console ++ ["Anchor created"] }
  let (s, mesh) := addBoxToScene s material
  ({ s with
     anchoredObjects := s.anchoredObjects ++ [mesh]
     scene := s.scene ++ [mesh]
     console := s.console ++ ["Added mesh"] }, mesh)

/-- Method `displayToUser`. -/
def displayToUser (s : App) (content : String) : App :=
  if s.shouldDisplay then
    { s with snackbarContent := content, snackbarShow := true, shouldDisplay := false }
  else s

/-- Method `componentA`. -/
def componentA (s : App) : App :=
  let (s, mesh) := addAnchoredBoxToScene s { color := 0xff0000, opacity := 1 }
  let s := { s with objects := updateObject s.objects mesh fun o => { o with name := "Cube 1 Mesh" } }
  makeCubeMarker s "Cube 1" "Cube 1 Mesh"

/-- The statements the three wall branches of `componentB` share: the box is
made, placed relative to `referenceMesh` (which raises when it is `undefined`),
named, given its `visible` flag, added to the scene and labelled. -/
def placeWall (s : App) (referenceMesh : Option Nat) (material : Material) (visible : Bool) :
    Outcome App :=
  let (s, mesh) := addBoxToScene s material
  match referenceMesh with
  | none => .threw s
  | some _ =>
    let s := { s with
               objects := updateObject s.objects mesh fun o =>
                 { o with name := "Cube 2 Mesh", visible := visible }
               scene := s.scene ++ [mesh] }
    .ok (makeCubeMarker s "Cube 2" "Cube 2 Mesh")

/-- Method `componentB`. -/
def componentB (s : App) (referenceMesh : Option Nat) : Outcome App :=
  if s.shouldDisplayInitialCube then
    (placeWall s referenceMesh { color := 0x0000ff, opacity := 1 } true).andThen fun s =>
      let s := displayToUser s "Verify that you can see Cube 2 but not Cube 1"
      .ok { s with shouldDisplayInitialCube := false, shouldDisplayTransparentCube := true }
  else if s.shouldDisplayTransparentCube then
    if s.transparencyType = 0 then
      (placeWall s referenceMesh { color := 0x0000ff, opacity := 0 } true).andThen fun s =>
        let s := { s with
                   shouldDisplayTransparentCube := false
                   yesButton := .hidden, noButton := .hidden, nextButton := .visible }
        .ok (displayToUser s
          "Try to click on Cube 1 and verify whether you can or cannot, then press next")
    else if s.transparencyType = 1 then
      (placeWall s referenceMesh { color := 0x0000ff, opacity := 0 } false).andThen fun s =>
        let s := { s with shouldDisplayTransparentCube := false, transparencyType := 2 }
        .ok (displayToUser s
          "Try to click on Cube 1 and verify whether you can or cannot, then press next")
    else .ok s
  else .ok s

/-- Handler `onSelect`. -/
def onSelect (s : App) : Outcome App :=
  let s := { s with shouldDisplay := true }
  let r : Outcome App :=
    if !s.anchorPlaced && !s.componentBEnabled then
      .ok { s with pendingAnchors := s.pendingAnchors + 1, anchorRequests := s.anchorRequests + 1 }
    else if s.componentBEnabled then
      if !s.wallPlaced then
        (componentB s s.anchoredObjects[0]?).andThen fun s => .ok { s with wallPlaced := true }
      else .ok s
    else .ok s
  r.andThen fun s => .ok (updateInfoScreen s)

/-- Fulfilment callback of `createAnchor`. -/
def anchorResolved (s : App) : App :=
  if s.pendingAnchors = 0 then s else
  let s := componentA { s with pendingAnchors := s.pendingAnchors - 1 }
  { s with anchorPlaced := true, componentBEnabled := true }

/-- Rejection callback of `createAnchor`. -/
def anchorRejected (s : App) (error : String) : App :=
  if s.pendingAnchors = 0 then s else
  { s with
    pendingAnchors := s.pendingAnchors - 1
    console := s.console ++ ["Could not create anchor: " ++ error] }

/-- Handler `onTouchEnd`. -/
def onTouchEnd (s : App) (raycaster : Raycaster) (event : PointerEvent) (random : Nat) :
    Outcome App :=
  let r : Outcome App :=
    if s.anchorPlaced then
      if s.componentBEnabled then
        let s := { s with mouse := deviceCoords event }
        match changeColorOnIntersect s.objects (raycaster s.mouse) random s.scene with
        | .threw (objects, _) => .threw { s with objects := objects }
        | .ok (objects, none) => .ok { s with objects := objects }
        | .ok (objects, some mesh) =>
          .ok { s with
                objects := updateObject objects mesh fun o =>
                  { o with clickCount := o.clickCount.incr } }
      else .ok s
    else .ok s
  r.andThen fun s => .ok (updateInfoScreen s)

/-- The oldest font load completes: the label is registered and added. -/
def fontLoaded (s : App) : App :=
  match s.fontLoads with
  | [] => s
  | (name, parentName) :: rest =>
    let text := s.objects.length
    { s with
      fontLoads := rest
      objects := s.objects ++ [newText name]
      objectLabels := mapSet s.objectLabels parentName text
      scene := s.scene ++ [text] }

/-- Everything that can happen to the page. -/
inductive Event where
  | select
  | touch (raycaster : Raycaster) (event : PointerEvent) (random : Nat)
  | resolved
  | rejected (error : String)
  | yes
  | no
  | next
  | font
  | timeout

/-- One callback run. -/
def step (s : App) : Event → App
  | .select => (onSelect s).state
  | .touch r e random => (onTouchEnd s r e random).state
  | .resolved => anchorResolved s
  | .rejected err => anchorRejected s err
  | .yes => (onYesClick s).state
  | .no => onNoClick s
  | .next => (onNextClick s).state
  | .font => fontLoaded s
  | .timeout => timeoutFired s

/-- A sequence of callbacks, run in order. -/
def run (s : App) (es : List Event) : App := es.foldl step s

/-- The (opacity, visible) states of the walls created so far, oldest first. -/
def wallStates (s : App) : List (ℚ × Bool) := statesOfName s.objects "Cube 2 Mesh"

end InvisFinal

/-! ## invisibility-experiments-arka/final -/

namespace ArkaFinal

/-- Function `changeColorOnIntersect(raycaster, mesh)` of interactions.js; it
raises when `mesh` is `undefined` or has no single material to recolour. -/
def changeColorOnIntersect (objects : List Object3D) (intersects : Nat → Bool) (random : Nat)
    (mesh : Option Nat) : Outcome (List Object3D) :=
  match mesh with
  | none => .threw objects
  | some m =>
    if intersects m then
      match objects[m]? with
      | some o =>
        match o.material with
        | some mat => .ok (objects.set m { o with material := some { mat with color := random } })
        | none => .threw objects
      | none => .threw objects
    else .ok objects

/-- The fields of `App`, the heap of scene objects (`objects`, referenced by
index), the DOM elements the page writes and the asynchronous work in flight. -/
structure App where
  objects : List Object3D
  scene : List Nat
  anchoredObjects : List Nat
  meshes : List Nat
  anchorPlaced : Bool
  componentBEnabled : Bool
  wallPlaced : Bool
  shouldDisplayInitialCube : Bool
  shouldDisplayTransparentCube : Bool
  shouldDisplay : Bool
  mouse : ℚ × ℚ
  snackbarShow : Bool
  snackbarContent : String
  pendingAnchors : Nat
  anchorRequests : Nat
  timeouts : Nat
  console : List String
  deriving Repr, DecidableEq

/-- State after `onSessionStarted`.  `lit` holds the children the scene starts
with: those of `DemoUtils.createLitScene()` and the reticle. -/
def init (lit : List Object3D) : App :=
  { objects := lit, scene := List.range lit.length, anchoredObjects := [], meshes := [],
    anchorPlaced := false, componentBEnabled := false, wallPlaced := false,
    shouldDisplayInitialCube := true, shouldDisplayTransparentCube := false,
    shouldDisplay := true, mouse := (1, 1), snackbarShow := false, snackbarContent := "",
    pendingAnchors := 0, anchorRequests := 0, timeouts := 0, console := [] }

/-- The call `this.scene.getObjectByName(objectName)`. -/
def getObjectByName (s : App) (objectName : String) : Option Nat :=
  s.scene.find? fun ref => nameOf s.objects ref == objectName

/-- Method `removeObjectByName`: `scene.remove(undefined)` removes nothing. -/
def removeObjectByName (s : App) (objectName : String) : App :=
  match getObjectByName s objectName with
  | none => s
  | some selectedObject => { s with scene := s.scene.erase selectedObject }

/-- Handler `onYesClick`. -/
def onYesClick (s : App) : App :=
  let s := { s with console := s.console ++ ["CLICKED!"] }
  { removeObjectByName s "thewall" with wallPlaced := false }

/-- Handler `onNoClick`: after the alert a timer is set that un-shows the snackbar. -/
def onNoClick (s : App) : App :=
  { s with timeouts := s.timeouts + 1 }

/-- The timer of `onNoClick` fires. -/
def timeoutFired (s : App) : App :=
  if s.timeouts = 0 then s else { s with timeouts := s.timeouts - 1, snackbarShow := false }

/-- Method `addBoxToScene`: returns the state and the reference of the new mesh. -/
def addBoxToScene (s : App) (material : Material) : App × Nat :=
  let mesh := s.objects.length
  ({ s with objects := s.objects ++ [newMesh material], meshes := s.meshes ++ [mesh] }, mesh)

/-- Method `addAnchoredBoxToScene`; the mesh is pushed on `meshes` a second time. -/
def addAnchoredBoxToScene (s : App) (material : Material) : App × Nat :=
  let s := { s with console := s.console ++ ["Anchor created"] }
  let (s, mesh) := addBoxToScene s material
  ({ s with
     anchoredObjects := s.anchoredObjects ++ [mesh]
     scene := s.scene ++ [mesh]
     meshes := s.meshes ++ [mesh]
     console := s.console ++ ["Added mesh"] }, mesh)

/-- Method `displayToUser`. -/
def displayToUser (s : App) (content : String) : App :=
  if s.shouldDisplay then
    { s with snackbarContent := content, snackbarShow := true, shouldDisplay := false }
  else s

/-- Method `componentA`. -/
def componentA (s : App) : App :=
  let (s, mesh) := addAnchoredBoxToScene s { color := 0xff0000, opacity := 1 }
  { s with objects := updateObject s.objects mesh fun o => { o with name := "testcube" } }

/-- The statements the two wall branches of `componentB` share: the box is
made, placed relative to `referenceMesh` (which raises when it is `undefined`),
named and added to the scene. -/
def placeWall (s : App) (referenceMesh : Option Nat) (material : Material) : Outcome App :=
  let (s, mesh) := addBoxToScene s material
  match referenceMesh with
  | none => .threw s
  | some _ =>
    .ok { s with
          objects := updateObject s.objects mesh fun o => { o with name := "thewall" }
          scene := s.scene ++ [mesh] }

/-- Method `componentB`. -/
def componentB (s : App) (referenceMesh : Option Nat) : Outcome App :=
  if s.shouldDisplayInitialCube then
    (placeWall s referenceMesh { color := 0x0000ff, opacity := 0.75 }).andThen fun s =>
      let s := displayToUser s "Verify that you can see Cube 2 but not Cube 1"
      .ok { s with shouldDisplayInitialCube := false, shouldDisplayTransparentCube := true }
  else if s.shouldDisplayTransparentCube then
    (placeWall s referenceMesh { color := 0x0000ff, opacity := 0 }).andThen fun s =>
      .ok { s with shouldDisplayTransparentCube := false }
  else .ok s

/-- Handler `onSelect`. -/
def onSelect (s : App) : Outcome App :=
  let s := { s with shouldDisplay := true }
  if !s.anchorPlaced && !s.componentBEnabled then
    .ok { s with pendingAnchors := s.pendingAnchors + 1, anchorRequests := s.anchorRequests + 1 }
  else if s.componentBEnabled then
    if !s.wallPlaced then
      (componentB s s.anchoredObjects[0]?).andThen fun s => .ok { s with wallPlaced := true }
    else .ok s
  else .ok s

/-- Fulfilment callback of `createAnchor`. -/
def anchorResolved (s : App) : App :=
  if s.pendingAnchors = 0 then s else
  let s := componentA { s with pendingAnchors := s.pendingAnchors - 1 }
  { s with anchorPlaced := true, componentBEnabled := true }

/-- Rejection callback of `createAnchor`. -/
def anchorRejected (s : App) (error : String) : App :=
  if s.pendingAnchors = 0 then s else
  { s with
    pendingAnchors := s.pendingAnchors - 1
    console := s.console ++ ["Could not create anchor: " ++ error] }

/-- Handler `onTouchEnd`. -/
def onTouchEnd (s : App) (raycaster : Raycaster) (event : PointerEvent) (random : Nat) :
    Outcome App :=
  if s.anchorPlaced then
    if s.anchorPlaced && s.componentBEnabled then
      let s := { s with mouse := deviceCoords event }
      let selectedObject := getObjectByName s "testcube"
      match changeColorOnIntersect s.objects (raycaster s.mouse) random selectedObject with
      | .threw objects => .threw { s with objects := objects }
      | .ok objects => .ok { s with objects := objects }
    else .ok s
  else .ok s

/-- Everything that can happen to the page. -/
inductive Event where
  | select
  | touch (raycaster : Raycaster) (event : PointerEvent) (random : Nat)
  | resolved
  | rejected (error : String)
  | yes
  | no
  | timeout

/-- One callback run. -/
def step (s : App) : Event → App
  | .select => (onSelect s).state
  | .touch r e random => (onTouchEnd s r e random).state
  | .resolved => anchorResolved s
  | .rejected err => anchorRejected s err
  | .yes => onYesClick s
  | .no => onNoClick s
  | .timeout => timeoutFired s

/-- A sequence of callbacks, run in order. -/
def run (s : App) (es : List Event) : App := es.foldl step s

/-- The (opacity, visible) states of the walls created so far, oldest first. -/
def wallStates (s : App) : List (ℚ × Bool) := statesOfName s.objects "thewall"

end ArkaFinal

/-- The wall sequence tabulated in the specification: opacity 0.75 and visible,
opacity 0 and visible, opacity 0 and not visible. -/
def tabulatedWallStates : List (ℚ × Bool) := [(0.75, true), (0, true), (0, false)]

/-! ## Invariants used below -/

/-- Every cube of same-space-tests is visible and fully opaque. -/
def SameSpace.AllSolid (s : SameSpace.App) : Prop :=
  ∀ c ∈ s.anchoredObjects, c.visible = true ∧ c.opacity = 1

/-- A wall of invisibility-experiments/final has opacity 1 or 0. -/
def InvisFinal.WallOpacityOK (o : Object3D) : Prop :=
  o.name = "Cube 2 Mesh" → ∀ m, o.material = some m → m.opacity = 1 ∨ m.opacity = 0

/-- A wall of invisibility-experiments-arka/final is visible. -/
def ArkaFinal.WallVisible (o : Object3D) : Prop :=
  o.name = "thewall" → o.visible = true

/-- Every object of `objects` is still in `later`, under the same reference and
with the same name, `visible` flag and click count (its colour may differ). -/
def ObjectsKept (objects later : List Object3D) : Prop :=
  ∀ (r : Nat) (o : Object3D), objects[r]? = some o →
    ∃ p : Object3D, later[r]? = some p ∧ p.name = o.name ∧ p.visible = o.visible ∧
      p.clickCount = o.clickCount

/-- Every object of `objects` is still in `later`, under the same reference and
with the same name and `visible` flag; its click count is the same or has been
incremented once. -/
def ObjectsCounted (objects later : List Object3D) : Prop :=
  ∀ (r : Nat) (o : Object3D), objects[r]? = some o →
    ∃ p : Object3D, later[r]? = some p ∧ p.name = o.name ∧ p.visible = o.visible ∧
      (p.clickCount = o.clickCount ∨ p.clickCount = o.clickCount.incr)

/-- The click count shown for a name in invisibility-experiments/final: that of
the scene object `getObjectByName` finds. -/
def InvisFinal.clickCountByName (s : InvisFinal.App) (name : String) : Option Count :=
  (InvisFinal.getObjectByName s name).map (clickCountOf s.objects)

/-- The wall mesh `componentB` of invisibility-experiments/final builds: blue,
named 'Cube 2 Mesh', never tapped, with the given opacity and `visible` flag. -/
def InvisFinal.wallMesh (opacity : ℚ) (visible : Bool) : Object3D :=
  { name := "Cube 2 Mesh", material := some { color := 0x0000ff, opacity := opacity },
    visible := visible, clickCount := .num 0 }

/-- The wall mesh `componentB` of invisibility-experiments-arka/final builds:
blue, named 'thewall', visible, with the given opacity. -/
def ArkaFinal.wallMesh (opacity : ℚ) : Object3D :=
  { name := "thewall", material := some { color := 0x0000ff, opacity := opacity },
    visible := true, clickCount := .undefined }

/-! ## The click helpers: rayclick.js (two versions) and expanded-shapes.js -/

/-- What `raycaster.intersectObjects([object])` returns after
`setFromCamera(mouse, camera)`, for a fixed camera and object: the
intersections of the ray through `mouse` with the object, nearest first, each
given by its distance. -/
abbrev Caster := ℚ × ℚ → List ℚ

/-- The object handed to a click helper; `maliciousField` is the field the
object-interaction version of `handleIfClicked` writes. -/
structure Target where
  name : String
  maliciousField : Option String
  deriving Repr, DecidableEq

/-- What a click helper has done when it returns: the object as it leaves it,
the invocations of the click handler it made (each with its argument list, in
order), and the console. -/
structure Effect (α : Type) where
  object : Target
  calls : List (List α)
  console : List String
  deriving Repr, DecidableEq

namespace RayClick

/-- Function `handleIfClicked` of js/third-party/rayclick.js. -/
def handleIfClicked {α : Type} (caster : Caster) (object : Target) (_event : PointerEvent)
    (args : List α) : Effect α :=
  let intersects := caster (0, 0)
  if intersects.length == 1 then
    { object := object, calls := [args], console := ["intersects!"] }
  else
    { object := object, calls := [], console := [] }

end RayClick

namespace ObjectInteraction

/-- Function `handleIfClicked` of object-interaction/js/third-party/rayclick.js;
`buyNow` writes the last console line. -/
def handleIfClicked {α : Type} (caster : Caster) (object : Target) (_event : PointerEvent)
    (args : List α) : Effect α :=
  let intersects := caster (0, 0)
  if intersects.length == 1 then
    { object := { object with maliciousField := some "successfully inserted field" }
      calls := [args]
      console := ["intersects!", "You just bought a new computer!"] }
  else
    { object := object, calls := [], console := [] }

end ObjectInteraction

namespace ExpandedShapes

/-- Method `Cube.onClick(camera, args)` of js/third-party/expanded-shapes.js, on
the cube `object`; the handler invoked is the cube's `associatedAction`. -/
def onClick {α : Type} (caster : Caster) (object : Target) (args : List α) : Effect α :=
  let intersects := caster (0, 0)
  if intersects.length == 1 then
    { object := object, calls := [args], console := ["intersects!"] }
  else
    { object := object, calls := [], console := [] }

end ExpandedShapes

/-- The four info lines of same-space-tests exist and every cube carries one of
the names '1' to '4'. -/
def SameSpace.NamesInRange (s : SameSpace.App) : Prop :=
  s.cubeInfoAreas.length = 4 ∧
    ∀ c ∈ s.anchoredObjects, c.name = "1" ∨ c.name = "2" ∨ c.name = "3" ∨ c.name = "4"

/-- What the wall stages of invisibility-experiments/final read and write: the
walls created so far, `shouldDisplayInitialCube`, `shouldDisplayTransparentCube`
and `transparencyType`. -/
def InvisFinal.wallProgress (s : InvisFinal.App) : List (ℚ × Bool) × Bool × Bool × Nat :=
  (InvisFinal.wallStates s, s.shouldDisplayInitialCube, s.shouldDisplayTransparentCube,
    s.transparencyType)

/-- What one callback of invisibility-experiments/final can do to the wall
stages: nothing; create the first wall; create the wall of stage 0; create the
wall of stage 1; or (Next) move on to the next stage. -/
def InvisFinal.WallMove (p q : List (ℚ × Bool) × Bool × Bool × Nat) : Prop :=
  q = p ∨
  (p.2.1 = true ∧ q = (p.1 ++ [(1, true)], false, true, p.2.2.2)) ∨
  (p.2.1 = false ∧ p.2.2.1 = true ∧ p.2.2.2 = 0 ∧
    q = (p.1 ++ [(0, true)], false, false, 0)) ∨
  (p.2.1 = false ∧ p.2.2.1 = true ∧ p.2.2.2 = 1 ∧
    q = (p.1 ++ [(0, false)], false, false, 2)) ∨
  q = (p.1, p.2.1, true, p.2.2.2 + 1)

/-- The walls created so far are in stage order: none before the first wall;
then the opaque wall; then the wall of stage 0 or, when Next came first, that
of stage 1; the wall of stage 1 is the last. -/
def InvisFinal.WallsStaged (p : List (ℚ × Bool) × Bool × Bool × Nat) : Prop :=
  (p.2.1 = true ∧ p.1 = []) ∨
  (p.2.1 = false ∧ p.1 = [(1, true)]) ∨
  (p.2.1 = false ∧ p.1 = [(1, true), (0, true)] ∧ (p.2.2.1 = true → 1 ≤ p.2.2.2)) ∨
  (p.2.1 = false ∧ 2 ≤ p.2.2.2 ∧
    (p.1 = [(1, true), (0, false)] ∨ p.1 = [(1, true), (0, true), (0, false)]))

/-- What the wall stages of invisibility-experiments-arka/final read and write:
the walls created so far and the two stage flags. -/
def ArkaFinal.wallProgress (s : ArkaFinal.App) : List (ℚ × Bool) × Bool × Bool :=
  (ArkaFinal.wallStates s, s.shouldDisplayInitialCube, s.shouldDisplayTransparentCube)

/-- What one callback of invisibility-experiments-arka/final can do to the wall
stages: nothing; create the first wall; or create the transparent wall. -/
def ArkaFinal.WallMove (p q : List (ℚ × Bool) × Bool × Bool) : Prop :=
  q = p ∨
  (p.2.1 = true ∧ q = (p.1 ++ [(0.75, true)], false, true)) ∨
  (p.2.1 = false ∧ p.2.2 = true ∧ q = (p.1 ++ [(0, true)], false, false))

/-- The walls created so far are in stage order: none before the first wall,
then the wall of opacity 0.75, then the transparent wall, the last. -/
def ArkaFinal.WallsStaged (p : List (ℚ × Bool) × Bool × Bool) : Prop :=
  (p.2.1 = true ∧ p.1 = []) ∨
  (p.2.1 = false ∧ p.2.2 = true ∧ p.1 = [(0.75, true)]) ∨
  (p.2.1 = false ∧ p.2.2 = false ∧ p.1 = [(0.75, true), (0, true)])

/-! ## Theorems -/


theorem mapGet_mapSet {α : Type} (m : List (String × α)) (k key : String) (v : α) :
    mapGet (mapSet m k v) key = if key = k then some v else mapGet m key := by
  induction m with
  | nil =>
    by_cases h : key = k
    · simp [mapSet, mapGet, h]
    · have h' : ¬ k = key := fun e => h e.symm
      simp [mapSet, mapGet, h, h']
  | cons p rest ih =>
    obtain ⟨k', v'⟩ := p
    by_cases hk : k' = k
    · subst hk
      by_cases h : key = k'
      · simp [mapSet, mapGet, h]
      · have h' : ¬ k' = key := fun e => h e.symm
        simp [mapSet, mapGet, h, h']
    · by_cases h : key = k
      · subst h
        simp [mapSet, mapGet, hk, ih]
      · by_cases h2 : k' = key
        · simp [mapSet, mapGet, hk, h, h2]
        · simp [mapSet, mapGet, hk, h, h2, ih]

namespace BaseCase

theorem skipLoop_spec (l : List Cube) (i : Nat) :
    i ≤ skipLoop l i ∧
      l[skipLoop l i - i]? = l.find? (fun c => c.visible && c.opacity != 0) := by
  induction l generalizing i with
  | nil => simp [skipLoop]
  | cons c rest ih =>
    by_cases h : (!c.visible || c.opacity == 0) = true
    · obtain ⟨h1, h2⟩ := ih (i + 1)
      have hsel : (c.visible && c.opacity != 0) = false := by
        cases hv : c.visible <;> simp_all
      have hidx : skipLoop rest (i + 1) - i = (skipLoop rest (i + 1) - (i + 1)) + 1 := by omega
      simp only [skipLoop, h, if_true]
      refine ⟨by omega, ?_⟩
      rw [hidx, List.getElem?_cons_succ, h2, List.find?_cons, hsel]
    · have hsel : (c.visible && c.opacity != 0) = true := by
        cases hv : c.visible <;> simp_all
      simp only [skipLoop, h]
      simp [List.find?_cons, hsel]

/-- C1: `onClick` returns normally, and the label map it leaves differs from the
previous one only at the label of the first intersection entry that is visible
with non-zero opacity, whose visibility is negated; when no entry qualifies
(the empty list included) the label map is unchanged. -/
theorem onClick_toggles_first_selectable (s : App) (raycaster : Raycaster)
    (event : PointerEvent)
    (hlab : ∀ c ∈ raycaster (0, 0), (mapGet s.objectLabels c.name).isSome = true) :
    ∃ s', onClick s raycaster event = .ok s' ∧
      match (raycaster (0, 0)).find? (fun c => c.visible && c.opacity != 0) with
      | some hit => ∀ key, mapGet s'.objectLabels key =
          if key = hit.name then (mapGet s.objectLabels key).map (fun v => !v)
          else mapGet s.objectLabels key
      | none => s'.objectLabels = s.objectLabels := by
  unfold onClick
  simp only []
  generalize raycaster (0, 0) = l at hlab
  obtain ⟨_, hfind⟩ := skipLoop_spec l 0
  rw [Nat.sub_zero] at hfind
  by_cases hlen : l.length > 0
  · rw [if_pos hlen, hfind]
    cases hf : l.find? (fun c => c.visible && c.opacity != 0) with
    | none => exact ⟨_, rfl, rfl⟩
    | some hit =>
      have hmem : hit ∈ l := List.mem_of_find?_eq_some hf
      have hsome := hlab hit hmem
      obtain ⟨v, hg⟩ := Option.isSome_iff_exists.mp hsome
      simp only [hg]
      refine ⟨_, rfl, ?_⟩
      · intro key
        simp only [mapGet_mapSet]
        by_cases hk : key = hit.name
        · subst hk; simp [hg]
        · simp [hk]
  · rw [if_neg hlen]
    have hnil : l = [] := by
      cases l with
      | nil => rfl
      | cons a l => simp at hlen
    subst hnil
    exact ⟨_, rfl, rfl⟩

/-- Witness of C1: the transparent cube is nearest, the red cube behind it is
the one whose label toggles. -/
theorem onClick_toggles_first_selectable_witness :
    ∃ s', onClick { init with objectLabels := [("cubeT", false), ("cube1", false)] }
        (fun _ => [cubeT, cube1]) ⟨0, 0, 1, 1⟩ = .ok s' ∧
      match ([cubeT, cube1] : List Cube).find? (fun c => c.visible && c.opacity != 0) with
      | some hit => ∀ key, mapGet s'.objectLabels key =
          if key = hit.name
          then (mapGet [("cubeT", false), ("cube1", false)] key).map (fun v => !v)
          else mapGet [("cubeT", false), ("cube1", false)] key
      | none => s'.objectLabels = [("cubeT", false), ("cube1", false)] :=
  onClick_toggles_first_selectable
    { init with objectLabels := [("cubeT", false), ("cube1", false)] }
    (fun _ => [cubeT, cube1]) ⟨0, 0, 1, 1⟩
    (by intro c hc; simp [cubeT, cube1] at hc; rcases hc with rfl | rfl <;> simp [mapGet])

end BaseCase

namespace SameSpace

theorem allSolid_placeCube (s : App) (name : String) (hexColor slot : Nat)
    (h : AllSolid s) : AllSolid (placeCube s name hexColor slot).state := by
  unfold placeCube
  simp only []
  split <;>
  · intro c hc
    simp only [Outcome.state, List.mem_append, List.mem_singleton] at hc
    rcases hc with hc | hc
    · exact h c hc
    · subst hc; exact ⟨rfl, rfl⟩

theorem allSolid_andThen (o : Outcome App) (f : App → Outcome App)
    (ho : AllSolid o.state) (hf : ∀ s, AllSolid s → AllSolid (f s).state) :
    AllSolid (o.andThen f).state := by
  cases o with
  | ok s => exact hf s ho
  | threw s => exact ho

theorem allSolid_onTouchEnd (s : App) (raycaster : Raycaster) (event : PointerEvent)
    (h : AllSolid s) : AllSolid (onTouchEnd s raycaster event).state := by
  unfold onTouchEnd
  simp only []
  split
  · exact h
  · rename_i i tl heq
    split
    · exact h
    · rename_i currObj hget
      have hcur : currObj.visible = true ∧ currObj.opacity = 1 :=
        h currObj (List.getElem?_mem hget)
      have key : ∀ c ∈ s.anchoredObjects.set i
          { currObj with clickCount := currObj.clickCount.incr },
          c.visible = true ∧ c.opacity = 1 := by
        intro c hc
        rcases List.mem_or_eq_of_mem_set hc with hc | hc
        · exact h c hc
        · subst hc; exact hcur
      split
      · exact key
      · split <;> exact key

theorem allSolid_step (s : App) (e : Event) (h : AllSolid s) : AllSolid (step s e) := by
  cases e with
  | select =>
    show AllSolid (onSelect s)
    unfold onSelect; split <;> exact h
  | touch r ev => exact allSolid_onTouchEnd s r ev h
  | resolved =>
    show AllSolid (anchorResolved s).state
    unfold anchorResolved
    split
    · exact h
    · apply allSolid_andThen
      · apply allSolid_andThen
        · exact allSolid_placeCube _ _ _ _ h
        · intro t ht; exact allSolid_placeCube _ _ _ _ ht
      · intro t ht
        apply allSolid_andThen
        · exact allSolid_placeCube _ _ _ _ ht
        · intro u hu; exact allSolid_placeCube _ _ _ _ hu
  | rejected err =>
    show AllSolid (anchorRejected s err)
    unfold anchorRejected; split <;> exact h
  | yes => exact h
  | no => exact h
  | next => exact h
  | font =>
    show AllSolid (fontLoaded s)
    unfold fontLoaded; split <;> exact h
  | timeout =>
    show AllSolid (timeoutFired s)
    unfold timeoutFired; split <;> exact h

theorem allSolid_run (es : List Event) (s : App) (h : AllSolid s) :
    AllSolid (run s es) := by
  induction es generalizing s with
  | nil => exact h
  | cons e es ih => exact ih (step s e) (allSolid_step s e h)

/-- C2, counterexample: the nearest intersected cube has `visible = false` and
opacity 0, and `onTouchEnd` increments its `clickCount` from 0 to 1 and writes
its info line. -/
theorem onTouchEnd_counts_hidden_first_entry :
    let hidden : Cube :=
      { name := "1", color := 0xff0000, opacity := 0, visible := false, clickCount := .num 0 }
    let shown : Cube :=
      { name := "2", color := 0xff0000, opacity := 1, visible := true, clickCount := .num 0 }
    let s := (onTouchEnd { init with anchoredObjects := [hidden, shown] }
      (fun _ => [0, 1]) ⟨10, 10, 100, 100⟩).state
    s.anchoredObjects.map Cube.clickCount = [.num 1, .num 0] ∧
      s.cubeInfoAreas[0]? = some "Cube 1: 1" := by
  decide

/-- C2, amended: `onTouchEnd` changes no cube other than the first entry of the
intersection list, and it increments the `clickCount` of that first entry
whatever its `visible` and opacity values are (no filter is applied); in every
state the page reaches from its initial state all cubes are visible with
opacity 1, so there the incremented cube is never invisible or transparent. -/
theorem onTouchEnd_counts_first_entry (s : App) (raycaster : Raycaster)
    (event : PointerEvent) (es : List Event) :
    (∀ j, (onTouchEnd s raycaster event).state.anchoredObjects[j]? ≠ s.anchoredObjects[j]? →
        (raycaster (deviceCoords event)).head? = some j) ∧
    (∀ j c, (raycaster (deviceCoords event)).head? = some j →
        s.anchoredObjects[j]? = some c →
        (onTouchEnd s raycaster event).state.anchoredObjects[j]? =
          some { c with clickCount := c.clickCount.incr }) ∧
    (∀ c ∈ (run init es).anchoredObjects, c.visible = true ∧ c.opacity = 1) := by
  refine ⟨?_, ?_, ?_⟩
  · intro j hj
    unfold onTouchEnd at hj
    simp only [] at hj
    cases hl : raycaster (deviceCoords event) with
    | nil => simp [hl, Outcome.state] at hj
    | cons i tl =>
      simp only [hl] at hj
      by_cases hij : i = j
      · simp [hij]
      · exfalso
        apply hj
        cases hg : s.anchoredObjects[i]? with
        | none => simp [Outcome.state]
        | some currObj =>
          simp only []
          split
          · simp [Outcome.state, List.getElem?_set_ne hij]
          · split <;> simp [Outcome.state, List.getElem?_set_ne hij]
  · intro j c hhead hget
    unfold onTouchEnd
    simp only []
    cases hl : raycaster (deviceCoords event) with
    | nil => simp [hl] at hhead
    | cons i tl =>
      have hij : i = j := by simpa [hl] using hhead
      subst hij
      have hlt : i < s.anchoredObjects.length := by
        by_contra hn
        rw [List.getElem?_eq_none (by omega)] at hget
        exact Option.noConfusion hget
      simp only [hget]
      split
      · simp [Outcome.state, List.getElem?_set, hlt]
      · split <;> simp [Outcome.state, List.getElem?_set, hlt]
  · exact allSolid_run es init (by intro c hc; simp [init] at hc)

end SameSpace

namespace InvisFinal

theorem changeColorLoop_skip (objects : List Object3D) (intersects : Nat → Bool) (random : Nat)
    (missed rest : List Nat) (h : ∀ r ∈ missed, intersects r = false) :
    changeColorLoop objects intersects random (missed ++ rest) =
      changeColorLoop objects intersects random rest := by
  induction missed with
  | nil => rfl
  | cons m ms ih =>
    have hm : intersects m = false := h m (List.mem_cons_self m ms)
    have hms : ∀ r ∈ ms, intersects r = false := fun r hr => h r (List.mem_cons_of_mem m hr)
    simp [changeColorLoop, hm, ih hms]

/-- C3, counterexample: after the run select, anchor settled, select, Yes,
select the wall (object 2, named 'Cube 2 Mesh') has opacity 0 and
`visible = true`; a tap whose ray meets the wall and the cube behind it leaves
the wall with `clickCount` 1 and the info line 'Cube 2: 1'. -/
theorem tap_on_transparent_wall_is_counted :
    let s := run (init []) [.select, .resolved, .select, .yes, .select]
    let t := (onTouchEnd s (fun _ ref => ref == 0 || ref == 2) ⟨50, 50, 100, 100⟩ 0x00ff00).state
    getObjectByName s "Cube 2 Mesh" = some 2 ∧
      s.objects[2]?.bind materialState = some (0, true) ∧
      clickCountOf s.objects 2 = .num 0 ∧
      clickCountOf t.objects 2 = .num 1 ∧
      t.cubeInfoAreas = ["Cube 1: 0", "Cube 2: 1"] := by
  decide

/-- C3, amended: with the anchor placed, a wall `w` of opacity 0 and
`visible = true` whose `clickCount` is 0, and a tap whose ray meets the wall and
no scene child added after it, `onTouchEnd` returns normally and has registered
the click on the wall: its `clickCount` is 1 (its colour is the random one, its
opacity and `visible` flag are as before). -/
theorem onTouchEnd_counts_transparent_wall (s : App) (raycaster : Raycaster)
    (event : PointerEvent) (random w : Nat) (o : Object3D) (mat : Material)
    (before after : List Nat)
    (hplaced : s.anchorPlaced = true) (henabled : s.componentBEnabled = true)
    (hscene : s.scene = before ++ w :: after)
    (hobj : s.objects[w]? = some o) (hmat : o.material = some mat)
    (hopacity : mat.opacity = 0) (hvisible : o.visible = true)
    (hcount : o.clickCount = .num 0)
    (hhit : raycaster (deviceCoords event) w = true)
    (hafter : ∀ r ∈ after, raycaster (deviceCoords event) r = false) :
    ∃ t, onTouchEnd s raycaster event random = .ok t ∧
      t.objects[w]? = some { name := o.name, material := some { color := random, opacity := 0 },
                             visible := true, clickCount := .num 1 } := by
  have hlt : w < s.objects.length := by
    by_contra hn
    rw [List.getElem?_eq_none (by omega)] at hobj
    exact Option.noConfusion hobj
  have hloop : changeColorOnIntersect s.objects (raycaster (deviceCoords event)) random s.scene =
      .ok (s.objects.set w { o with material := some { mat with color := random } }, some w) := by
    unfold changeColorOnIntersect
    rw [hscene, List.reverse_append, List.reverse_cons, List.append_assoc,
      changeColorLoop_skip _ _ _ _ _ (by intro r hr; exact hafter r (List.mem_reverse.mp hr))]
    simp [changeColorLoop, hhit, hobj, hmat]
  unfold onTouchEnd
  simp only [hplaced, henabled, if_true, hloop]
  refine ⟨_, rfl, ?_⟩
  simp [updateInfoScreen, updateObject, List.getElem?_set, hlt, hopacity, hvisible, hcount,
    Count.incr]

/-- Witness of C3 (amended) on the state reached by select, anchor settled,
select, Yes, select, where the wall is object 2. -/
theorem onTouchEnd_counts_transparent_wall_witness :
    ∃ t, onTouchEnd (run (init []) [.select, .resolved, .select, .yes, .select])
        (fun _ ref => ref == 0 || ref == 2) ⟨50, 50, 100, 100⟩ 0x00ff00 = .ok t ∧
      t.objects[2]? = some { name := "Cube 2 Mesh", material := some { color := 0x00ff00, opacity := 0 },
                             visible := true, clickCount := .num 1 } :=
  onTouchEnd_counts_transparent_wall
    (run (init []) [.select, .resolved, .select, .yes, .select])
    (fun _ ref => ref == 0 || ref == 2) ⟨50, 50, 100, 100⟩ 0x00ff00 2
    { name := "Cube 2 Mesh", material := some { color := 0x0000ff, opacity := 0 },
      visible := true, clickCount := .num 0 }
    { color := 0x0000ff, opacity := 0 } [0] []
    (by decide) (by decide) (by decide) (by decide) rfl rfl rfl rfl (by decide)
    (by intro r hr; cases hr)

end InvisFinal

theorem JsApp.js_singleAnchor_step (s : JsApp.App) (e : JsApp.Event)
    (h : s.singleAnchor = true) : (JsApp.step s e).singleAnchor = true := by
  cases e with
  | select =>
    show (JsApp.onSelect s).singleAnchor = true
    unfold JsApp.onSelect; split <;> simp [h]
  | resolved =>
    show (JsApp.anchorResolved s).singleAnchor = true
    unfold JsApp.anchorResolved; split <;> simp [h]
  | rejected err =>
    show (JsApp.anchorRejected s err).singleAnchor = true
    unfold JsApp.anchorRejected; split <;> simp [h]

theorem JsApp.js_singleAnchor_run (es : List JsApp.Event) (s : JsApp.App)
    (h : s.singleAnchor = true) : (JsApp.run s es).singleAnchor = true := by
  induction es generalizing s with
  | nil => exact h
  | cons e es ih => exact ih (JsApp.step s e) (JsApp.js_singleAnchor_step s e h)

theorem JsApp.js_singleAnchor_onSelect (s : JsApp.App) : (JsApp.onSelect s).singleAnchor = true := by
  unfold JsApp.onSelect
  cases h : s.singleAnchor <;> simp [h]

theorem BaseCase.base_singleAnchor_step (s : BaseCase.App) (e : BaseCase.Event)
    (h : s.singleAnchor = true) : (BaseCase.step s e).singleAnchor = true := by
  cases e with
  | select =>
    show (BaseCase.onSelect s).singleAnchor = true
    unfold BaseCase.onSelect; split <;> simp [h]
  | click r ev =>
    show (BaseCase.onClick s r ev).state.singleAnchor = true
    unfold BaseCase.onClick
    simp only []
    split
    · split
      · split <;> exact h
      · exact h
    · exact h
  | resolved =>
    show (BaseCase.anchorResolved s).singleAnchor = true
    unfold BaseCase.anchorResolved; split <;> simp [h]
  | rejected err =>
    show (BaseCase.anchorRejected s err).singleAnchor = true
    unfold BaseCase.anchorRejected; split <;> simp [h]
  | timer =>
    show (BaseCase.timerFired s).singleAnchor = true
    unfold BaseCase.timerFired; split <;> simp [h]
  | font =>
    show (BaseCase.fontLoaded s).singleAnchor = true
    unfold BaseCase.fontLoaded; split <;> simp [h]

theorem BaseCase.base_singleAnchor_run (es : List BaseCase.Event) (s : BaseCase.App)
    (h : s.singleAnchor = true) : (BaseCase.run s es).singleAnchor = true := by
  induction es generalizing s with
  | nil => exact h
  | cons e es ih => exact ih (BaseCase.step s e) (BaseCase.base_singleAnchor_step s e h)

theorem BaseCase.base_singleAnchor_onSelect (s : BaseCase.App) :
    (BaseCase.onSelect s).singleAnchor = true := by
  unfold BaseCase.onSelect
  cases h : s.singleAnchor <;> simp [h]

/-- C4: in js/app.js and in object-interaction-base-case, after any run that
contains a select (whatever came before it and whatever callbacks ran since,
settlement of the anchor request included), `onSelect` only writes the
'Already have anchor' message: no request is issued and the scene, the tracked
objects and every other field are unchanged. -/
theorem select_after_first_only_logs (pre es : List JsApp.Event)
    (pre' es' : List BaseCase.Event) :
    (JsApp.onSelect (JsApp.run JsApp.init (pre ++ .select :: es)) =
      { JsApp.run JsApp.init (pre ++ .select :: es) with
        console := (JsApp.run JsApp.init (pre ++ .select :: es)).console ++
          ["Already have anchor: true"] }) ∧
    (BaseCase.onSelect (BaseCase.run BaseCase.init (pre' ++ .select :: es')) =
      { BaseCase.run BaseCase.init (pre' ++ .select :: es') with
        console := (BaseCase.run BaseCase.init (pre' ++ .select :: es')).console ++
          ["Already have anchor: true"] }) := by
  constructor
  · have h : (JsApp.run JsApp.init (pre ++ .select :: es)).singleAnchor = true := by
      unfold JsApp.run
      rw [List.foldl_append, List.foldl_cons]
      exact JsApp.js_singleAnchor_run es _ (JsApp.js_singleAnchor_onSelect _)
    generalize JsApp.run JsApp.init (pre ++ .select :: es) = s at h
    unfold JsApp.onSelect
    simp [h]
    rfl
  · have h : (BaseCase.run BaseCase.init (pre' ++ .select :: es')).singleAnchor = true := by
      unfold BaseCase.run
      rw [List.foldl_append, List.foldl_cons]
      exact BaseCase.base_singleAnchor_run es' _ (BaseCase.base_singleAnchor_onSelect _)
    generalize BaseCase.run BaseCase.init (pre' ++ .select :: es') = s at h
    unfold BaseCase.onSelect
    simp [h]
    rfl

theorem InvisFinal.invis_componentB_some (s : InvisFinal.App) (r : Nat) :
    ∃ t, InvisFinal.componentB s (some r) = .ok t ∧ t.anchorPlaced = s.anchorPlaced ∧
      t.componentBEnabled = s.componentBEnabled ∧ t.anchoredObjects = s.anchoredObjects ∧
      t.wallPlaced = s.wallPlaced := by
  unfold InvisFinal.componentB InvisFinal.placeWall InvisFinal.addBoxToScene
    InvisFinal.displayToUser InvisFinal.makeCubeMarker
  simp only [Outcome.andThen]
  split_ifs <;> exact ⟨_, rfl, rfl, rfl, rfl, rfl⟩

theorem ArkaFinal.arka_componentB_some (s : ArkaFinal.App) (r : Nat) :
    ∃ t, ArkaFinal.componentB s (some r) = .ok t ∧ t.anchorPlaced = s.anchorPlaced ∧
      t.componentBEnabled = s.componentBEnabled ∧ t.anchoredObjects = s.anchoredObjects ∧
      t.wallPlaced = s.wallPlaced := by
  unfold ArkaFinal.componentB ArkaFinal.placeWall ArkaFinal.addBoxToScene
    ArkaFinal.displayToUser
  simp only [Outcome.andThen]
  split_ifs <;> exact ⟨_, rfl, rfl, rfl, rfl, rfl⟩

theorem InvisFinal.invis_onSelect_placed (s : InvisFinal.App) (hplaced : s.anchorPlaced = true)
    (henabled : s.componentBEnabled = true) (hanchored : s.anchoredObjects ≠ []) :
    ∃ t, InvisFinal.onSelect s = .ok t ∧ t.anchorPlaced = true ∧ t.componentBEnabled = true ∧
      t.wallPlaced = true ∧ t.anchoredObjects = s.anchoredObjects ∧
      (s.wallPlaced = true → t.meshes = s.meshes) := by
  obtain ⟨r, rest, hr⟩ := List.exists_cons_of_ne_nil hanchored
  unfold InvisFinal.onSelect
  simp only []
  generalize hs1 : ({ s with shouldDisplay := true } : InvisFinal.App) = s1
  have e1 : s1.anchorPlaced = true := by rw [← hs1]; exact hplaced
  have e2 : s1.componentBEnabled = true := by rw [← hs1]; exact henabled
  have e3 : s1.anchoredObjects = s.anchoredObjects := by rw [← hs1]
  have e4 : s1.wallPlaced = s.wallPlaced := by rw [← hs1]
  have e5 : s1.meshes = s.meshes := by rw [← hs1]
  have e6 : s.anchoredObjects[0]? = some r := by rw [hr]; simp
  rw [hplaced, henabled, e6]
  simp only [Bool.not_true, Bool.and_self, Bool.false_eq_true, if_false, if_true]
  cases hw : s.wallPlaced
  · obtain ⟨t, ht, h1, h2, h3, _⟩ := InvisFinal.invis_componentB_some s1 r
    simp only [Bool.not_false, if_true, ht, Outcome.andThen]
    refine ⟨_, rfl, ?_, ?_, rfl, ?_, ?_⟩
    · exact h1.trans e1
    · exact h2.trans e2
    · exact h3.trans e3
    · intro h; exact Bool.noConfusion h
  · simp only [Bool.not_true, Bool.false_eq_true, if_false, Outcome.andThen]
    exact ⟨_, rfl, e1, e2, by first | exact e4 | exact e4.trans hw, e3, fun _ => e5⟩

theorem ArkaFinal.arka_onSelect_placed (s : ArkaFinal.App) (hplaced : s.anchorPlaced = true)
    (henabled : s.componentBEnabled = true) (hanchored : s.anchoredObjects ≠ []) :
    ∃ t, ArkaFinal.onSelect s = .ok t ∧ t.anchorPlaced = true ∧ t.componentBEnabled = true ∧
      t.wallPlaced = true ∧ t.anchoredObjects = s.anchoredObjects ∧
      (s.wallPlaced = true → t.meshes = s.meshes) := by
  obtain ⟨r, rest, hr⟩ := List.exists_cons_of_ne_nil hanchored
  unfold ArkaFinal.onSelect
  simp only []
  generalize hs1 : ({ s with shouldDisplay := true } : ArkaFinal.App) = s1
  have e1 : s1.anchorPlaced = true := by rw [← hs1]; exact hplaced
  have e2 : s1.componentBEnabled = true := by rw [← hs1]; exact henabled
  have e3 : s1.anchoredObjects = s.anchoredObjects := by rw [← hs1]
  have e4 : s1.wallPlaced = s.wallPlaced := by rw [← hs1]
  have e5 : s1.meshes = s.meshes := by rw [← hs1]
  have e6 : s.anchoredObjects[0]? = some r := by rw [hr]; simp
  rw [hplaced, henabled, e6]
  simp only [Bool.not_true, Bool.and_self, Bool.false_eq_true, if_false, if_true]
  cases hw : s.wallPlaced
  · obtain ⟨t, ht, h1, h2, h3, _⟩ := ArkaFinal.arka_componentB_some s1 r
    simp only [Bool.not_false, if_true, ht, Outcome.andThen]
    refine ⟨_, rfl, ?_, ?_, rfl, ?_, ?_⟩
    · exact h1.trans e1
    · exact h2.trans e2
    · exact h3.trans e3
    · intro h; exact Bool.noConfusion h
  · simp only [Bool.not_true, Bool.false_eq_true, if_false, Outcome.andThen]
    exact ⟨_, rfl, e1, e2, by first | exact e4 | exact e4.trans hw, e3, fun _ => e5⟩

/-- C5, counterexample: right after the placement has settled the tracked mesh
list holds Cube 1 only (once in invisibility-experiments/final, twice in
invisibility-experiments-arka/final); two `onSelect` calls in a row, with no
Yes in between, leave it with the wall appended. -/
theorem two_selects_after_placement_add_wall :
    ((InvisFinal.run (InvisFinal.init []) [.select, .resolved]).meshes = [0] ∧
      (InvisFinal.run (InvisFinal.init []) [.select, .resolved, .select, .select]).meshes
        = [0, 1]) ∧
    ((ArkaFinal.run (ArkaFinal.init []) [.select, .resolved]).meshes = [0, 0] ∧
      (ArkaFinal.run (ArkaFinal.init []) [.select, .resolved, .select, .select]).meshes
        = [0, 0, 1]) := by
  decide

/-- C5, amended: in both invisibility variants, once the placement has settled
(`anchorPlaced` and `componentBEnabled` are set and Cube 1 is in
`anchoredObjects`), two `onSelect` calls in a row both return normally and the
second leaves the tracked mesh list as the first left it; the first one itself
leaves the list unchanged when a wall is recorded as placed (`wallPlaced`). -/
theorem second_select_keeps_meshes (s : InvisFinal.App) (a : ArkaFinal.App)
    (hs : s.anchorPlaced = true ∧ s.componentBEnabled = true ∧ s.anchoredObjects ≠ [])
    (ha : a.anchorPlaced = true ∧ a.componentBEnabled = true ∧ a.anchoredObjects ≠ []) :
    (∃ t u, InvisFinal.onSelect s = .ok t ∧ InvisFinal.onSelect t = .ok u ∧
        u.meshes = t.meshes ∧ (s.wallPlaced = true → t.meshes = s.meshes)) ∧
    (∃ b c, ArkaFinal.onSelect a = .ok b ∧ ArkaFinal.onSelect b = .ok c ∧
        c.meshes = b.meshes ∧ (a.wallPlaced = true → b.meshes = a.meshes)) := by
  constructor
  · obtain ⟨t, ht, h1, h2, h3, h4, h5⟩ := InvisFinal.invis_onSelect_placed s hs.1 hs.2.1 hs.2.2
    obtain ⟨u, hu, _, _, _, _, h6⟩ := InvisFinal.invis_onSelect_placed t h1 h2 (h4 ▸ hs.2.2)
    exact ⟨t, u, ht, hu, h6 h3, h5⟩
  · obtain ⟨b, hb, h1, h2, h3, h4, h5⟩ := ArkaFinal.arka_onSelect_placed a ha.1 ha.2.1 ha.2.2
    obtain ⟨c, hc, _, _, _, _, h6⟩ := ArkaFinal.arka_onSelect_placed b h1 h2 (h4 ▸ ha.2.2)
    exact ⟨b, c, hb, hc, h6 h3, h5⟩

/-- Witness of C5 (amended) on the states reached by select, anchor settled. -/
theorem second_select_keeps_meshes_witness :
    (∃ t u, InvisFinal.onSelect (InvisFinal.run (InvisFinal.init []) [.select, .resolved]) = .ok t ∧
        InvisFinal.onSelect t = .ok u ∧ u.meshes = t.meshes ∧
        ((InvisFinal.run (InvisFinal.init []) [.select, .resolved]).wallPlaced = true →
          t.meshes = (InvisFinal.run (InvisFinal.init []) [.select, .resolved]).meshes)) ∧
    (∃ b c, ArkaFinal.onSelect (ArkaFinal.run (ArkaFinal.init []) [.select, .resolved]) = .ok b ∧
        ArkaFinal.onSelect b = .ok c ∧ c.meshes = b.meshes ∧
        ((ArkaFinal.run (ArkaFinal.init []) [.select, .resolved]).wallPlaced = true →
          b.meshes = (ArkaFinal.run (ArkaFinal.init []) [.select, .resolved]).meshes)) :=
  second_select_keeps_meshes
    (InvisFinal.run (InvisFinal.init []) [.select, .resolved])
    (ArkaFinal.run (ArkaFinal.init []) [.select, .resolved])
    (by decide) (by decide)

/-- C6, the code at the failing input: after a select whose anchor request is
rejected, `singleAnchor` is still set and no request is outstanding, and the
next select issues no new request (the request count stays 1), in js/app.js,
object-interaction-base-case and same-space-tests alike. -/
theorem rejection_leaves_singleAnchor_set :
    ((JsApp.run JsApp.init [.select, .rejected "lost"]).singleAnchor = true ∧
      (JsApp.run JsApp.init [.select, .rejected "lost"]).pendingAnchors = 0 ∧
      (JsApp.run JsApp.init [.select, .rejected "lost", .select]).anchorRequests = 1 ∧
      (JsApp.run JsApp.init [.select, .rejected "lost", .select]).pendingAnchors = 0) ∧
    ((BaseCase.run BaseCase.init [.select, .rejected "lost"]).singleAnchor = true ∧
      (BaseCase.run BaseCase.init [.select, .rejected "lost"]).pendingAnchors = 0 ∧
      (BaseCase.run BaseCase.init [.select, .rejected "lost", .select]).anchorRequests = 1 ∧
      (BaseCase.run BaseCase.init [.select, .rejected "lost", .select]).pendingAnchors = 0) ∧
    ((SameSpace.run SameSpace.init [.select, .rejected "lost"]).singleAnchor = true ∧
      (SameSpace.run SameSpace.init [.select, .rejected "lost"]).pendingAnchors = 0 ∧
      (SameSpace.run SameSpace.init [.select, .rejected "lost", .select]).anchorRequests = 1 ∧
      (SameSpace.run SameSpace.init [.select, .rejected "lost", .select]).pendingAnchors = 0) := by
  decide

/-- C7: in both invisibility variants, when an outstanding `createAnchor`
request is rejected while `anchorPlaced` and `componentBEnabled` are false, the
two flags are still false, the failure is logged, no object or mesh is added,
and the next `onSelect` returns normally having issued a new anchor request. -/
theorem rejection_keeps_awaiting_anchor (s : InvisFinal.App) (a : ArkaFinal.App)
    (error : String)
    (hs : s.anchorPlaced = false ∧ s.componentBEnabled = false ∧ 0 < s.pendingAnchors)
    (ha : a.anchorPlaced = false ∧ a.componentBEnabled = false ∧ 0 < a.pendingAnchors) :
    ((InvisFinal.anchorRejected s error).anchorPlaced = false ∧
      (InvisFinal.anchorRejected s error).componentBEnabled = false ∧
      (InvisFinal.anchorRejected s error).meshes = s.meshes ∧
      (InvisFinal.anchorRejected s error).objects = s.objects ∧
      (InvisFinal.anchorRejected s error).scene = s.scene ∧
      (InvisFinal.anchorRejected s error).pendingAnchors + 1 = s.pendingAnchors ∧
      (InvisFinal.anchorRejected s error).console =
        s.console ++ ["Could not create anchor: " ++ error] ∧
      ∃ u, InvisFinal.onSelect (InvisFinal.anchorRejected s error) = .ok u ∧
        u.anchorRequests = s.anchorRequests + 1 ∧ u.pendingAnchors = s.pendingAnchors ∧
        u.meshes = s.meshes) ∧
    ((ArkaFinal.anchorRejected a error).anchorPlaced = false ∧
      (ArkaFinal.anchorRejected a error).componentBEnabled = false ∧
      (ArkaFinal.anchorRejected a error).meshes = a.meshes ∧
      (ArkaFinal.anchorRejected a error).objects = a.objects ∧
      (ArkaFinal.anchorRejected a error).scene = a.scene ∧
      (ArkaFinal.anchorRejected a error).pendingAnchors + 1 = a.pendingAnchors ∧
      (ArkaFinal.anchorRejected a error).console =
        a.console ++ ["Could not create anchor: " ++ error] ∧
      ∃ c, ArkaFinal.onSelect (ArkaFinal.anchorRejected a error) = .ok c ∧
        c.anchorRequests = a.anchorRequests + 1 ∧ c.pendingAnchors = a.pendingAnchors ∧
        c.meshes = a.meshes) := by
  obtain ⟨hs1, hs2, hs3⟩ := hs
  obtain ⟨ha1, ha2, ha3⟩ := ha
  have hs4 : s.pendingAnchors ≠ 0 := by omega
  have ha4 : a.pendingAnchors ≠ 0 := by omega
  constructor
  · unfold InvisFinal.onSelect InvisFinal.anchorRejected
    simp only [if_neg hs4, hs1, hs2, Bool.not_false, Bool.and_self, if_true, Outcome.andThen,
      InvisFinal.updateInfoScreen]
    refine ⟨trivial, trivial, trivial, trivial, trivial, by omega, trivial, _, rfl, ?_, ?_, ?_⟩
    · rfl
    · show s.pendingAnchors - 1 + 1 = _; omega
    · rfl
  · unfold ArkaFinal.onSelect ArkaFinal.anchorRejected
    simp only [if_neg ha4, ha1, ha2, Bool.not_false, Bool.and_self, if_true]
    refine ⟨trivial, trivial, trivial, trivial, trivial, by omega, trivial, _, rfl, ?_, ?_, ?_⟩
    · rfl
    · show a.pendingAnchors - 1 + 1 = _; omega
    · rfl

/-- Witness of C7 on the states reached by one select. -/
theorem rejection_keeps_awaiting_anchor_witness :
    ((InvisFinal.run (InvisFinal.init []) [.select, .rejected "lost"]).anchorPlaced = false ∧
      (InvisFinal.run (InvisFinal.init []) [.select, .rejected "lost", .select]).anchorRequests = 2) ∧
    ((ArkaFinal.run (ArkaFinal.init []) [.select, .rejected "lost"]).anchorPlaced = false ∧
      (ArkaFinal.run (ArkaFinal.init []) [.select, .rejected "lost", .select]).anchorRequests = 2) := by
  have h := rejection_keeps_awaiting_anchor
    (InvisFinal.run (InvisFinal.init []) [.select]) (ArkaFinal.run (ArkaFinal.init []) [.select])
    "lost" (by decide) (by decide)
  obtain ⟨⟨h1, _, _, _, _, _, _, u, hu, hu2, _⟩, ⟨h3, _, _, _, _, _, _, c, hc, hc2, _⟩⟩ := h
  refine ⟨⟨h1, ?_⟩, ⟨h3, ?_⟩⟩
  · show (InvisFinal.onSelect (InvisFinal.anchorRejected
      (InvisFinal.run (InvisFinal.init []) [.select]) "lost")).state.anchorRequests = 2
    rw [hu]; exact hu2
  · show (ArkaFinal.onSelect (ArkaFinal.anchorRejected
      (ArkaFinal.run (ArkaFinal.init []) [.select]) "lost")).state.anchorRequests = 2
    rw [hc]; exact hc2

/-- C8, the code at the failing input: a second select that arrives while the
first anchor request is still pending issues a second `createAnchor` request in
both invisibility variants (two requests outstanding); when both are fulfilled
`componentA` has run twice and two anchored cubes exist. -/
theorem second_select_while_pending_requests_again :
    ((InvisFinal.run (InvisFinal.init []) [.select]).pendingAnchors = 1 ∧
      (InvisFinal.run (InvisFinal.init []) [.select, .select]).pendingAnchors = 2 ∧
      (InvisFinal.run (InvisFinal.init []) [.select, .select]).anchorRequests = 2 ∧
      (InvisFinal.run (InvisFinal.init []) [.select, .select, .resolved, .resolved]).anchoredObjects
        = [0, 1]) ∧
    ((ArkaFinal.run (ArkaFinal.init []) [.select]).pendingAnchors = 1 ∧
      (ArkaFinal.run (ArkaFinal.init []) [.select, .select]).pendingAnchors = 2 ∧
      (ArkaFinal.run (ArkaFinal.init []) [.select, .select]).anchorRequests = 2 ∧
      (ArkaFinal.run (ArkaFinal.init []) [.select, .select, .resolved, .resolved]).anchoredObjects
        = [0, 1]) := by
  decide

theorem InvisFinal.invis_componentB_requests (s : InvisFinal.App) (r : Option Nat) :
    (InvisFinal.componentB s r).state.anchorRequests = s.anchorRequests ∧
      (InvisFinal.componentB s r).state.pendingAnchors = s.pendingAnchors := by
  unfold InvisFinal.componentB InvisFinal.placeWall InvisFinal.addBoxToScene
    InvisFinal.displayToUser InvisFinal.makeCubeMarker
  cases r <;> simp only [Outcome.andThen] <;> split_ifs <;> exact ⟨rfl, rfl⟩

theorem InvisFinal.invis_onSelect_requests (t : InvisFinal.App) (h : t.anchorPlaced = true) :
    (InvisFinal.onSelect t).state.anchorRequests = t.anchorRequests ∧
      (InvisFinal.onSelect t).state.pendingAnchors = t.pendingAnchors := by
  unfold InvisFinal.onSelect
  simp only []
  generalize hs1 : ({ t with shouldDisplay := true } : InvisFinal.App) = s1
  have e1 : s1.anchorRequests = t.anchorRequests := by rw [← hs1]
  have e2 : s1.pendingAnchors = t.pendingAnchors := by rw [← hs1]
  rw [h]
  simp only [Bool.not_true, Bool.false_and, Bool.false_eq_true, if_false]
  obtain ⟨h1, h2⟩ := InvisFinal.invis_componentB_requests s1 t.anchoredObjects[0]?
  split
  · split
    · cases hc : InvisFinal.componentB s1 t.anchoredObjects[0]? with
      | ok v => rw [hc] at h1 h2; exact ⟨h1.trans e1, h2.trans e2⟩
      | threw v => rw [hc] at h1 h2; exact ⟨h1.trans e1, h2.trans e2⟩
    · exact ⟨e1, e2⟩
  · exact ⟨e1, e2⟩

/-- C9, counterexample: after the last transparency stage (the third wall, made
with `transparencyType` 1, which the stage sets to 2) `onYesClick` leaves Cube 1
in the tracked mesh list, `anchorPlaced` set and the stage flags as they were;
the next select issues no anchor request and creates no object. -/
theorem yes_after_last_stage_keeps_placement :
    let s := InvisFinal.run (InvisFinal.init [])
      [.select, .resolved, .select, .yes, .select, .next, .select]
    let t := InvisFinal.step s .yes
    let u := InvisFinal.step t .select
    InvisFinal.wallStates s = [(1, true), (0, true), (0, false)] ∧
      s.meshes = [0, 3] ∧ t.meshes = [0] ∧ t.anchorPlaced = true ∧
      t.shouldDisplayInitialCube = false ∧ t.transparencyType = 2 ∧
      u.anchorRequests = 1 ∧ u.pendingAnchors = 0 ∧ u.objects = t.objects ∧ u.meshes = [0] := by
  decide

/-- C9, amended: with a 'Cube 2 Mesh' in the scene, `onYesClick` returns
normally, removes that object from the scene and every entry of that name from
the tracked mesh list (the other meshes stay, in order) and clears `wallPlaced`;
`anchorPlaced`, `componentBEnabled` and the stage flags keep their values, so
after a placement the next select issues no anchor request. -/
theorem onYesClick_removes_probe_only (s : InvisFinal.App) (w : Nat) (mat : Material)
    (hw : InvisFinal.getObjectByName s "Cube 2 Mesh" = some w)
    (hmesh : (s.objects[w]?).bind Object3D.material = some mat) :
    ∃ t, InvisFinal.onYesClick s = .ok t ∧
      t.meshes = s.meshes.filter (fun ref => nameOf s.objects ref != "Cube 2 Mesh") ∧
      t.scene = s.scene.erase w ∧ t.objects = s.objects ∧ t.wallPlaced = false ∧
      t.anchorPlaced = s.anchorPlaced ∧ t.componentBEnabled = s.componentBEnabled ∧
      t.shouldDisplayInitialCube = s.shouldDisplayInitialCube ∧
      t.shouldDisplayTransparentCube = s.shouldDisplayTransparentCube ∧
      t.transparencyType = s.transparencyType ∧
      (s.anchorPlaced = true →
        (InvisFinal.onSelect t).state.anchorRequests = s.anchorRequests ∧
        (InvisFinal.onSelect t).state.pendingAnchors = s.pendingAnchors) := by
  have hw2 : InvisFinal.getObjectByName
      { s with console := s.console ++ ["CLICKED!"], snackbarShow := false } "Cube 2 Mesh"
      = some w := hw
  unfold InvisFinal.onYesClick InvisFinal.removeObjectByName
  simp only [hw2, hmesh, Outcome.andThen]
  refine ⟨_, rfl, rfl, rfl, rfl, rfl, rfl, rfl, rfl, rfl, rfl, ?_⟩
  intro hplaced
  exact InvisFinal.invis_onSelect_requests _ hplaced

/-- Witness of C9 (amended) on the state reached after the last stage. -/
theorem onYesClick_removes_probe_only_witness :
    ∃ t, InvisFinal.onYesClick (InvisFinal.run (InvisFinal.init [])
        [.select, .resolved, .select, .yes, .select, .next, .select]) = .ok t ∧
      t.meshes = [0] ∧ t.anchorPlaced = true := by
  obtain ⟨t, ht, hm, _, _, _, hp, _⟩ := onYesClick_removes_probe_only
    (InvisFinal.run (InvisFinal.init [])
      [.select, .resolved, .select, .yes, .select, .next, .select]) 3
    { color := 0x0000ff, opacity := 0 } (by decide) (by decide)
  refine ⟨t, ht, ?_, ?_⟩
  · rw [hm]; decide
  · rw [hp]; decide

theorem updateObject_forall (P : Object3D → Prop) (objects : List Object3D) (ref : Nat)
    (f : Object3D → Object3D) (hf : ∀ o, P o → P (f o)) (h : ∀ o ∈ objects, P o) :
    ∀ o ∈ updateObject objects ref f, P o := by
  unfold updateObject
  cases hget : objects[ref]? with
  | none => exact h
  | some x =>
    intro o ho
    rcases List.mem_or_eq_of_mem_set ho with ho | ho
    · exact h o ho
    · subst ho; exact hf x (h x (List.getElem?_mem hget))

theorem updateObject_append_length (objects : List Object3D) (x : Object3D)
    (f : Object3D → Object3D) :
    updateObject (objects ++ [x]) objects.length f = objects ++ [f x] := by
  unfold updateObject
  simp

theorem InvisFinal.wallOK_placeWall (s : InvisFinal.App) (r : Option Nat) (material : Material)
    (visible : Bool) (hm : material.opacity = 1 ∨ material.opacity = 0)
    (h : ∀ o ∈ s.objects, InvisFinal.WallOpacityOK o) :
    ∀ o ∈ (InvisFinal.placeWall s r material visible).state.objects,
      InvisFinal.WallOpacityOK o := by
  unfold InvisFinal.placeWall InvisFinal.addBoxToScene
  cases r with
  | none =>
    intro o ho
    simp only [Outcome.state, List.mem_append, List.mem_singleton] at ho
    rcases ho with ho | ho
    · exact h o ho
    · subst ho; intro hn; simp [newMesh] at hn
  | some r =>
    intro o ho
    simp only [Outcome.state, InvisFinal.makeCubeMarker, updateObject_append_length,
      List.mem_append, List.mem_singleton] at ho
    rcases ho with ho | ho
    · exact h o ho
    · subst ho
      intro _ m hmat
      simp only [newMesh, Option.some.injEq] at hmat
      subst hmat
      exact hm

theorem InvisFinal.wallOK_andThen (o : Outcome InvisFinal.App)
    (f : InvisFinal.App → Outcome InvisFinal.App)
    (ho : ∀ x ∈ o.state.objects, InvisFinal.WallOpacityOK x)
    (hf : ∀ s, (∀ x ∈ s.objects, InvisFinal.WallOpacityOK x) →
      ∀ x ∈ (f s).state.objects, InvisFinal.WallOpacityOK x) :
    ∀ x ∈ (o.andThen f).state.objects, InvisFinal.WallOpacityOK x := by
  cases o with
  | ok s => exact hf s ho
  | threw s => exact ho

theorem InvisFinal.invis_displayToUser_objects (s : InvisFinal.App) (content : String) :
    (InvisFinal.displayToUser s content).objects = s.objects := by
  unfold InvisFinal.displayToUser
  split <;> rfl

theorem InvisFinal.wallOK_componentB (s : InvisFinal.App) (r : Option Nat)
    (h : ∀ o ∈ s.objects, InvisFinal.WallOpacityOK o) :
    ∀ o ∈ (InvisFinal.componentB s r).state.objects, InvisFinal.WallOpacityOK o := by
  unfold InvisFinal.componentB
  split
  · apply InvisFinal.wallOK_andThen
    · exact InvisFinal.wallOK_placeWall s r _ _ (Or.inl rfl) h
    · intro t ht
      simp only [Outcome.state, InvisFinal.invis_displayToUser_objects]
      exact ht
  · split
    · split
      · apply InvisFinal.wallOK_andThen
        · exact InvisFinal.wallOK_placeWall s r _ _ (Or.inr rfl) h
        · intro t ht
          simp only [Outcome.state, InvisFinal.invis_displayToUser_objects]
          exact ht
      · split
        · apply InvisFinal.wallOK_andThen
          · exact InvisFinal.wallOK_placeWall s r _ _ (Or.inr rfl) h
          · intro t ht
            simp only [Outcome.state, InvisFinal.invis_displayToUser_objects]
            exact ht
        · exact h
    · exact h

theorem InvisFinal.wallOK_changeColorLoop (objects : List Object3D) (intersects : Nat → Bool)
    (random : Nat) (meshes : List Nat) (h : ∀ o ∈ objects, InvisFinal.WallOpacityOK o) :
    ∀ o ∈ (InvisFinal.changeColorLoop objects intersects random meshes).state.1,
      InvisFinal.WallOpacityOK o := by
  induction meshes with
  | nil => exact h
  | cons m rest ih =>
    unfold InvisFinal.changeColorLoop
    split
    · split
      · rename_i x hget
        split
        · rename_i mat hmat
          intro o ho
          rcases List.mem_or_eq_of_mem_set ho with ho | ho
          · exact h o ho
          · subst ho
            intro hn m2 hm2
            simp only [Option.some.injEq] at hm2
            subst hm2
            exact h x (List.getElem?_mem hget) hn mat hmat
        · exact h
      · exact h
    · exact ih

theorem InvisFinal.wallOK_onSelect (s : InvisFinal.App)
    (h : ∀ o ∈ s.objects, InvisFinal.WallOpacityOK o) :
    ∀ o ∈ (InvisFinal.onSelect s).state.objects, InvisFinal.WallOpacityOK o := by
  unfold InvisFinal.onSelect
  simp only []
  apply InvisFinal.wallOK_andThen
  · split
    · exact h
    · split
      · split
        · apply InvisFinal.wallOK_andThen
          · exact InvisFinal.wallOK_componentB _ _ h
          · intro t ht; exact ht
        · exact h
      · exact h
  · intro t ht; exact ht

theorem InvisFinal.wallOK_onTouchEnd (s : InvisFinal.App) (raycaster : Raycaster)
    (event : PointerEvent) (random : Nat)
    (h : ∀ o ∈ s.objects, InvisFinal.WallOpacityOK o) :
    ∀ o ∈ (InvisFinal.onTouchEnd s raycaster event random).state.objects,
      InvisFinal.WallOpacityOK o := by
  unfold InvisFinal.onTouchEnd
  simp only []
  apply InvisFinal.wallOK_andThen
  · split
    · split
      · have hl := InvisFinal.wallOK_changeColorLoop s.objects (raycaster (deviceCoords event))
          random s.scene.reverse h
        unfold InvisFinal.changeColorOnIntersect
        split
        · rename_i objects x heq
          rw [heq] at hl; exact hl
        · rename_i objects heq
          rw [heq] at hl; exact hl
        · rename_i objects mesh heq
          rw [heq] at hl
          exact updateObject_forall _ _ _ _ (fun o ho hn m hm => ho hn m hm) hl
      · exact h
    · exact h
  · intro t ht; exact ht

theorem InvisFinal.wallOK_step (s : InvisFinal.App) (e : InvisFinal.Event)
    (h : ∀ o ∈ s.objects, InvisFinal.WallOpacityOK o) :
    ∀ o ∈ (InvisFinal.step s e).objects, InvisFinal.WallOpacityOK o := by
  cases e with
  | select => exact InvisFinal.wallOK_onSelect s h
  | touch r ev random => exact InvisFinal.wallOK_onTouchEnd s r ev random h
  | resolved =>
    show ∀ o ∈ (InvisFinal.anchorResolved s).objects, InvisFinal.WallOpacityOK o
    unfold InvisFinal.anchorResolved
    split
    · exact h
    · simp only [InvisFinal.componentA, InvisFinal.addAnchoredBoxToScene,
        InvisFinal.addBoxToScene, InvisFinal.makeCubeMarker, updateObject_append_length]
      intro o ho
      simp only [List.mem_append, List.mem_singleton] at ho
      rcases ho with ho | ho
      · exact h o ho
      · subst ho; intro hn; simp at hn
  | rejected err =>
    show ∀ o ∈ (InvisFinal.anchorRejected s err).objects, InvisFinal.WallOpacityOK o
    unfold InvisFinal.anchorRejected
    split <;> exact h
  | yes =>
    show ∀ o ∈ (InvisFinal.onYesClick s).state.objects, InvisFinal.WallOpacityOK o
    unfold InvisFinal.onYesClick InvisFinal.removeObjectByName
    simp only []
    split
    · exact h
    · split <;> exact h
  | no => exact h
  | next =>
    show ∀ o ∈ (InvisFinal.onNextClick s).state.objects, InvisFinal.WallOpacityOK o
    unfold InvisFinal.onNextClick InvisFinal.removeObjectByName
    split
    · exact h
    · split
      · exact h
      · simp only [Outcome.andThen, Outcome.state]
        split <;> exact h
  | font =>
    show ∀ o ∈ (InvisFinal.fontLoaded s).objects, InvisFinal.WallOpacityOK o
    unfold InvisFinal.fontLoaded
    split
    · exact h
    · intro o ho
      simp only [List.mem_append, List.mem_singleton] at ho
      rcases ho with ho | ho
      · exact h o ho
      · subst ho; intro _ m hm; simp [newText] at hm
  | timeout =>
    show ∀ o ∈ (InvisFinal.timeoutFired s).objects, InvisFinal.WallOpacityOK o
    unfold InvisFinal.timeoutFired
    split <;> exact h

theorem InvisFinal.wallOK_run (es : List InvisFinal.Event) (s : InvisFinal.App)
    (h : ∀ o ∈ s.objects, InvisFinal.WallOpacityOK o) :
    ∀ o ∈ (InvisFinal.run s es).objects, InvisFinal.WallOpacityOK o := by
  induction es generalizing s with
  | nil => exact h
  | cons e es ih => exact ih (InvisFinal.step s e) (InvisFinal.wallOK_step s e h)

theorem ArkaFinal.wallVisible_andThen (o : Outcome ArkaFinal.App)
    (f : ArkaFinal.App → Outcome ArkaFinal.App)
    (ho : ∀ x ∈ o.state.objects, ArkaFinal.WallVisible x)
    (hf : ∀ s, (∀ x ∈ s.objects, ArkaFinal.WallVisible x) →
      ∀ x ∈ (f s).state.objects, ArkaFinal.WallVisible x) :
    ∀ x ∈ (o.andThen f).state.objects, ArkaFinal.WallVisible x := by
  cases o with
  | ok s => exact hf s ho
  | threw s => exact ho

theorem ArkaFinal.wallVisible_placeWall (s : ArkaFinal.App) (r : Option Nat)
    (material : Material) (h : ∀ o ∈ s.objects, ArkaFinal.WallVisible o) :
    ∀ o ∈ (ArkaFinal.placeWall s r material).state.objects, ArkaFinal.WallVisible o := by
  unfold ArkaFinal.placeWall ArkaFinal.addBoxToScene
  cases r with
  | none =>
    intro o ho
    simp only [Outcome.state, List.mem_append, List.mem_singleton] at ho
    rcases ho with ho | ho
    · exact h o ho
    · subst ho; intro _; rfl
  | some r =>
    intro o ho
    simp only [Outcome.state, updateObject_append_length, List.mem_append,
      List.mem_singleton] at ho
    rcases ho with ho | ho
    · exact h o ho
    · subst ho; intro _; rfl

theorem ArkaFinal.arka_displayToUser_objects (s : ArkaFinal.App) (content : String) :
    (ArkaFinal.displayToUser s content).objects = s.objects := by
  unfold ArkaFinal.displayToUser
  split <;> rfl

theorem ArkaFinal.wallVisible_componentB (s : ArkaFinal.App) (r : Option Nat)
    (h : ∀ o ∈ s.objects, ArkaFinal.WallVisible o) :
    ∀ o ∈ (ArkaFinal.componentB s r).state.objects, ArkaFinal.WallVisible o := by
  unfold ArkaFinal.componentB
  split
  · apply ArkaFinal.wallVisible_andThen
    · exact ArkaFinal.wallVisible_placeWall s r _ h
    · intro t ht
      simp only [Outcome.state, ArkaFinal.arka_displayToUser_objects]
      exact ht
  · split
    · apply ArkaFinal.wallVisible_andThen
      · exact ArkaFinal.wallVisible_placeWall s r _ h
      · intro t ht; exact ht
    · exact h

theorem ArkaFinal.wallVisible_step (s : ArkaFinal.App) (e : ArkaFinal.Event)
    (h : ∀ o ∈ s.objects, ArkaFinal.WallVisible o) :
    ∀ o ∈ (ArkaFinal.step s e).objects, ArkaFinal.WallVisible o := by
  cases e with
  | select =>
    show ∀ o ∈ (ArkaFinal.onSelect s).state.objects, ArkaFinal.WallVisible o
    unfold ArkaFinal.onSelect
    simp only []
    split
    · exact h
    · split
      · split
        · apply ArkaFinal.wallVisible_andThen
          · exact ArkaFinal.wallVisible_componentB _ _ h
          · intro t ht; exact ht
        · exact h
      · exact h
  | touch r ev random =>
    show ∀ o ∈ (ArkaFinal.onTouchEnd s r ev random).state.objects, ArkaFinal.WallVisible o
    unfold ArkaFinal.onTouchEnd
    split
    · split
      · have key : ∀ mesh, ∀ o ∈ (ArkaFinal.changeColorOnIntersect s.objects
            (r (deviceCoords ev)) random mesh).state, ArkaFinal.WallVisible o := by
          intro mesh
          unfold ArkaFinal.changeColorOnIntersect
          split
          · exact h
          · split
            · split
              · rename_i x hget
                split
                · intro o ho
                  rcases List.mem_or_eq_of_mem_set ho with ho | ho
                  · exact h o ho
                  · subst ho
                    exact h x (List.getElem?_mem hget)
                · exact h
              · exact h
            · exact h
        simp only []
        split
        · rename_i objects heq
          have := key (ArkaFinal.getObjectByName
            { s with mouse := deviceCoords ev } "testcube")
          rw [heq] at this; exact this
        · rename_i objects heq
          have := key (ArkaFinal.getObjectByName
            { s with mouse := deviceCoords ev } "testcube")
          rw [heq] at this; exact this
      · exact h
    · exact h
  | resolved =>
    show ∀ o ∈ (ArkaFinal.anchorResolved s).objects, ArkaFinal.WallVisible o
    unfold ArkaFinal.anchorResolved
    split
    · exact h
    · simp only [ArkaFinal.componentA, ArkaFinal.addAnchoredBoxToScene,
        ArkaFinal.addBoxToScene, updateObject_append_length]
      intro o ho
      simp only [List.mem_append, List.mem_singleton] at ho
      rcases ho with ho | ho
      · exact h o ho
      · subst ho; intro _; rfl
  | rejected err =>
    show ∀ o ∈ (ArkaFinal.anchorRejected s err).objects, ArkaFinal.WallVisible o
    unfold ArkaFinal.anchorRejected
    split <;> exact h
  | yes =>
    show ∀ o ∈ (ArkaFinal.onYesClick s).objects, ArkaFinal.WallVisible o
    unfold ArkaFinal.onYesClick ArkaFinal.removeObjectByName
    simp only []
    split <;> exact h
  | no => exact h
  | timeout =>
    show ∀ o ∈ (ArkaFinal.timeoutFired s).objects, ArkaFinal.WallVisible o
    unfold ArkaFinal.timeoutFired
    split <;> exact h

theorem ArkaFinal.wallVisible_run (es : List ArkaFinal.Event) (s : ArkaFinal.App)
    (h : ∀ o ∈ s.objects, ArkaFinal.WallVisible o) :
    ∀ o ∈ (ArkaFinal.run s es).objects, ArkaFinal.WallVisible o := by
  induction es generalizing s with
  | nil => exact h
  | cons e es ih => exact ih (ArkaFinal.step s e) (ArkaFinal.wallVisible_step s e h)

theorem mem_statesOfName (objects : List Object3D) (name : String) (p : ℚ × Bool)
    (h : p ∈ statesOfName objects name) :
    ∃ o ∈ objects, o.name = name ∧ materialState o = some p := by
  unfold statesOfName at h
  rw [List.mem_filterMap] at h
  obtain ⟨o, ho, hp⟩ := h
  rw [List.mem_filter] at ho
  exact ⟨o, ho.1, by simpa using ho.2, hp⟩

/-- C10, negation: neither variant realises the tabulated sequence, whatever
the events and whatever the scene starts with (no wall in it).  In
invisibility-experiments/final no wall ever has opacity 0.75; in
invisibility-experiments-arka/final no wall is ever invisible. -/
theorem no_variant_realises_tabulated_walls :
    (∀ (lit : List Object3D) (es : List InvisFinal.Event),
      (∀ o ∈ lit, o.name ≠ "Cube 2 Mesh") →
      InvisFinal.wallStates (InvisFinal.run (InvisFinal.init lit) es) ≠ tabulatedWallStates) ∧
    (∀ (lit : List Object3D) (es : List ArkaFinal.Event),
      (∀ o ∈ lit, o.name ≠ "thewall") →
      ArkaFinal.wallStates (ArkaFinal.run (ArkaFinal.init lit) es) ≠ tabulatedWallStates) := by
  constructor
  · intro lit es hlit heq
    have hinv := InvisFinal.wallOK_run es (InvisFinal.init lit)
      (fun o ho hn => absurd hn (hlit o ho))
    have hmem : ((0.75 : ℚ), true) ∈
        InvisFinal.wallStates (InvisFinal.run (InvisFinal.init lit) es) := by
      rw [heq]; simp [tabulatedWallStates]
    obtain ⟨o, ho, hn, hst⟩ := mem_statesOfName _ _ _ hmem
    unfold materialState at hst
    cases hm : o.material with
    | none => simp [hm] at hst
    | some m =>
      simp only [hm, Option.map_some', Option.some.injEq, Prod.mk.injEq] at hst
      rcases hinv o ho hn m hm with h1 | h0
      · rw [h1] at hst; norm_num at hst
      · rw [h0] at hst; norm_num at hst
  · intro lit es hlit heq
    have hinv := ArkaFinal.wallVisible_run es (ArkaFinal.init lit)
      (fun o ho hn => absurd hn (hlit o ho))
    have hmem : ((0 : ℚ), false) ∈
        ArkaFinal.wallStates (ArkaFinal.run (ArkaFinal.init lit) es) := by
      rw [heq]; simp [tabulatedWallStates]
    obtain ⟨o, ho, hn, hst⟩ := mem_statesOfName _ _ _ hmem
    unfold materialState at hst
    cases hm : o.material with
    | none => simp [hm] at hst
    | some m =>
      simp only [hm, Option.map_some', Option.some.injEq, Prod.mk.injEq] at hst
      rw [hinv o ho hn] at hst
      exact Bool.noConfusion hst.2

theorem InvisFinal.invis_andThen_le (o : Outcome InvisFinal.App)
    (f : InvisFinal.App → Outcome InvisFinal.App) (n : Nat)
    (ho : n ≤ o.state.transparencyType)
    (hf : ∀ s, n ≤ s.transparencyType → n ≤ (f s).state.transparencyType) :
    n ≤ (o.andThen f).state.transparencyType := by
  cases o with
  | ok s => exact hf s ho
  | threw s => exact ho

theorem InvisFinal.placeWall_transparencyType (s : InvisFinal.App) (r : Option Nat)
    (material : Material) (visible : Bool) :
    (InvisFinal.placeWall s r material visible).state.transparencyType = s.transparencyType := by
  unfold InvisFinal.placeWall InvisFinal.addBoxToScene
  cases r <;> rfl

theorem InvisFinal.displayToUser_transparencyType (s : InvisFinal.App) (content : String) :
    (InvisFinal.displayToUser s content).transparencyType = s.transparencyType := by
  unfold InvisFinal.displayToUser
  split <;> rfl

theorem InvisFinal.componentB_transparencyType_le (s : InvisFinal.App) (r : Option Nat) :
    s.transparencyType ≤ (InvisFinal.componentB s r).state.transparencyType := by
  unfold InvisFinal.componentB
  split
  · apply InvisFinal.invis_andThen_le
    · rw [InvisFinal.placeWall_transparencyType]
    · intro t ht
      simp only [Outcome.state, InvisFinal.displayToUser_transparencyType]
      exact ht
  · split
    · split
      · apply InvisFinal.invis_andThen_le
        · rw [InvisFinal.placeWall_transparencyType]
        · intro t ht
          simp only [Outcome.state, InvisFinal.displayToUser_transparencyType]
          exact ht
      · split
        · rename_i h1
          apply InvisFinal.invis_andThen_le
          · rw [InvisFinal.placeWall_transparencyType]
          · intro t _
            simp only [Outcome.state, InvisFinal.displayToUser_transparencyType]
            omega
        · exact Nat.le_refl _
    · exact Nat.le_refl _

theorem InvisFinal.step_transparencyType_le (s : InvisFinal.App) (e : InvisFinal.Event) :
    s.transparencyType ≤ (InvisFinal.step s e).transparencyType := by
  cases e with
  | select =>
    show s.transparencyType ≤ (InvisFinal.onSelect s).state.transparencyType
    unfold InvisFinal.onSelect
    simp only []
    apply InvisFinal.invis_andThen_le
    · split
      · exact Nat.le_refl _
      · split
        · split
          · apply InvisFinal.invis_andThen_le
            · exact InvisFinal.componentB_transparencyType_le
                ({ s with shouldDisplay := true } : InvisFinal.App) s.anchoredObjects[0]?
            · intro t ht; exact ht
          · exact Nat.le_refl _
        · exact Nat.le_refl _
    · intro t ht; exact ht
  | touch r ev random =>
    show s.transparencyType ≤ (InvisFinal.onTouchEnd s r ev random).state.transparencyType
    unfold InvisFinal.onTouchEnd
    simp only []
    apply InvisFinal.invis_andThen_le
    · split
      · split
        · split <;> exact Nat.le_refl _
        · exact Nat.le_refl _
      · exact Nat.le_refl _
    · intro t ht; exact ht
  | resolved =>
    show s.transparencyType ≤ (InvisFinal.anchorResolved s).transparencyType
    unfold InvisFinal.anchorResolved
    split <;> exact Nat.le_refl _
  | rejected err =>
    show s.transparencyType ≤ (InvisFinal.anchorRejected s err).transparencyType
    unfold InvisFinal.anchorRejected
    split <;> exact Nat.le_refl _
  | yes =>
    show s.transparencyType ≤ (InvisFinal.onYesClick s).state.transparencyType
    unfold InvisFinal.onYesClick InvisFinal.removeObjectByName
    simp only []
    split
    · exact Nat.le_refl _
    · split <;> exact Nat.le_refl _
  | no => exact Nat.le_refl _
  | next =>
    show s.transparencyType ≤ (InvisFinal.onNextClick s).state.transparencyType
    unfold InvisFinal.onNextClick InvisFinal.removeObjectByName
    split
    · exact Nat.le_refl _
    · split
      · exact Nat.le_refl _
      · simp only [Outcome.andThen, Outcome.state]
        split <;> exact Nat.le_succ _
  | font =>
    show s.transparencyType ≤ (InvisFinal.fontLoaded s).transparencyType
    unfold InvisFinal.fontLoaded
    split <;> exact Nat.le_refl _
  | timeout =>
    show s.transparencyType ≤ (InvisFinal.timeoutFired s).transparencyType
    unfold InvisFinal.timeoutFired
    split <;> exact Nat.le_refl _

/-- C11: in invisibility-experiments/final the stage counter `transparencyType`
never decreases: whatever state the page is in, after any further sequence of
events (select, anchor fulfilled or rejected, tap, Yes, No, Next, font load,
timer) its value is at least what it was; in particular along every run from
the initial state the value after a longer run is at least the value after
any of its prefixes. -/
theorem transparencyType_never_decreases (s : InvisFinal.App) (es : List InvisFinal.Event)
    (lit : List Object3D) (pre post : List InvisFinal.Event) :
    s.transparencyType ≤ (InvisFinal.run s es).transparencyType ∧
    (InvisFinal.run (InvisFinal.init lit) pre).transparencyType ≤
      (InvisFinal.run (InvisFinal.init lit) (pre ++ post)).transparencyType := by
  have key : ∀ (es : List InvisFinal.Event) (s : InvisFinal.App),
      s.transparencyType ≤ (InvisFinal.run s es).transparencyType := by
    intro es
    induction es with
    | nil => intro s; exact Nat.le_refl _
    | cons e es ih =>
      intro s
      exact Nat.le_trans (InvisFinal.step_transparencyType_le s e) (ih (InvisFinal.step s e))
  refine ⟨key es s, ?_⟩
  have happ : InvisFinal.run (InvisFinal.init lit) (pre ++ post) =
      InvisFinal.run (InvisFinal.run (InvisFinal.init lit) pre) post := by
    unfold InvisFinal.run
    rw [List.foldl_append]
  rw [happ]
  exact key post _

/-- C12: `onNextClick`, called while the scene holds a 'Cube 2 Mesh', returns
normally with `transparencyType` incremented, and it sets the Next button to
hidden exactly when the incremented value is greater than 2; when it is not,
the button keeps the visibility it had. -/
theorem onNextClick_hides_next_button (s : InvisFinal.App) (w : Nat) (mat : Material)
    (hw : InvisFinal.getObjectByName s "Cube 2 Mesh" = some w)
    (hmesh : (s.objects[w]?).bind Object3D.material = some mat) :
    ∃ t, InvisFinal.onNextClick s = .ok t ∧
      t.transparencyType = s.transparencyType + 1 ∧
      t.nextButton = (if s.transparencyType + 1 > 2 then Visibility.hidden else s.nextButton) := by
  unfold InvisFinal.onNextClick InvisFinal.removeObjectByName
  simp only [hw, hmesh, Outcome.andThen]
  refine ⟨_, rfl, ?_, ?_⟩
  · split <;> rfl
  · split <;> rfl

/-- Witness of C12: the first Next press (stage counter 0 to 1) leaves the
button as it was. -/
theorem onNextClick_hides_next_button_witness :
    ∃ t, InvisFinal.onNextClick
        (InvisFinal.run (InvisFinal.init []) [.select, .resolved, .select, .yes, .select]) = .ok t ∧
      t.transparencyType = 0 + 1 ∧
      t.nextButton = (if 0 + 1 > 2 then Visibility.hidden else Visibility.visible) :=
  onNextClick_hides_next_button
    (InvisFinal.run (InvisFinal.init []) [.select, .resolved, .select, .yes, .select]) 2
    { color := 0x0000ff, opacity := 0 } (by decide) (by decide)

namespace SameSpace

theorem onTouchEnd_on_cube (s : App) (raycaster : Raycaster) (event : PointerEvent)
    (i k : Nat) (c : Cube)
    (hhead : (raycaster (deviceCoords event)).head? = some i)
    (hget : s.anchoredObjects[i]? = some c)
    (hname : nameIndex c.name = some k) (hk : k < s.cubeInfoAreas.length) :
    ∃ t, onTouchEnd s raycaster event = .ok t ∧
      t.anchoredObjects[i]? = some { c with clickCount := c.clickCount.incr } ∧
      t.cubeInfoAreas[k]? = some (makeClickText c.name c.clickCount.incr) ∧
      t.cubeInfoAreas.length = s.cubeInfoAreas.length := by
  have hlt : i < s.anchoredObjects.length := by
    by_contra hn
    rw [List.getElem?_eq_none (by omega)] at hget
    exact Option.noConfusion hget
  unfold onTouchEnd
  simp only []
  cases hl : raycaster (deviceCoords event) with
  | nil => simp [hl] at hhead
  | cons j tl =>
    have hij : j = i := by simpa [hl] using hhead
    subst hij
    simp only [hget, hname, hk, if_true]
    refine ⟨_, rfl, ?_, ?_, ?_⟩
    · simp [List.getElem?_set, hlt]
    · simp [List.getElem?_set, hk]
    · simp

theorem taps_on_cube (taps : List (Raycaster × PointerEvent)) (s : App) (i k n : Nat) (c : Cube)
    (htaps : ∀ t ∈ taps, (t.1 (deviceCoords t.2)).head? = some i)
    (hget : s.anchoredObjects[i]? = some c) (hcount : c.clickCount = .num n)
    (hname : nameIndex c.name = some k) (hk : k < s.cubeInfoAreas.length) :
    (run s (taps.map fun t => Event.touch t.1 t.2)).anchoredObjects[i]? =
        some { c with clickCount := .num (n + taps.length) } ∧
      (run s (taps.map fun t => Event.touch t.1 t.2)).cubeInfoAreas.length =
        s.cubeInfoAreas.length ∧
      (taps ≠ [] → (run s (taps.map fun t => Event.touch t.1 t.2)).cubeInfoAreas[k]? =
        some ("Cube " ++ c.name ++ ": " ++ toString (n + taps.length))) := by
  induction taps generalizing s n c with
  | nil =>
    refine ⟨?_, rfl, fun h => absurd rfl h⟩
    simp only [List.map_nil, run, List.foldl_nil, List.length_nil, Nat.add_zero]
    rw [hget, ← hcount]
  | cons tap rest ih =>
    obtain ⟨t, ht, h1, h2, h3⟩ := onTouchEnd_on_cube s tap.1 tap.2 i k c
      (htaps tap (List.mem_cons_self _ _)) hget hname hk
    have hstep : step s (Event.touch tap.1 tap.2) = t := by
      show (onTouchEnd s tap.1 tap.2).state = t
      rw [ht]; rfl
    have hrun : run s ((tap :: rest).map fun t => Event.touch t.1 t.2) =
        run t (rest.map fun t => Event.touch t.1 t.2) := by
      simp only [List.map_cons, run, List.foldl_cons]
      rw [← hstep]
    have hc : ({ c with clickCount := c.clickCount.incr } : Cube).clickCount = .num (n + 1) := by
      show c.clickCount.incr = _
      rw [hcount]; rfl
    obtain ⟨g1, g2, g3⟩ := ih t (n + 1) { c with clickCount := c.clickCount.incr }
      (fun x hx => htaps x (List.mem_cons_of_mem _ hx)) h1 hc hname (by rw [h3]; exact hk)
    rw [hrun]
    have hlen : n + (tap :: rest).length = n + 1 + rest.length := by
      simp only [List.length_cons]; omega
    rw [hlen]
    refine ⟨g1, by rw [g2, h3], ?_⟩
    intro _
    by_cases hr : rest = []
    · subst hr
      simp only [List.map_nil, run, List.foldl_nil, List.length_nil, Nat.add_zero]
      rw [h2, hcount]
      rfl
    · exact g3 hr

end SameSpace

/-- C13: in same-space-tests, N taps whose nearest intersection is the same
cube, a cube with `clickCount` 0 whose name indexes one of the info lines (as
the names '1' to '4' given by `makeCube` do), leave that cube with `clickCount`
N, for every N from 0 on; after the last tap (N at least 1) its info line
reads 'Cube name: N'. -/
theorem taps_on_fresh_cube_count (taps : List (SameSpace.Raycaster × PointerEvent))
    (s : SameSpace.App) (i k : Nat) (c : SameSpace.Cube)
    (htaps : ∀ t ∈ taps, (t.1 (deviceCoords t.2)).head? = some i)
    (hget : s.anchoredObjects[i]? = some c) (hfresh : c.clickCount = .num 0)
    (hname : SameSpace.nameIndex c.name = some k) (hk : k < s.cubeInfoAreas.length) :
    (SameSpace.run s (taps.map fun t => SameSpace.Event.touch t.1 t.2)).anchoredObjects[i]? =
        some { c with clickCount := .num taps.length } ∧
      (taps.length ≥ 1 →
        (SameSpace.run s (taps.map fun t => SameSpace.Event.touch t.1 t.2)).cubeInfoAreas[k]? =
          some ("Cube " ++ c.name ++ ": " ++ toString taps.length)) := by
  obtain ⟨h1, _, h3⟩ := SameSpace.taps_on_cube taps s i k 0 c htaps hget hfresh hname hk
  rw [Nat.zero_add] at h1 h3
  refine ⟨h1, fun hN => h3 ?_⟩
  intro hnil
  rw [hnil] at hN
  exact absurd hN (by decide)

/-- Witness of C13: three taps on cube '1' right after the placement. -/
theorem taps_on_fresh_cube_count_witness :
    (SameSpace.run (SameSpace.run SameSpace.init [.select, .resolved])
        ([(fun _ => [0, 2], ⟨1, 1, 2, 2⟩), (fun _ => [0], ⟨1, 1, 2, 2⟩),
          (fun _ => [0, 2], ⟨0, 1, 2, 2⟩)].map
          fun t => SameSpace.Event.touch t.1 t.2)).anchoredObjects[0]? =
        some { name := "1", color := 0xff0000, opacity := 1, visible := true,
               clickCount := .num 3 } ∧
      (3 ≥ 1 →
        (SameSpace.run (SameSpace.run SameSpace.init [.select, .resolved])
          ([(fun _ => [0, 2], ⟨1, 1, 2, 2⟩), (fun _ => [0], ⟨1, 1, 2, 2⟩),
            (fun _ => [0, 2], ⟨0, 1, 2, 2⟩)].map
            fun t => SameSpace.Event.touch t.1 t.2)).cubeInfoAreas[0]? =
          some ("Cube " ++ "1" ++ ": " ++ toString 3)) :=
  taps_on_fresh_cube_count
    [(fun _ => [0, 2], ⟨1, 1, 2, 2⟩), (fun _ => [0], ⟨1, 1, 2, 2⟩),
      (fun _ => [0, 2], ⟨0, 1, 2, 2⟩)]
    (SameSpace.run SameSpace.init [.select, .resolved]) 0 0
    { name := "1", color := 0xff0000, opacity := 1, visible := true, clickCount := .num 0 }
    (by intro t ht; simp at ht; rcases ht with rfl | rfl | rfl <;> rfl)
    (by decide) rfl (by decide) (by decide)

theorem objectsKept_refl (objects : List Object3D) : ObjectsKept objects objects :=
  fun _ o h => ⟨o, h, rfl, rfl, rfl⟩

theorem objectsKept_trans (a b c : List Object3D) (hab : ObjectsKept a b)
    (hbc : ObjectsKept b c) : ObjectsKept a c := by
  intro r o h
  obtain ⟨p, hp, h1, h2, h3⟩ := hab r o h
  obtain ⟨q, hq, g1, g2, g3⟩ := hbc r p hp
  exact ⟨q, hq, g1.trans h1, g2.trans h2, g3.trans h3⟩

theorem objectsKept_append (objects extra : List Object3D) :
    ObjectsKept objects (objects ++ extra) := by
  intro r o h
  have hlt : r < objects.length := by
    by_contra hn
    rw [List.getElem?_eq_none (by omega)] at h
    exact Option.noConfusion h
  exact ⟨o, by rw [List.getElem?_append_left hlt]; exact h, rfl, rfl, rfl⟩

theorem objectsKept_set_color (objects : List Object3D) (m : Nat) (o : Object3D)
    (material : Option Material) (hget : objects[m]? = some o) :
    ObjectsKept objects (objects.set m { o with material := material }) := by
  intro r x h
  by_cases hrm : m = r
  · subst hrm
    have hlt : m < objects.length := by
      by_contra hn
      rw [List.getElem?_eq_none (by omega)] at h
      exact Option.noConfusion h
    rw [hget] at h
    cases h
    exact ⟨{ o with material := material }, by simp [List.getElem?_set, hlt], rfl, rfl, rfl⟩
  · exact ⟨x, by rw [List.getElem?_set_ne hrm]; exact h, rfl, rfl, rfl⟩

theorem objectsCounted_of_kept (a b : List Object3D) (h : ObjectsKept a b) :
    ObjectsCounted a b := by
  intro r o hr
  obtain ⟨p, hp, h1, h2, h3⟩ := h r o hr
  exact ⟨p, hp, h1, h2, Or.inl h3⟩

theorem objectsCounted_update_incr (a b : List Object3D) (mesh : Nat) (h : ObjectsKept a b) :
    ObjectsCounted a
      (updateObject b mesh fun o => { o with clickCount := o.clickCount.incr }) := by
  intro r o hr
  obtain ⟨p, hp, h1, h2, h3⟩ := h r o hr
  unfold updateObject
  cases hget : b[mesh]? with
  | none => exact ⟨p, hp, h1, h2, Or.inl h3⟩
  | some x =>
    simp only []
    by_cases hrm : mesh = r
    · subst hrm
      have hlt : mesh < b.length := by
        by_contra hn
        rw [List.getElem?_eq_none (by omega)] at hp
        exact Option.noConfusion hp
      rw [hget] at hp
      cases hp
      exact ⟨{ p with clickCount := p.clickCount.incr }, by simp [List.getElem?_set, hlt],
        h1, h2, Or.inr (by show p.clickCount.incr = _; rw [h3])⟩
    · exact ⟨p, by rw [List.getElem?_set_ne hrm]; exact hp, h1, h2, Or.inl h3⟩

theorem InvisFinal.kept_andThen (base : List Object3D) (o : Outcome InvisFinal.App)
    (f : InvisFinal.App → Outcome InvisFinal.App)
    (ho : ObjectsKept base o.state.objects)
    (hf : ∀ s, ObjectsKept base s.objects → ObjectsKept base (f s).state.objects) :
    ObjectsKept base (o.andThen f).state.objects := by
  cases o with
  | ok s => exact hf s ho
  | threw s => exact ho

theorem InvisFinal.kept_placeWall (s : InvisFinal.App) (r : Option Nat) (material : Material)
    (visible : Bool) :
    ObjectsKept s.objects (InvisFinal.placeWall s r material visible).state.objects := by
  unfold InvisFinal.placeWall InvisFinal.addBoxToScene
  cases r with
  | none => exact objectsKept_append _ _
  | some r =>
    simp only [Outcome.state, InvisFinal.makeCubeMarker, updateObject_append_length]
    exact objectsKept_append _ _

theorem InvisFinal.kept_componentB (s : InvisFinal.App) (r : Option Nat) :
    ObjectsKept s.objects (InvisFinal.componentB s r).state.objects := by
  unfold InvisFinal.componentB
  split
  · apply InvisFinal.kept_andThen
    · exact InvisFinal.kept_placeWall s r _ _
    · intro t ht
      simp only [Outcome.state, InvisFinal.invis_displayToUser_objects]
      exact ht
  · split
    · split
      · apply InvisFinal.kept_andThen
        · exact InvisFinal.kept_placeWall s r _ _
        · intro t ht
          simp only [Outcome.state, InvisFinal.invis_displayToUser_objects]
          exact ht
      · split
        · apply InvisFinal.kept_andThen
          · exact InvisFinal.kept_placeWall s r _ _
          · intro t ht
            simp only [Outcome.state, InvisFinal.invis_displayToUser_objects]
            exact ht
        · exact objectsKept_refl _
    · exact objectsKept_refl _

theorem InvisFinal.kept_onSelect (s : InvisFinal.App) :
    ObjectsKept s.objects (InvisFinal.onSelect s).state.objects := by
  unfold InvisFinal.onSelect
  simp only []
  apply InvisFinal.kept_andThen
  · split
    · exact objectsKept_refl _
    · split
      · split
        · apply InvisFinal.kept_andThen
          · exact InvisFinal.kept_componentB
              ({ s with shouldDisplay := true } : InvisFinal.App) s.anchoredObjects[0]?
          · intro t ht; exact ht
        · exact objectsKept_refl _
      · exact objectsKept_refl _
  · intro t ht; exact ht

theorem InvisFinal.kept_changeColorLoop (objects : List Object3D) (intersects : Nat → Bool)
    (random : Nat) (meshes : List Nat) :
    ObjectsKept objects (InvisFinal.changeColorLoop objects intersects random meshes).state.1 := by
  induction meshes with
  | nil => exact objectsKept_refl _
  | cons m rest ih =>
    unfold InvisFinal.changeColorLoop
    split
    · split
      · rename_i x hget
        split
        · exact objectsKept_set_color objects m x _ hget
        · exact objectsKept_refl _
      · exact objectsKept_refl _
    · exact ih

theorem InvisFinal.counted_onTouchEnd (s : InvisFinal.App) (raycaster : Raycaster)
    (event : PointerEvent) (random : Nat) :
    ObjectsCounted s.objects (InvisFinal.onTouchEnd s raycaster event random).state.objects := by
  have hl := InvisFinal.kept_changeColorLoop s.objects (raycaster (deviceCoords event))
    random s.scene.reverse
  unfold InvisFinal.onTouchEnd
  simp only []
  split
  · split
    · unfold InvisFinal.changeColorOnIntersect
      split
      · rename_i objects x heq
        rw [heq] at hl
        exact objectsCounted_of_kept _ _ hl
      · rename_i objects heq
        rw [heq] at hl
        exact objectsCounted_of_kept _ _ hl
      · rename_i objects mesh heq
        rw [heq] at hl
        exact objectsCounted_update_incr _ _ mesh hl
    · exact objectsCounted_of_kept _ _ (objectsKept_refl _)
  · exact objectsCounted_of_kept _ _ (objectsKept_refl _)

theorem InvisFinal.counted_step (s : InvisFinal.App) (e : InvisFinal.Event) :
    ObjectsCounted s.objects (InvisFinal.step s e).objects := by
  cases e with
  | select => exact objectsCounted_of_kept _ _ (InvisFinal.kept_onSelect s)
  | touch r ev random => exact InvisFinal.counted_onTouchEnd s r ev random
  | resolved =>
    apply objectsCounted_of_kept
    show ObjectsKept s.objects (InvisFinal.anchorResolved s).objects
    unfold InvisFinal.anchorResolved
    split
    · exact objectsKept_refl _
    · simp only [InvisFinal.componentA, InvisFinal.addAnchoredBoxToScene,
        InvisFinal.addBoxToScene, InvisFinal.makeCubeMarker, updateObject_append_length]
      exact objectsKept_append _ _
  | rejected err =>
    apply objectsCounted_of_kept
    show ObjectsKept s.objects (InvisFinal.anchorRejected s err).objects
    unfold InvisFinal.anchorRejected
    split <;> exact objectsKept_refl _
  | yes =>
    apply objectsCounted_of_kept
    show ObjectsKept s.objects (InvisFinal.onYesClick s).state.objects
    unfold InvisFinal.onYesClick InvisFinal.removeObjectByName
    simp only []
    split
    · exact objectsKept_refl _
    · split <;> exact objectsKept_refl _
  | no => exact objectsCounted_of_kept _ _ (objectsKept_refl _)
  | next =>
    apply objectsCounted_of_kept
    show ObjectsKept s.objects (InvisFinal.onNextClick s).state.objects
    unfold InvisFinal.onNextClick InvisFinal.removeObjectByName
    split
    · exact objectsKept_refl _
    · split
      · exact objectsKept_refl _
      · simp only [Outcome.andThen, Outcome.state]
        split <;> exact objectsKept_refl _
  | font =>
    apply objectsCounted_of_kept
    show ObjectsKept s.objects (InvisFinal.fontLoaded s).objects
    unfold InvisFinal.fontLoaded
    split
    · exact objectsKept_refl _
    · exact objectsKept_append _ _
  | timeout =>
    apply objectsCounted_of_kept
    show ObjectsKept s.objects (InvisFinal.timeoutFired s).objects
    unfold InvisFinal.timeoutFired
    split <;> exact objectsKept_refl _

theorem InvisFinal.clickCount_run (es : List InvisFinal.Event) (s : InvisFinal.App) (r n : Nat)
    (o : Object3D) (hobj : s.objects[r]? = some o) (hcount : o.clickCount = .num n) :
    ∃ m p, n ≤ m ∧ (InvisFinal.run s es).objects[r]? = some p ∧ p.clickCount = .num m := by
  induction es generalizing s n o with
  | nil => exact ⟨n, o, Nat.le_refl _, hobj, hcount⟩
  | cons e es ih =>
    obtain ⟨p, hp, _, _, hc⟩ := InvisFinal.counted_step s e r o hobj
    rcases hc with hc | hc
    · obtain ⟨m, q, hm, hq, hqc⟩ := ih (InvisFinal.step s e) n p hp (hc.trans hcount)
      exact ⟨m, q, hm, hq, hqc⟩
    · have hp1 : p.clickCount = .num (n + 1) := by rw [hc, hcount]; rfl
      obtain ⟨m, q, hm, hq, hqc⟩ := ih (InvisFinal.step s e) (n + 1) p hp hp1
      exact ⟨m, q, by omega, hq, hqc⟩

/-- C14, counterexample: with the first wall placed and tapped once the count
held for 'Cube 2 Mesh' is 1 (info line 'Cube 2: 1'); after Yes the scene holds
no such object, and after the next select the count held for 'Cube 2 Mesh' is
0 (info line 'Cube 2: 0'): the value went from 1 to 0. -/
theorem count_of_wall_name_drops_to_zero :
    let s := InvisFinal.run (InvisFinal.init [])
      [.select, .resolved, .select, .touch (fun _ ref => ref == 1) ⟨50, 50, 100, 100⟩ 7]
    let t := InvisFinal.run s [.yes]
    let u := InvisFinal.run s [.yes, .select]
    InvisFinal.clickCountByName s "Cube 2 Mesh" = some (.num 1) ∧
      s.cubeInfoAreas[1]? = some "Cube 2: 1" ∧
      InvisFinal.clickCountByName t "Cube 2 Mesh" = none ∧
      InvisFinal.clickCountByName u "Cube 2 Mesh" = some (.num 0) ∧
      u.cubeInfoAreas[1]? = some "Cube 2: 0" := by
  decide

/-- C14, amended: the click count is held by each mesh object.  For an object
whose `clickCount` is a number n, one event leaves it at n or makes it n + 1,
and after any sequence of events it is a number at least n; a mesh made anew
by `addBoxToScene` (as every wall is) starts at 0. -/
theorem clickCount_of_object_never_decreases (s : InvisFinal.App) (r n : Nat) (o : Object3D)
    (e : InvisFinal.Event) (es : List InvisFinal.Event) (material : Material)
    (hobj : s.objects[r]? = some o) (hcount : o.clickCount = .num n) :
    (clickCountOf (InvisFinal.step s e).objects r = .num n ∨
      clickCountOf (InvisFinal.step s e).objects r = .num (n + 1)) ∧
    (∃ m, n ≤ m ∧ clickCountOf (InvisFinal.run s es).objects r = .num m) ∧
    clickCountOf (InvisFinal.addBoxToScene s material).1.objects
      (InvisFinal.addBoxToScene s material).2 = .num 0 := by
  refine ⟨?_, ?_, ?_⟩
  · obtain ⟨p, hp, _, _, hc⟩ := InvisFinal.counted_step s e r o hobj
    unfold clickCountOf
    rw [hp]
    rcases hc with hc | hc
    · exact Or.inl (hc.trans hcount)
    · exact Or.inr (by show p.clickCount = _; rw [hc, hcount]; rfl)
  · obtain ⟨m, p, hm, hp, hpc⟩ := InvisFinal.clickCount_run es s r n o hobj hcount
    exact ⟨m, hm, by unfold clickCountOf; rw [hp]; exact hpc⟩
  · unfold InvisFinal.addBoxToScene clickCountOf
    simp [newMesh]

/-- Witness of C14 (amended): Cube 1 (object 0) right after the placement. -/
theorem clickCount_of_object_never_decreases_witness :
    (clickCountOf (InvisFinal.step (InvisFinal.run (InvisFinal.init []) [.select, .resolved])
        (.touch (fun _ _ => true) ⟨50, 50, 100, 100⟩ 7)).objects 0 = .num 0 ∨
      clickCountOf (InvisFinal.step (InvisFinal.run (InvisFinal.init []) [.select, .resolved])
        (.touch (fun _ _ => true) ⟨50, 50, 100, 100⟩ 7)).objects 0 = .num (0 + 1)) ∧
    (∃ m, 0 ≤ m ∧ clickCountOf (InvisFinal.run
        (InvisFinal.run (InvisFinal.init []) [.select, .resolved]) [.select, .yes]).objects 0
        = .num m) ∧
    clickCountOf (InvisFinal.addBoxToScene
        (InvisFinal.run (InvisFinal.init []) [.select, .resolved])
        { color := 0x0000ff, opacity := 0 }).1.objects
      (InvisFinal.addBoxToScene (InvisFinal.run (InvisFinal.init []) [.select, .resolved])
        { color := 0x0000ff, opacity := 0 }).2 = .num 0 :=
  clickCount_of_object_never_decreases
    (InvisFinal.run (InvisFinal.init []) [.select, .resolved]) 0 0
    { name := "Cube 1 Mesh", material := some { color := 0xff0000, opacity := 1 },
      visible := true, clickCount := .num 0 }
    (.touch (fun _ _ => true) ⟨50, 50, 100, 100⟩ 7) [.select, .yes]
    { color := 0x0000ff, opacity := 0 } (by decide) rfl

/-- C15, the code at the failing input: right after the `onSelect` that places
Cube 2 both tracked meshes exist with `clickCount` 0 and both have an info
line, but the lines read 'not initialized', not a zero count; likewise a first
tap on Cube 1 registers (`clickCount` 1) while its new line reads
'not initialized'.  Only the next `updateInfoScreen` call shows the counts. -/
theorem new_info_lines_read_not_initialized :
    (InvisFinal.run (InvisFinal.init []) [.select, .resolved, .select]).meshes = [0, 1] ∧
      clickCountOf (InvisFinal.run (InvisFinal.init [])
        [.select, .resolved, .select]).objects 0 = .num 0 ∧
      clickCountOf (InvisFinal.run (InvisFinal.init [])
        [.select, .resolved, .select]).objects 1 = .num 0 ∧
      (InvisFinal.run (InvisFinal.init []) [.select, .resolved, .select]).cubeInfoAreas =
        ["Cube 1: not initialized", "Cube 2: not initialized"] ∧
      (InvisFinal.updateInfoScreen (InvisFinal.run (InvisFinal.init [])
        [.select, .resolved, .select])).cubeInfoAreas = ["Cube 1: 0", "Cube 2: 0"] ∧
      (InvisFinal.run (InvisFinal.init []) [.select, .resolved,
        .touch (fun _ ref => ref == 0) ⟨50, 50, 100, 100⟩ 7]).meshes = [0] ∧
      clickCountOf (InvisFinal.run (InvisFinal.init []) [.select, .resolved,
        .touch (fun _ ref => ref == 0) ⟨50, 50, 100, 100⟩ 7]).objects 0 = .num 1 ∧
      (InvisFinal.run (InvisFinal.init []) [.select, .resolved,
        .touch (fun _ ref => ref == 0) ⟨50, 50, 100, 100⟩ 7]).cubeInfoAreas =
        ["Cube 1: not initialized"] := by
  decide

theorem InvisFinal.changeColorLoop_none (objects : List Object3D) (intersects : Nat → Bool)
    (random : Nat) (meshes : List Nat) (h : ∀ r ∈ meshes, intersects r = false) :
    InvisFinal.changeColorLoop objects intersects random meshes = .ok (objects, none) := by
  have := InvisFinal.changeColorLoop_skip objects intersects random meshes [] h
  rw [List.append_nil] at this
  rw [this]
  rfl

/-- C16: a tap whose ray intersects no object changes nothing but the display.
In same-space-tests `onTouchEnd` returns the state with one console line added.
In invisibility-experiments/final `onTouchEnd` returns normally and the heap
of objects (so every `clickCount` and colour), the scene, the tracked lists
`meshes` and `anchoredObjects`, and the flags `anchorPlaced`,
`componentBEnabled`, `wallPlaced`, `shouldDisplayInitialCube`,
`shouldDisplayTransparentCube`, `shouldDisplay` and `transparencyType` are all
unchanged. -/
theorem tap_on_nothing_changes_nothing (a : SameSpace.App) (rc : SameSpace.Raycaster)
    (s : InvisFinal.App) (raycaster : Raycaster) (event : PointerEvent) (random : Nat)
    (ha : rc (deviceCoords event) = [])
    (hs : ∀ r ∈ s.scene, raycaster (deviceCoords event) r = false) :
    SameSpace.onTouchEnd a rc event = .ok { a with console := a.console ++ ["intersects: 0"] } ∧
    ∃ t, InvisFinal.onTouchEnd s raycaster event random = .ok t ∧
      t.objects = s.objects ∧ t.scene = s.scene ∧ t.meshes = s.meshes ∧
      t.anchoredObjects = s.anchoredObjects ∧ t.anchorPlaced = s.anchorPlaced ∧
      t.componentBEnabled = s.componentBEnabled ∧ t.wallPlaced = s.wallPlaced ∧
      t.shouldDisplayInitialCube = s.shouldDisplayInitialCube ∧
      t.shouldDisplayTransparentCube = s.shouldDisplayTransparentCube ∧
      t.shouldDisplay = s.shouldDisplay ∧ t.transparencyType = s.transparencyType := by
  constructor
  · unfold SameSpace.onTouchEnd
    simp only [ha]
    rfl
  · have hloop : InvisFinal.changeColorOnIntersect s.objects (raycaster (deviceCoords event))
        random s.scene = .ok (s.objects, none) := by
      unfold InvisFinal.changeColorOnIntersect
      exact InvisFinal.changeColorLoop_none _ _ _ _
        (fun r hr => hs r (List.mem_reverse.mp hr))
    unfold InvisFinal.onTouchEnd
    simp only [hloop]
    split
    · split
      · exact ⟨_, rfl, rfl, rfl, rfl, rfl, rfl, rfl, rfl, rfl, rfl, rfl, rfl⟩
      · exact ⟨_, rfl, rfl, rfl, rfl, rfl, rfl, rfl, rfl, rfl, rfl, rfl, rfl⟩
    · exact ⟨_, rfl, rfl, rfl, rfl, rfl, rfl, rfl, rfl, rfl, rfl, rfl, rfl⟩

/-- Witness of C16: a tap that meets nothing, right after the placement. -/
theorem tap_on_nothing_changes_nothing_witness :
    SameSpace.onTouchEnd (SameSpace.run SameSpace.init [.select, .resolved]) (fun _ => [])
        ⟨50, 50, 100, 100⟩ =
      .ok { SameSpace.run SameSpace.init [.select, .resolved] with
            console := (SameSpace.run SameSpace.init [.select, .resolved]).console ++
              ["intersects: 0"] } ∧
    ∃ t, InvisFinal.onTouchEnd (InvisFinal.run (InvisFinal.init []) [.select, .resolved, .select])
        (fun _ _ => false) ⟨50, 50, 100, 100⟩ 7 = .ok t ∧
      t.objects = (InvisFinal.run (InvisFinal.init []) [.select, .resolved, .select]).objects ∧
      t.meshes = [0, 1] := by
  obtain ⟨h1, t, ht, h2, _, h3, _⟩ := tap_on_nothing_changes_nothing
    (SameSpace.run SameSpace.init [.select, .resolved]) (fun _ => [])
    (InvisFinal.run (InvisFinal.init []) [.select, .resolved, .select])
    (fun _ _ => false) ⟨50, 50, 100, 100⟩ 7 rfl (fun _ _ => rfl)
  exact ⟨h1, t, ht, h2, h3.trans (by decide)⟩

/-- C17, counterexample: in the initial state (nothing placed, no 'Cube 2 Mesh'
in the scene) `onNextClick` raises; so it does right after the placement of
Cube 1, and after Yes has removed the wall. -/
theorem onNextClick_without_wall_raises :
    (InvisFinal.onNextClick (InvisFinal.init [])).raised = true ∧
    (InvisFinal.onNextClick
      (InvisFinal.run (InvisFinal.init []) [.select, .resolved])).raised = true ∧
    (InvisFinal.onNextClick
      (InvisFinal.run (InvisFinal.init []) [.select, .resolved, .select, .yes])).raised
      = true := by
  decide

/-- C17, amended: when no scene object is named 'Cube 2 Mesh', `onNextClick`
raises (in `removeObjectByName`, on the `undefined` it looked up) before it has
written anything: the state it leaves is the state it found, so
`transparencyType`, `shouldDisplayTransparentCube`, `wallPlaced`, the Next
button and the tracked mesh list are unchanged. -/
theorem onNextClick_without_wall_changes_nothing (s : InvisFinal.App)
    (hnone : InvisFinal.getObjectByName s "Cube 2 Mesh" = none) :
    InvisFinal.onNextClick s = .threw s ∧ InvisFinal.step s .next = s := by
  have h : InvisFinal.onNextClick s = .threw s := by
    unfold InvisFinal.onNextClick InvisFinal.removeObjectByName
    simp only [hnone, Outcome.andThen]
  refine ⟨h, ?_⟩
  show (InvisFinal.onNextClick s).state = s
  rw [h]
  rfl

/-- Witness of C17 (amended) on the state right after the placement of Cube 1. -/
theorem onNextClick_without_wall_changes_nothing_witness :
    InvisFinal.onNextClick (InvisFinal.run (InvisFinal.init []) [.select, .resolved]) =
        .threw (InvisFinal.run (InvisFinal.init []) [.select, .resolved]) ∧
      InvisFinal.step (InvisFinal.run (InvisFinal.init []) [.select, .resolved]) .next =
        InvisFinal.run (InvisFinal.init []) [.select, .resolved] :=
  onNextClick_without_wall_changes_nothing
    (InvisFinal.run (InvisFinal.init []) [.select, .resolved]) (by decide)

theorem InvisFinal.meshes_andThen (base : List Nat) (o : Outcome InvisFinal.App)
    (f : InvisFinal.App → Outcome InvisFinal.App)
    (ho : ∀ r ∈ base, r ∈ o.state.meshes)
    (hf : ∀ s, (∀ r ∈ base, r ∈ s.meshes) → ∀ r ∈ base, r ∈ (f s).state.meshes) :
    ∀ r ∈ base, r ∈ (o.andThen f).state.meshes := by
  cases o with
  | ok s => exact hf s ho
  | threw s => exact ho

theorem InvisFinal.meshes_placeWall (s : InvisFinal.App) (r : Option Nat) (material : Material)
    (visible : Bool) :
    ∀ x ∈ s.meshes, x ∈ (InvisFinal.placeWall s r material visible).state.meshes := by
  unfold InvisFinal.placeWall InvisFinal.addBoxToScene
  cases r <;> intro x hx <;> exact List.mem_append_left _ hx

theorem InvisFinal.displayToUser_meshes (s : InvisFinal.App) (content : String) :
    (InvisFinal.displayToUser s content).meshes = s.meshes := by
  unfold InvisFinal.displayToUser
  split <;> rfl

theorem InvisFinal.meshes_componentB (s : InvisFinal.App) (r : Option Nat) :
    ∀ x ∈ s.meshes, x ∈ (InvisFinal.componentB s r).state.meshes := by
  unfold InvisFinal.componentB
  split
  · apply InvisFinal.meshes_andThen
    · exact InvisFinal.meshes_placeWall s r _ _
    · intro t ht
      simp only [Outcome.state, InvisFinal.displayToUser_meshes]
      exact ht
  · split
    · split
      · apply InvisFinal.meshes_andThen
        · exact InvisFinal.meshes_placeWall s r _ _
        · intro t ht
          simp only [Outcome.state, InvisFinal.displayToUser_meshes]
          exact ht
      · split
        · apply InvisFinal.meshes_andThen
          · exact InvisFinal.meshes_placeWall s r _ _
          · intro t ht
            simp only [Outcome.state, InvisFinal.displayToUser_meshes]
            exact ht
        · exact fun x hx => hx
    · exact fun x hx => hx

theorem InvisFinal.meshes_onSelect (s : InvisFinal.App) :
    ∀ x ∈ s.meshes, x ∈ (InvisFinal.onSelect s).state.meshes := by
  unfold InvisFinal.onSelect
  simp only []
  apply InvisFinal.meshes_andThen
  · split
    · exact fun x hx => hx
    · split
      · split
        · apply InvisFinal.meshes_andThen
          · exact InvisFinal.meshes_componentB
              ({ s with shouldDisplay := true } : InvisFinal.App) s.anchoredObjects[0]?
          · intro t ht; exact ht
        · exact fun x hx => hx
      · exact fun x hx => hx
  · intro t ht; exact ht

theorem InvisFinal.meshes_step (s : InvisFinal.App) (e : InvisFinal.Event) (x : Nat)
    (hx : x ∈ s.meshes) :
    x ∈ (InvisFinal.step s e).meshes ∨
      (nameOf s.objects x = "Cube 2 Mesh" ∧ (e = .yes ∨ e = .next)) := by
  have hfilter : x ∈ s.meshes.filter (fun ref => nameOf s.objects ref != "Cube 2 Mesh") ∨
      nameOf s.objects x = "Cube 2 Mesh" := by
    by_cases hn : nameOf s.objects x = "Cube 2 Mesh"
    · exact Or.inr hn
    · exact Or.inl (List.mem_filter.mpr ⟨hx, by simpa using hn⟩)
  cases e with
  | select => exact Or.inl (InvisFinal.meshes_onSelect s x hx)
  | touch r ev random =>
    left
    show x ∈ (InvisFinal.onTouchEnd s r ev random).state.meshes
    unfold InvisFinal.onTouchEnd
    simp only []
    split
    · split
      · split <;> exact hx
      · exact hx
    · exact hx
  | resolved =>
    left
    show x ∈ (InvisFinal.anchorResolved s).meshes
    unfold InvisFinal.anchorResolved
    split
    · exact hx
    · simp only [InvisFinal.componentA, InvisFinal.addAnchoredBoxToScene,
        InvisFinal.addBoxToScene, InvisFinal.makeCubeMarker]
      exact List.mem_append_left _ hx
  | rejected err =>
    left
    show x ∈ (InvisFinal.anchorRejected s err).meshes
    unfold InvisFinal.anchorRejected
    split <;> exact hx
  | yes =>
    rcases hfilter with hf | hn
    · left
      show x ∈ (InvisFinal.onYesClick s).state.meshes
      unfold InvisFinal.onYesClick InvisFinal.removeObjectByName
      simp only []
      split
      · exact hx
      · split
        · exact hx
        · exact hf
    · exact Or.inr ⟨hn, Or.inl rfl⟩
  | no => exact Or.inl hx
  | next =>
    rcases hfilter with hf | hn
    · left
      show x ∈ (InvisFinal.onNextClick s).state.meshes
      unfold InvisFinal.onNextClick InvisFinal.removeObjectByName
      split
      · exact hx
      · split
        · exact hx
        · simp only [Outcome.andThen, Outcome.state]
          split <;> exact hf
    · exact Or.inr ⟨hn, Or.inr rfl⟩
  | font =>
    left
    show x ∈ (InvisFinal.fontLoaded s).meshes
    unfold InvisFinal.fontLoaded
    split <;> exact hx
  | timeout =>
    left
    show x ∈ (InvisFinal.timeoutFired s).meshes
    unfold InvisFinal.timeoutFired
    split <;> exact hx

theorem nameOf_some (objects : List Object3D) (r : Nat) (name : String)
    (h : nameOf objects r = name) (hne : name ≠ "") :
    ∃ o, objects[r]? = some o ∧ o.name = name := by
  unfold nameOf at h
  cases hget : objects[r]? with
  | none => rw [hget] at h; exact absurd h.symm hne
  | some o => rw [hget] at h; exact ⟨o, rfl, h⟩

theorem InvisFinal.nameOf_step (s : InvisFinal.App) (e : InvisFinal.Event) (r : Nat)
    (name : String) (h : nameOf s.objects r = name) (hne : name ≠ "") :
    nameOf (InvisFinal.step s e).objects r = name := by
  obtain ⟨o, ho, hn⟩ := nameOf_some _ _ _ h hne
  obtain ⟨p, hp, hpn, _, _⟩ := InvisFinal.counted_step s e r o ho
  unfold nameOf
  rw [hp]
  exact hpn.trans hn

theorem InvisFinal.cube1_run (es : List InvisFinal.Event) (s : InvisFinal.App) (r : Nat)
    (hr : r ∈ s.meshes) (hn : nameOf s.objects r = "Cube 1 Mesh") :
    r ∈ (InvisFinal.run s es).meshes ∧ nameOf (InvisFinal.run s es).objects r = "Cube 1 Mesh" := by
  induction es generalizing s with
  | nil => exact ⟨hr, hn⟩
  | cons e es ih =>
    have hname := InvisFinal.nameOf_step s e r _ hn (by decide)
    have hmem : r ∈ (InvisFinal.step s e).meshes := by
      rcases InvisFinal.meshes_step s e r hr with h | ⟨h, _⟩
      · exact h
      · rw [hn] at h
        exact absurd h (by decide)
    exact ih (InvisFinal.step s e) hmem hname

/-- C18: in invisibility-experiments/final, once a mesh named 'Cube 1 Mesh' is
in the tracked mesh list it is still there, under that name, after every later
sequence of events; and whenever one event drops an entry from the list, the
entry is named 'Cube 2 Mesh' and the event is Yes or Next. -/
theorem cube1_stays_tracked (s : InvisFinal.App) (r : Nat) (e : InvisFinal.Event)
    (es : List InvisFinal.Event)
    (hr : r ∈ s.meshes) (hn : nameOf s.objects r = "Cube 1 Mesh") :
    (r ∈ (InvisFinal.run s es).meshes ∧
      nameOf (InvisFinal.run s es).objects r = "Cube 1 Mesh") ∧
    (∀ x ∈ s.meshes, x ∉ (InvisFinal.step s e).meshes →
      nameOf s.objects x = "Cube 2 Mesh" ∧ (e = .yes ∨ e = .next)) := by
  refine ⟨InvisFinal.cube1_run es s r hr hn, ?_⟩
  intro x hx hgone
  rcases InvisFinal.meshes_step s e x hx with h | h
  · exact absurd h hgone
  · exact h

/-- Witness of C18: Cube 1 is object 0 right after the placement; it is still
tracked after the three walls have come and gone. -/
theorem cube1_stays_tracked_witness :
    (0 ∈ (InvisFinal.run (InvisFinal.run (InvisFinal.init []) [.select, .resolved])
        [.select, .yes, .select, .next, .select, .next]).meshes ∧
      nameOf (InvisFinal.run (InvisFinal.run (InvisFinal.init []) [.select, .resolved])
        [.select, .yes, .select, .next, .select, .next]).objects 0 = "Cube 1 Mesh") ∧
    (∀ x ∈ (InvisFinal.run (InvisFinal.init []) [.select, .resolved]).meshes,
      x ∉ (InvisFinal.step (InvisFinal.run (InvisFinal.init []) [.select, .resolved])
        .yes).meshes →
      nameOf (InvisFinal.run (InvisFinal.init []) [.select, .resolved]).objects x
        = "Cube 2 Mesh" ∧
      (InvisFinal.Event.yes = .yes ∨ InvisFinal.Event.yes = .next)) :=
  cube1_stays_tracked (InvisFinal.run (InvisFinal.init []) [.select, .resolved]) 0 .yes
    [.select, .yes, .select, .next, .select, .next] (by decide) (by decide)

theorem InvisFinal.invis_placeWall_some (s : InvisFinal.App) (r : Nat) (opacity : ℚ) (visible : Bool) :
    InvisFinal.placeWall s (some r) { color := 0x0000ff, opacity := opacity } visible =
      .ok { s with
            objects := s.objects ++ [InvisFinal.wallMesh opacity visible]
            meshes := s.meshes ++ [s.objects.length]
            scene := s.scene ++ [s.objects.length]
            fontLoads := s.fontLoads ++ [("Cube 2", "Cube 2 Mesh")] } := by
  unfold InvisFinal.placeWall InvisFinal.addBoxToScene InvisFinal.makeCubeMarker
  simp only [updateObject_append_length]
  rfl

theorem InvisFinal.displayToUser_scene (s : InvisFinal.App) (content : String) :
    (InvisFinal.displayToUser s content).scene = s.scene := by
  unfold InvisFinal.displayToUser
  split <;> rfl

/-- C19: what `componentB` of invisibility-experiments/final creates (given a
reference mesh) is fixed by the stage flags.  At the initial stage
(`shouldDisplayInitialCube`) it adds a wall of opacity 1 with `visible = true`;
at the transparent stage with `transparencyType = 0` a wall of opacity 0 with
`visible = true`; with `transparencyType = 1` a wall of opacity 0 with
`visible = false`, and it sets `transparencyType` to 2; with
`transparencyType` at least 2, or with neither stage flag set, it creates
nothing and changes nothing. -/
theorem componentB_wall_by_stage (s : InvisFinal.App) (r : Nat) :
    (s.shouldDisplayInitialCube = true →
      ∃ t, InvisFinal.componentB s (some r) = .ok t ∧
        t.objects = s.objects ++ [InvisFinal.wallMesh 1 true] ∧
        t.meshes = s.meshes ++ [s.objects.length] ∧
        t.scene = s.scene ++ [s.objects.length] ∧
        t.transparencyType = s.transparencyType) ∧
    (s.shouldDisplayInitialCube = false → s.shouldDisplayTransparentCube = true →
      s.transparencyType = 0 →
      ∃ t, InvisFinal.componentB s (some r) = .ok t ∧
        t.objects = s.objects ++ [InvisFinal.wallMesh 0 true] ∧
        t.meshes = s.meshes ++ [s.objects.length] ∧
        t.scene = s.scene ++ [s.objects.length] ∧
        t.transparencyType = 0) ∧
    (s.shouldDisplayInitialCube = false → s.shouldDisplayTransparentCube = true →
      s.transparencyType = 1 →
      ∃ t, InvisFinal.componentB s (some r) = .ok t ∧
        t.objects = s.objects ++ [InvisFinal.wallMesh 0 false] ∧
        t.meshes = s.meshes ++ [s.objects.length] ∧
        t.scene = s.scene ++ [s.objects.length] ∧
        t.transparencyType = 2) ∧
    (s.shouldDisplayInitialCube = false → s.shouldDisplayTransparentCube = true →
      s.transparencyType ≥ 2 → InvisFinal.componentB s (some r) = .ok s) ∧
    (s.shouldDisplayInitialCube = false → s.shouldDisplayTransparentCube = false →
      InvisFinal.componentB s (some r) = .ok s) := by
  refine ⟨?_, ?_, ?_, ?_, ?_⟩
  · intro h1
    unfold InvisFinal.componentB
    rw [if_pos h1, InvisFinal.invis_placeWall_some]
    simp only [Outcome.andThen]
    refine ⟨_, rfl, ?_, ?_, ?_, ?_⟩ <;>
      simp only [InvisFinal.invis_displayToUser_objects, InvisFinal.displayToUser_meshes,
        InvisFinal.displayToUser_transparencyType, InvisFinal.displayToUser_scene]
  · intro h1 h2 h3
    unfold InvisFinal.componentB
    rw [if_neg (by simp [h1]), if_pos h2, if_pos h3, InvisFinal.invis_placeWall_some]
    simp only [Outcome.andThen]
    refine ⟨_, rfl, ?_, ?_, ?_, ?_⟩ <;>
      simp only [InvisFinal.invis_displayToUser_objects, InvisFinal.displayToUser_meshes,
        InvisFinal.displayToUser_transparencyType, InvisFinal.displayToUser_scene, h3]
  · intro h1 h2 h3
    unfold InvisFinal.componentB
    rw [if_neg (by simp [h1]), if_pos h2, if_neg (by omega), if_pos h3,
      InvisFinal.invis_placeWall_some]
    simp only [Outcome.andThen]
    refine ⟨_, rfl, ?_, ?_, ?_, ?_⟩ <;>
      simp only [InvisFinal.invis_displayToUser_objects, InvisFinal.displayToUser_meshes,
        InvisFinal.displayToUser_transparencyType, InvisFinal.displayToUser_scene]
  · intro h1 h2 h3
    unfold InvisFinal.componentB
    rw [if_neg (by simp [h1]), if_pos h2, if_neg (by omega), if_neg (by omega)]
  · intro h1 h2
    unfold InvisFinal.componentB
    rw [if_neg (by simp [h1]), if_neg (by simp [h2])]

theorem ArkaFinal.arka_placeWall_some (s : ArkaFinal.App) (r : Nat) (opacity : ℚ) :
    ArkaFinal.placeWall s (some r) { color := 0x0000ff, opacity := opacity } =
      .ok { s with
            objects := s.objects ++ [ArkaFinal.wallMesh opacity]
            meshes := s.meshes ++ [s.objects.length]
            scene := s.scene ++ [s.objects.length] } := by
  unfold ArkaFinal.placeWall ArkaFinal.addBoxToScene
  simp only [updateObject_append_length]
  rfl

theorem ArkaFinal.componentB_done (s : ArkaFinal.App) (r : Option Nat)
    (h1 : s.shouldDisplayInitialCube = false) (h2 : s.shouldDisplayTransparentCube = false) :
    ArkaFinal.componentB s r = .ok s := by
  unfold ArkaFinal.componentB
  rw [if_neg (by simp [h1]), if_neg (by simp [h2])]

theorem ArkaFinal.flags_done_step (s : ArkaFinal.App) (e : ArkaFinal.Event)
    (h1 : s.shouldDisplayInitialCube = false) (h2 : s.shouldDisplayTransparentCube = false) :
    (ArkaFinal.step s e).shouldDisplayInitialCube = false ∧
      (ArkaFinal.step s e).shouldDisplayTransparentCube = false := by
  cases e with
  | select =>
    show (ArkaFinal.onSelect s).state.shouldDisplayInitialCube = false ∧
      (ArkaFinal.onSelect s).state.shouldDisplayTransparentCube = false
    unfold ArkaFinal.onSelect
    simp only []
    split
    · exact ⟨h1, h2⟩
    · split
      · split
        · rw [ArkaFinal.componentB_done ({ s with shouldDisplay := true } : ArkaFinal.App)
            s.anchoredObjects[0]? h1 h2]
          exact ⟨h1, h2⟩
        · exact ⟨h1, h2⟩
      · exact ⟨h1, h2⟩
  | touch r ev random =>
    show (ArkaFinal.onTouchEnd s r ev random).state.shouldDisplayInitialCube = false ∧
      (ArkaFinal.onTouchEnd s r ev random).state.shouldDisplayTransparentCube = false
    unfold ArkaFinal.onTouchEnd
    split
    · split
      · simp only []
        split <;> exact ⟨h1, h2⟩
      · exact ⟨h1, h2⟩
    · exact ⟨h1, h2⟩
  | resolved =>
    show (ArkaFinal.anchorResolved s).shouldDisplayInitialCube = false ∧
      (ArkaFinal.anchorResolved s).shouldDisplayTransparentCube = false
    unfold ArkaFinal.anchorResolved
    split <;> exact ⟨h1, h2⟩
  | rejected err =>
    show (ArkaFinal.anchorRejected s err).shouldDisplayInitialCube = false ∧
      (ArkaFinal.anchorRejected s err).shouldDisplayTransparentCube = false
    unfold ArkaFinal.anchorRejected
    split <;> exact ⟨h1, h2⟩
  | yes =>
    show (ArkaFinal.onYesClick s).shouldDisplayInitialCube = false ∧
      (ArkaFinal.onYesClick s).shouldDisplayTransparentCube = false
    unfold ArkaFinal.onYesClick ArkaFinal.removeObjectByName
    simp only []
    split <;> exact ⟨h1, h2⟩
  | no => exact ⟨h1, h2⟩
  | timeout =>
    show (ArkaFinal.timeoutFired s).shouldDisplayInitialCube = false ∧
      (ArkaFinal.timeoutFired s).shouldDisplayTransparentCube = false
    unfold ArkaFinal.timeoutFired
    split <;> exact ⟨h1, h2⟩

theorem ArkaFinal.flags_done_run (es : List ArkaFinal.Event) (s : ArkaFinal.App)
    (h1 : s.shouldDisplayInitialCube = false) (h2 : s.shouldDisplayTransparentCube = false) :
    (ArkaFinal.run s es).shouldDisplayInitialCube = false ∧
      (ArkaFinal.run s es).shouldDisplayTransparentCube = false := by
  induction es generalizing s with
  | nil => exact ⟨h1, h2⟩
  | cons e es ih =>
    obtain ⟨g1, g2⟩ := ArkaFinal.flags_done_step s e h1 h2
    exact ih (ArkaFinal.step s e) g1 g2

/-- C20: `componentB` of invisibility-experiments-arka/final, given a reference
mesh.  With the initial flags (`shouldDisplayInitialCube` set) the call adds a
visible wall of opacity 0.75 and leaves the flags at (false, true); with the
flags at (false, true) the call adds a visible wall of opacity 0 and leaves
them at (false, false); with the flags at (false, false) every call, after any
further events, returns the state unchanged: no object created, no flag
changed. -/
theorem arka_componentB_call_sequence (s t u : ArkaFinal.App) (r : Nat)
    (hs : s.shouldDisplayInitialCube = true)
    (ht : t.shouldDisplayInitialCube = false ∧ t.shouldDisplayTransparentCube = true)
    (hu : u.shouldDisplayInitialCube = false ∧ u.shouldDisplayTransparentCube = false) :
    (∃ v, ArkaFinal.componentB s (some r) = .ok v ∧
      v.objects = s.objects ++ [ArkaFinal.wallMesh 0.75] ∧
      v.shouldDisplayInitialCube = false ∧ v.shouldDisplayTransparentCube = true) ∧
    (∃ v, ArkaFinal.componentB t (some r) = .ok v ∧
      v.objects = t.objects ++ [ArkaFinal.wallMesh 0] ∧
      v.shouldDisplayInitialCube = false ∧ v.shouldDisplayTransparentCube = false) ∧
    (∀ (es : List ArkaFinal.Event) (ref : Option Nat),
      ArkaFinal.componentB (ArkaFinal.run u es) ref = .ok (ArkaFinal.run u es)) := by
  refine ⟨?_, ?_, ?_⟩
  · unfold ArkaFinal.componentB
    rw [if_pos hs, ArkaFinal.arka_placeWall_some]
    simp only [Outcome.andThen]
    exact ⟨_, rfl, by simp only [ArkaFinal.arka_displayToUser_objects], rfl, rfl⟩
  · unfold ArkaFinal.componentB
    rw [if_neg (by simp [ht.1]), if_pos ht.2, ArkaFinal.arka_placeWall_some]
    simp only [Outcome.andThen]
    exact ⟨_, rfl, rfl, ht.1, rfl⟩
  · intro es ref
    obtain ⟨g1, g2⟩ := ArkaFinal.flags_done_run es u hu.1 hu.2
    exact ArkaFinal.componentB_done _ _ g1 g2

/-- Witness of C20 along select, anchor settled, select, Yes, select: the
states before the first, before the second and after the second wall. -/
theorem arka_componentB_call_sequence_witness :
    (∃ v, ArkaFinal.componentB (ArkaFinal.run (ArkaFinal.init []) [.select, .resolved])
        (some 0) = .ok v ∧
      v.objects = (ArkaFinal.run (ArkaFinal.init []) [.select, .resolved]).objects ++
        [ArkaFinal.wallMesh 0.75] ∧
      v.shouldDisplayInitialCube = false ∧ v.shouldDisplayTransparentCube = true) ∧
    (∃ v, ArkaFinal.componentB
        (ArkaFinal.run (ArkaFinal.init []) [.select, .resolved, .select, .yes]) (some 0) = .ok v ∧
      v.objects = (ArkaFinal.run (ArkaFinal.init [])
        [.select, .resolved, .select, .yes]).objects ++ [ArkaFinal.wallMesh 0] ∧
      v.shouldDisplayInitialCube = false ∧ v.shouldDisplayTransparentCube = false) ∧
    (∀ (es : List ArkaFinal.Event) (ref : Option Nat),
      ArkaFinal.componentB (ArkaFinal.run (ArkaFinal.run (ArkaFinal.init [])
        [.select, .resolved, .select, .yes, .select]) es) ref =
        .ok (ArkaFinal.run (ArkaFinal.run (ArkaFinal.init [])
          [.select, .resolved, .select, .yes, .select]) es)) :=
  arka_componentB_call_sequence
    (ArkaFinal.run (ArkaFinal.init []) [.select, .resolved])
    (ArkaFinal.run (ArkaFinal.init []) [.select, .resolved, .select, .yes])
    (ArkaFinal.run (ArkaFinal.init []) [.select, .resolved, .select, .yes, .select]) 0
    (by decide) (by decide) (by decide)

/-- C21: along the scripted run of invisibility-experiments/final (select, anchor
settled, select, Yes, select, Next, select, Next) three walls are created, one
by each select after the placement; the Next button is shown after the first
Next press (stage counter 1) and still shown before the second, and it is
hidden by the second Next press, after which `transparencyType` is 3. -/
theorem scripted_run_hides_next_at_second_press :
    InvisFinal.wallStates (InvisFinal.run (InvisFinal.init []) [.select, .resolved]) = [] ∧
    InvisFinal.wallStates (InvisFinal.run (InvisFinal.init [])
      [.select, .resolved, .select]) = [(1, true)] ∧
    InvisFinal.wallStates (InvisFinal.run (InvisFinal.init [])
      [.select, .resolved, .select, .yes, .select]) = [(1, true), (0, true)] ∧
    InvisFinal.wallStates (InvisFinal.run (InvisFinal.init [])
      [.select, .resolved, .select, .yes, .select, .next, .select]) =
        [(1, true), (0, true), (0, false)] ∧
    InvisFinal.wallStates (InvisFinal.run (InvisFinal.init [])
      [.select, .resolved, .select, .yes, .select, .next, .select, .next]) =
        [(1, true), (0, true), (0, false)] ∧
    (InvisFinal.run (InvisFinal.init [])
      [.select, .resolved, .select, .yes, .select]).nextButton = .visible ∧
    (InvisFinal.run (InvisFinal.init [])
      [.select, .resolved, .select, .yes, .select, .next]).nextButton = .visible ∧
    (InvisFinal.run (InvisFinal.init [])
      [.select, .resolved, .select, .yes, .select, .next]).transparencyType = 1 ∧
    (InvisFinal.run (InvisFinal.init [])
      [.select, .resolved, .select, .yes, .select, .next, .select]).nextButton = .visible ∧
    (InvisFinal.run (InvisFinal.init [])
      [.select, .resolved, .select, .yes, .select, .next, .select, .next]).nextButton
        = .hidden ∧
    (InvisFinal.run (InvisFinal.init [])
      [.select, .resolved, .select, .yes, .select, .next, .select, .next]).transparencyType
        = 3 := by
  decide

/-- C22, the code at the failing input: after select, anchor settled and the
font load of Cube 1's label, the scene children are Cube 1 (object 0) and the
label text (object 1, whose `material` is an array of two).  For a ray that
meets both, the label is the intersected child of largest index, and
`changeColorOnIntersect` neither returns it nor returns null: it raises, with
nothing recoloured; `onTouchEnd` raises with it, so the tap is not counted and
the info screen is not refreshed. -/
theorem changeColorOnIntersect_raises_on_label :
    (InvisFinal.run (InvisFinal.init []) [.select, .resolved, .font]).scene = [0, 1] ∧
    ((InvisFinal.run (InvisFinal.init []) [.select, .resolved, .font]).objects[1]?).map
        Object3D.material = some none ∧
    InvisFinal.changeColorOnIntersect
        (InvisFinal.run (InvisFinal.init []) [.select, .resolved, .font]).objects
        (fun _ => true) 0x00ff00 [0, 1] =
      .threw ((InvisFinal.run (InvisFinal.init []) [.select, .resolved, .font]).objects, none) ∧
    (InvisFinal.onTouchEnd (InvisFinal.run (InvisFinal.init []) [.select, .resolved, .font])
        (fun _ _ => true) ⟨50, 50, 100, 100⟩ 0x00ff00).raised = true ∧
    clickCountOf (InvisFinal.onTouchEnd
        (InvisFinal.run (InvisFinal.init []) [.select, .resolved, .font])
        (fun _ _ => true) ⟨50, 50, 100, 100⟩ 0x00ff00).state.objects 0 = .num 0 ∧
    InvisFinal.changeColorOnIntersect
        (InvisFinal.run (InvisFinal.init []) [.select, .resolved, .font]).objects
        (fun ref => ref == 0) 0x00ff00 [0, 1] =
      .ok ([{ name := "Cube 1 Mesh", material := some { color := 0x00ff00, opacity := 1 },
              visible := true, clickCount := .num 0 }, newText "Cube 1"], some 0) := by
  decide

theorem InvisFinal.changeColorOnIntersect_single_material (objects : List Object3D)
    (intersects : Nat → Bool) (random m : Nat) (o : Object3D) (mat : Material)
    (before after : List Nat)
    (hhit : intersects m = true) (hafter : ∀ r ∈ after, intersects r = false)
    (hobj : objects[m]? = some o) (hmat : o.material = some mat) :
    InvisFinal.changeColorOnIntersect objects intersects random (before ++ m :: after) =
      .ok (objects.set m { o with material := some { mat with color := random } }, some m) := by
  unfold InvisFinal.changeColorOnIntersect
  rw [List.reverse_append, List.reverse_cons, List.append_assoc,
    InvisFinal.changeColorLoop_skip _ _ _ _ _
      (by intro r hr; exact hafter r (List.mem_reverse.mp hr))]
  simp [InvisFinal.changeColorLoop, hhit, hobj, hmat]

namespace SameSpace

theorem namesInRange_placeCube (s : App) (name : String) (hexColor slot : Nat)
    (hname : name = "1" ∨ name = "2" ∨ name = "3" ∨ name = "4")
    (h : NamesInRange s) : NamesInRange (placeCube s name hexColor slot).state := by
  unfold placeCube
  simp only []
  have hc : ∀ c ∈ s.anchoredObjects ++
      [({ name := name, color := hexColor, opacity := 1, visible := true,
          clickCount := .num 0 } : Cube)],
      c.name = "1" ∨ c.name = "2" ∨ c.name = "3" ∨ c.name = "4" := by
    intro c hc
    rcases List.mem_append.mp hc with hc | hc
    · exact h.2 c hc
    · rw [List.mem_singleton] at hc
      subst hc
      exact hname
  split
  · exact ⟨by simp only [Outcome.state, List.length_set]; exact h.1, hc⟩
  · exact ⟨h.1, hc⟩

theorem namesInRange_andThen (o : Outcome App) (f : App → Outcome App)
    (ho : NamesInRange o.state) (hf : ∀ s, NamesInRange s → NamesInRange (f s).state) :
    NamesInRange (o.andThen f).state := by
  cases o with
  | ok s => exact hf s ho
  | threw s => exact ho

theorem namesInRange_onTouchEnd (s : App) (raycaster : Raycaster) (event : PointerEvent)
    (h : NamesInRange s) : NamesInRange (onTouchEnd s raycaster event).state := by
  unfold onTouchEnd
  simp only []
  split
  · exact h
  · rename_i i tl heq
    split
    · exact h
    · rename_i currObj hget
      have hcur := h.2 currObj (List.getElem?_mem hget)
      have key : ∀ c ∈ s.anchoredObjects.set i
          { currObj with clickCount := currObj.clickCount.incr },
          c.name = "1" ∨ c.name = "2" ∨ c.name = "3" ∨ c.name = "4" := by
        intro c hc
        rcases List.mem_or_eq_of_mem_set hc with hc | hc
        · exact h.2 c hc
        · subst hc; exact hcur
      split
      · exact ⟨h.1, key⟩
      · split
        · exact ⟨by simp only [Outcome.state, List.length_set]; exact h.1, key⟩
        · exact ⟨h.1, key⟩

theorem namesInRange_step (s : App) (e : Event) (h : NamesInRange s) :
    NamesInRange (step s e) := by
  cases e with
  | select =>
    show NamesInRange (onSelect s)
    unfold onSelect; split <;> exact h
  | touch r ev => exact namesInRange_onTouchEnd s r ev h
  | resolved =>
    show NamesInRange (anchorResolved s).state
    unfold anchorResolved
    split
    · exact h
    · apply namesInRange_andThen
      · apply namesInRange_andThen
        · exact namesInRange_placeCube _ _ _ _ (Or.inl rfl) h
        · intro t ht; exact namesInRange_placeCube _ _ _ _ (Or.inr (Or.inl rfl)) ht
      · intro t ht
        apply namesInRange_andThen
        · exact namesInRange_placeCube _ _ _ _ (Or.inr (Or.inr (Or.inl rfl))) ht
        · intro u hu
          exact namesInRange_placeCube _ _ _ _ (Or.inr (Or.inr (Or.inr rfl))) hu
  | rejected err =>
    show NamesInRange (anchorRejected s err)
    unfold anchorRejected; split <;> exact h
  | yes => exact h
  | no => exact h
  | next => exact h
  | font =>
    show NamesInRange (fontLoaded s)
    unfold fontLoaded; split <;> exact h
  | timeout =>
    show NamesInRange (timeoutFired s)
    unfold timeoutFired; split <;> exact h

theorem namesInRange_run (es : List Event) (s : App) (h : NamesInRange s) :
    NamesInRange (run s es) := by
  induction es generalizing s with
  | nil => exact h
  | cons e es ih => exact ih (step s e) (namesInRange_step s e h)

theorem nameIndex_in_range (name : String)
    (h : name = "1" ∨ name = "2" ∨ name = "3" ∨ name = "4") :
    ∃ k, nameIndex name = some k ∧ k < 4 := by
  rcases h with h | h | h | h <;> subst h
  · exact ⟨0, by decide, by decide⟩
  · exact ⟨1, by decide, by decide⟩
  · exact ⟨2, by decide, by decide⟩
  · exact ⟨3, by decide, by decide⟩

end SameSpace

/-- C23: in every state same-space-tests reaches from its initial state the
info-line array has its four elements and every cube (made by `componentA` or
`componentB`, names '1' to '4') has a name whose index `name - 1` is below
that length; so `onTouchEnd`, whatever the ray meets, never indexes outside the
array: it returns normally. -/
theorem info_line_index_in_bounds (es : List SameSpace.Event) (raycaster : SameSpace.Raycaster)
    (event : PointerEvent) :
    (SameSpace.run SameSpace.init es).cubeInfoAreas.length = 4 ∧
    (∀ c ∈ (SameSpace.run SameSpace.init es).anchoredObjects,
      ∃ k, SameSpace.nameIndex c.name = some k ∧
        k < (SameSpace.run SameSpace.init es).cubeInfoAreas.length) ∧
    (SameSpace.onTouchEnd (SameSpace.run SameSpace.init es) raycaster event).raised = false := by
  have hinv : SameSpace.NamesInRange (SameSpace.run SameSpace.init es) :=
    SameSpace.namesInRange_run es SameSpace.init
      ⟨by decide, by intro c hc; simp [SameSpace.init] at hc⟩
  generalize SameSpace.run SameSpace.init es = s at hinv
  have hidx : ∀ c ∈ s.anchoredObjects,
      ∃ k, SameSpace.nameIndex c.name = some k ∧ k < s.cubeInfoAreas.length := by
    intro c hc
    obtain ⟨k, hk, hlt⟩ := SameSpace.nameIndex_in_range c.name (hinv.2 c hc)
    exact ⟨k, hk, by rw [hinv.1]; exact hlt⟩
  refine ⟨hinv.1, hidx, ?_⟩
  unfold SameSpace.onTouchEnd
  simp only []
  split
  · rfl
  · rename_i i tl heq
    split
    · rfl
    · rename_i currObj hget
      obtain ⟨k, hk, hlt⟩ := hidx currObj (List.getElem?_mem hget)
      simp only [hk, hlt, if_true]
      rfl

namespace SameSpace

theorem stage_fields_step (s : App) (e : Event) :
    (step s e).transparencyType = s.transparencyType ∧ (step s e).wallPlaced = s.wallPlaced ∧
      (step s e).nextButton = s.nextButton := by
  cases e with
  | select =>
    show (onSelect s).transparencyType = _ ∧ (onSelect s).wallPlaced = _ ∧
      (onSelect s).nextButton = _
    unfold onSelect; split <;> exact ⟨rfl, rfl, rfl⟩
  | touch r ev =>
    show (onTouchEnd s r ev).state.transparencyType = _ ∧
      (onTouchEnd s r ev).state.wallPlaced = _ ∧ (onTouchEnd s r ev).state.nextButton = _
    unfold onTouchEnd
    simp only []
    split
    · exact ⟨rfl, rfl, rfl⟩
    · split
      · exact ⟨rfl, rfl, rfl⟩
      · split
        · exact ⟨rfl, rfl, rfl⟩
        · split <;> exact ⟨rfl, rfl, rfl⟩
  | resolved =>
    show (anchorResolved s).state.transparencyType = _ ∧
      (anchorResolved s).state.wallPlaced = _ ∧ (anchorResolved s).state.nextButton = _
    have hp : ∀ (t : App) (name : String) (hexColor slot : Nat),
        (placeCube t name hexColor slot).state.transparencyType = t.transparencyType ∧
        (placeCube t name hexColor slot).state.wallPlaced = t.wallPlaced ∧
        (placeCube t name hexColor slot).state.nextButton = t.nextButton := by
      intro t name hexColor slot
      unfold placeCube
      simp only []
      split <;> exact ⟨rfl, rfl, rfl⟩
    have ha : ∀ (o : Outcome App) (f : App → Outcome App) (t : App),
        (o.state.transparencyType = t.transparencyType ∧ o.state.wallPlaced = t.wallPlaced ∧
          o.state.nextButton = t.nextButton) →
        (∀ u, (f u).state.transparencyType = u.transparencyType ∧
          (f u).state.wallPlaced = u.wallPlaced ∧ (f u).state.nextButton = u.nextButton) →
        ((o.andThen f).state.transparencyType = t.transparencyType ∧
          (o.andThen f).state.wallPlaced = t.wallPlaced ∧
          (o.andThen f).state.nextButton = t.nextButton) := by
      intro o f t ho hf
      cases o with
      | ok u =>
        obtain ⟨h1, h2, h3⟩ := hf u
        exact ⟨h1.trans ho.1, h2.trans ho.2.1, h3.trans ho.2.2⟩
      | threw u => exact ho
    unfold anchorResolved
    split
    · exact ⟨rfl, rfl, rfl⟩
    · apply ha
      · unfold componentA
        apply ha
        · exact hp _ _ _ _
        · intro u; exact hp _ _ _ _
      · intro u
        unfold componentB
        apply ha
        · exact hp _ _ _ _
        · intro v; exact hp _ _ _ _
  | rejected err =>
    show (anchorRejected s err).transparencyType = _ ∧ (anchorRejected s err).wallPlaced = _ ∧
      (anchorRejected s err).nextButton = _
    unfold anchorRejected; split <;> exact ⟨rfl, rfl, rfl⟩
  | yes => exact ⟨rfl, rfl, rfl⟩
  | no => exact ⟨rfl, rfl, rfl⟩
  | next => exact ⟨rfl, rfl, rfl⟩
  | font =>
    show (fontLoaded s).transparencyType = _ ∧ (fontLoaded s).wallPlaced = _ ∧
      (fontLoaded s).nextButton = _
    unfold fontLoaded; split <;> exact ⟨rfl, rfl, rfl⟩
  | timeout =>
    show (timeoutFired s).transparencyType = _ ∧ (timeoutFired s).wallPlaced = _ ∧
      (timeoutFired s).nextButton = _
    unfold timeoutFired; split <;> exact ⟨rfl, rfl, rfl⟩

theorem stage_fields_run (es : List Event) (s : App) :
    (run s es).transparencyType = s.transparencyType ∧ (run s es).wallPlaced = s.wallPlaced ∧
      (run s es).nextButton = s.nextButton := by
  induction es generalizing s with
  | nil => exact ⟨rfl, rfl, rfl⟩
  | cons e es ih =>
    obtain ⟨h1, h2, h3⟩ := ih (step s e)
    obtain ⟨g1, g2, g3⟩ := stage_fields_step s e
    exact ⟨h1.trans g1, h2.trans g2, h3.trans g3⟩

end SameSpace

/-- C24: in same-space-tests the call `this.removeObjectByName(...)` raises (the
class has no such method), so `onNextClick` raises with the state untouched,
before `transparencyType` is incremented or the Next button written, and
`onYesClick` raises with only the snackbar class cleared, before `wallPlaced`
is written; hence after every event sequence, from any state,
`transparencyType` and `wallPlaced` are what they were (from the initial
state: both still `undefined`). -/
theorem stage_handlers_always_raise (s : SameSpace.App) (es : List SameSpace.Event) :
    SameSpace.onNextClick s = .threw s ∧
    SameSpace.onYesClick s = .threw { s with snackbarShow := false } ∧
    (SameSpace.run s es).transparencyType = s.transparencyType ∧
    (SameSpace.run s es).wallPlaced = s.wallPlaced ∧
    (SameSpace.run s es).nextButton = s.nextButton ∧
    (SameSpace.run SameSpace.init es).transparencyType = .undefined ∧
    (SameSpace.run SameSpace.init es).wallPlaced = none := by
  obtain ⟨h1, h2, h3⟩ := SameSpace.stage_fields_run es s
  obtain ⟨g1, g2, _⟩ := SameSpace.stage_fields_run es SameSpace.init
  exact ⟨rfl, rfl, h1, h2, h3, g1, g2⟩

/-- C25: the device coordinates computed by the tap handlers.  For a window of
positive width and height and a pointer position inside it, both coordinates
lie between -1 and 1; the top-left corner is sent to (-1, 1), the bottom-right
corner to (1, -1) and the centre to (0, 0). -/
theorem deviceCoords_in_unit_square (e : PointerEvent)
    (hw : 0 < e.innerWidth) (hh : 0 < e.innerHeight)
    (hx : 0 ≤ e.clientX ∧ e.clientX ≤ e.innerWidth)
    (hy : 0 ≤ e.clientY ∧ e.clientY ≤ e.innerHeight) :
    (-1 ≤ (deviceCoords e).1 ∧ (deviceCoords e).1 ≤ 1 ∧
      -1 ≤ (deviceCoords e).2 ∧ (deviceCoords e).2 ≤ 1) ∧
    deviceCoords { e with clientX := 0, clientY := 0 } = (-1, 1) ∧
    deviceCoords { e with clientX := e.innerWidth, clientY := e.innerHeight } = (1, -1) ∧
    deviceCoords { e with clientX := e.innerWidth / 2, clientY := e.innerHeight / 2 } = (0, 0) := by
  have hw0 : e.innerWidth ≠ 0 := ne_of_gt hw
  have hh0 : e.innerHeight ≠ 0 := ne_of_gt hh
  have hx0 : 0 ≤ e.clientX / e.innerWidth := div_nonneg hx.1 (le_of_lt hw)
  have hx1 : e.clientX / e.innerWidth ≤ 1 := (div_le_one hw).mpr hx.2
  have hy0 : 0 ≤ e.clientY / e.innerHeight := div_nonneg hy.1 (le_of_lt hh)
  have hy1 : e.clientY / e.innerHeight ≤ 1 := (div_le_one hh).mpr hy.2
  refine ⟨⟨?_, ?_, ?_, ?_⟩, ?_, ?_, ?_⟩
  · show -1 ≤ e.clientX / e.innerWidth * 2 + -1
    linarith
  · show e.clientX / e.innerWidth * 2 + -1 ≤ 1
    linarith
  · show -1 ≤ -(e.clientY / e.innerHeight) * 2 + 1
    linarith
  · show -(e.clientY / e.innerHeight) * 2 + 1 ≤ 1
    linarith
  · show ((0 : ℚ) / e.innerWidth * 2 + -1, -((0 : ℚ) / e.innerHeight) * 2 + 1) = (-1, 1)
    simp
  · show (e.innerWidth / e.innerWidth * 2 + -1, -(e.innerHeight / e.innerHeight) * 2 + 1)
      = ((1 : ℚ), (-1 : ℚ))
    rw [div_self hw0, div_self hh0]
    norm_num
  · show (e.innerWidth / 2 / e.innerWidth * 2 + -1, -(e.innerHeight / 2 / e.innerHeight) * 2 + 1)
      = ((0 : ℚ), (0 : ℚ))
    have h1 : e.innerWidth / 2 / e.innerWidth = 1 / 2 := by field_simp; ring
    have h2 : e.innerHeight / 2 / e.innerHeight = 1 / 2 := by field_simp; ring
    rw [h1, h2]
    norm_num

/-- Witness of C25: a 100 by 200 window and the pointer at (30, 40). -/
theorem deviceCoords_in_unit_square_witness :
    (-1 ≤ (deviceCoords ⟨30, 40, 100, 200⟩).1 ∧ (deviceCoords ⟨30, 40, 100, 200⟩).1 ≤ 1 ∧
      -1 ≤ (deviceCoords ⟨30, 40, 100, 200⟩).2 ∧ (deviceCoords ⟨30, 40, 100, 200⟩).2 ≤ 1) ∧
    deviceCoords ⟨0, 0, 100, 200⟩ = (-1, 1) ∧
    deviceCoords ⟨100, 200, 100, 200⟩ = (1, -1) ∧
    deviceCoords ⟨100 / 2, 200 / 2, 100, 200⟩ = (0, 0) :=
  deviceCoords_in_unit_square ⟨30, 40, 100, 200⟩ (by norm_num) (by norm_num)
    ⟨by norm_num, by norm_num⟩ ⟨by norm_num, by norm_num⟩

/-- C26: `handleIfClicked` of js/third-party/rayclick.js invokes the click handler
once, with exactly `args`, when the ray has exactly one intersection with the
object, and does not invoke it otherwise (no intersection, or two or more);
so the handler is invoked if and only if there is exactly one intersection,
and it is never invoked twice. -/
theorem handleIfClicked_calls_once_iff (α : Type) (caster : Caster) (object : Target)
    (event : PointerEvent) (args : List α) :
    ((caster (0, 0)).length = 1 →
      (RayClick.handleIfClicked caster object event args).calls = [args]) ∧
    ((caster (0, 0)).length ≠ 1 →
      (RayClick.handleIfClicked caster object event args).calls = []) ∧
    ((RayClick.handleIfClicked caster object event args).calls ≠ [] ↔
      (caster (0, 0)).length = 1) ∧
    (RayClick.handleIfClicked caster object event args).calls.length ≤ 1 ∧
    (RayClick.handleIfClicked caster object event args).object = object := by
  unfold RayClick.handleIfClicked
  simp only []
  generalize caster (0, 0) = l
  by_cases h : l.length = 1
  · simp [h]
  · simp [h]

/-- C27: the two `handleIfClicked` versions invoke the click handler in the same
cases and with the same arguments.  When the handler is not invoked they do
the same thing and leave the object as it was; when it is invoked the
object-interaction version differs in exactly two effects: it has written
`maliciousField` on the object and `buyNow` has written its console line. -/
theorem handleIfClicked_versions_agree (α : Type) (caster : Caster) (object : Target)
    (event : PointerEvent) (args : List α) :
    (ObjectInteraction.handleIfClicked caster object event args).calls =
      (RayClick.handleIfClicked caster object event args).calls ∧
    ((caster (0, 0)).length ≠ 1 →
      ObjectInteraction.handleIfClicked caster object event args =
        RayClick.handleIfClicked caster object event args ∧
      (ObjectInteraction.handleIfClicked caster object event args).object = object) ∧
    ((caster (0, 0)).length = 1 →
      (RayClick.handleIfClicked caster object event args).object = object ∧
      (ObjectInteraction.handleIfClicked caster object event args).object =
        { object with maliciousField := some "successfully inserted field" } ∧
      (ObjectInteraction.handleIfClicked caster object event args).console =
        (RayClick.handleIfClicked caster object event args).console ++
          ["You just bought a new computer!"]) := by
  unfold ObjectInteraction.handleIfClicked RayClick.handleIfClicked
  simp only []
  generalize caster (0, 0) = l
  by_cases h : l.length = 1
  · simp [h]
  · simp [h]

/-- C28: the click helpers cast the ray from (0, 0) whatever the event.  The
result of `handleIfClicked` (both versions) and of `onClick` of
object-interaction-base-case is the same for any two events, and it is the
result obtained from a raycaster that answers for the point (0, 0) only;
`Cube.onClick` takes no event and consults the raycaster at (0, 0) alone. -/
theorem click_outcome_ignores_event (α : Type) (caster : Caster) (object : Target)
    (args : List α) (s : BaseCase.App) (raycaster : BaseCase.Raycaster)
    (e1 e2 : PointerEvent) :
    RayClick.handleIfClicked caster object e1 args =
      RayClick.handleIfClicked (fun _ => caster (0, 0)) object e2 args ∧
    ObjectInteraction.handleIfClicked caster object e1 args =
      ObjectInteraction.handleIfClicked (fun _ => caster (0, 0)) object e2 args ∧
    ExpandedShapes.onClick caster object args =
      ExpandedShapes.onClick (fun _ => caster (0, 0)) object args ∧
    BaseCase.onClick s raycaster e1 = BaseCase.onClick s (fun _ => raycaster (0, 0)) e2 :=
  ⟨rfl, rfl, rfl, rfl⟩

/-- The labels after one `onClick`: either they are those before the call, or
the label of one name, present with value `v`, has been set to `!v`. -/
theorem BaseCase.onClick_labels (s : BaseCase.App) (raycaster : BaseCase.Raycaster)
    (e : PointerEvent) (labels : List (String × Bool))
    (h : s.objectLabels = labels) :
    (BaseCase.onClick s raycaster e).state.objectLabels =
      if (raycaster (0, 0)).length > 0 then
        match (raycaster (0, 0))[BaseCase.skipLoop (raycaster (0, 0)) 0]? with
        | some hit =>
          match mapGet labels hit.name with
          | some v => mapSet labels hit.name (!v)
          | none => labels
        | none => labels
      else labels := by
  subst h
  unfold BaseCase.onClick
  simp only []
  generalize raycaster (0, 0) = l
  split
  · split
    · split <;> rfl
    · rfl
  · rfl

/-- C29: in object-interaction-base-case two consecutive `onClick` calls with the
same intersection list (the same objects with the same `visible` and
`opacity` values) restore the visibility of every label to its value before
the first call, whatever the two events. -/
theorem onClick_twice_restores_labels (s : BaseCase.App) (raycaster : BaseCase.Raycaster)
    (e1 e2 : PointerEvent) (key : String) :
    mapGet (BaseCase.onClick (BaseCase.onClick s raycaster e1).state raycaster e2).state.objectLabels
        key =
      mapGet s.objectLabels key := by
  rw [BaseCase.onClick_labels _ raycaster e2 _ rfl, BaseCase.onClick_labels s raycaster e1 _ rfl]
  generalize raycaster (0, 0) = l
  split
  · cases hhit : l[BaseCase.skipLoop l 0]? with
    | none => rfl
    | some hit =>
      simp only []
      cases hv : mapGet s.objectLabels hit.name with
      | none => simp only [hv]
      | some v =>
        simp only [mapGet_mapSet, if_true]
        by_cases hk : key = hit.name
        · subst hk
          simp [hv]
        · simp [hk]
  · rfl

/-- C30: in invisibility-experiments/final, when the scene holds an object of the
given name (a mesh, so that its geometry and material can be disposed of),
`removeObjectByName(name)` returns normally and leaves as tracked mesh list
the previous list with every entry of that name removed: the entries kept
are those of another name, each as often as before and in their original
relative order. -/
theorem removeObjectByName_filters_meshes (s : InvisFinal.App) (name : String) (w : Nat)
    (mat : Material)
    (hfound : InvisFinal.getObjectByName s name = some w)
    (hmesh : (s.objects[w]?).bind Object3D.material = some mat) :
    (InvisFinal.removeObjectByName s name).raised = false ∧
    (InvisFinal.removeObjectByName s name).state.meshes =
      s.meshes.filter (fun ref => nameOf s.objects ref != name) ∧
    (InvisFinal.removeObjectByName s name).state.objects = s.objects ∧
    (InvisFinal.removeObjectByName s name).state.meshes.Sublist s.meshes ∧
    (∀ ref, ref ∈ (InvisFinal.removeObjectByName s name).state.meshes →
      nameOf s.objects ref ≠ name) ∧
    (∀ ref, nameOf s.objects ref ≠ name →
      (InvisFinal.removeObjectByName s name).state.meshes.count ref = s.meshes.count ref) := by
  have hstate : InvisFinal.removeObjectByName s name =
      .ok { s with
            scene := s.scene.erase w
            meshes := s.meshes.filter fun ref => nameOf s.objects ref != name } := by
    unfold InvisFinal.removeObjectByName
    rw [hfound]
    simp only [hmesh]
  rw [hstate]
  refine ⟨rfl, rfl, rfl, List.filter_sublist _, ?_, ?_⟩
  · intro ref href
    have := (List.mem_filter.mp href).2
    simpa using this
  · intro ref href
    simp only [Outcome.state]
    rw [List.count_filter]
    simpa using href

/-- C30, on a run: after the wall has been placed, removing "Cube 2 Mesh" leaves
the probe cube alone in the mesh list. -/
theorem removeObjectByName_filters_meshes_witness :
    InvisFinal.getObjectByName
        (InvisFinal.run (InvisFinal.init []) [.select, .resolved, .select]) "Cube 2 Mesh" =
      some 1 ∧
    ((InvisFinal.run (InvisFinal.init []) [.select, .resolved, .select]).objects[1]?).bind
        Object3D.material = some { color := 0x0000ff, opacity := 1 } ∧
    (InvisFinal.run (InvisFinal.init []) [.select, .resolved, .select]).meshes = [0, 1] ∧
    (InvisFinal.removeObjectByName
        (InvisFinal.run (InvisFinal.init []) [.select, .resolved, .select])
        "Cube 2 Mesh").state.meshes = [0] :=
  ⟨by decide, by decide, by decide, by
    rw [(removeObjectByName_filters_meshes
      (InvisFinal.run (InvisFinal.init []) [.select, .resolved, .select]) "Cube 2 Mesh" 1
      { color := 0x0000ff, opacity := 1 } (by decide) (by decide)).2.1]
    decide⟩

theorem statesOfName_append_one (objects : List Object3D) (x : Object3D) (name : String) :
    statesOfName (objects ++ [x]) name =
      statesOfName objects name ++
        (if x.name == name then (materialState x).toList else []) := by
  unfold statesOfName
  rw [List.filter_append, List.filterMap_append]
  by_cases h : x.name == name
  · cases hm : materialState x <;> simp [h, List.filter_cons, List.filterMap_cons, hm]
  · simp [h, List.filter_cons]

theorem statesOfName_set (objects : List Object3D) (m : Nat) (o x : Object3D) (name : String)
    (hget : objects[m]? = some o) (hname : x.name = o.name)
    (hstate : materialState x = materialState o) :
    statesOfName (objects.set m x) name = statesOfName objects name := by
  induction objects generalizing m with
  | nil => simp
  | cons a l ih =>
    cases m with
    | zero =>
      simp only [List.getElem?_cons_zero, Option.some.injEq] at hget
      subst hget
      unfold statesOfName
      simp only [List.set_cons_zero, List.filter_cons, hname]
      split
      · simp only [List.filterMap_cons, hstate]
      · rfl
    | succ m =>
      simp only [List.getElem?_cons_succ] at hget
      have := ih m hget
      unfold statesOfName at this ⊢
      simp only [List.set_cons_succ, List.filter_cons]
      split
      · simp only [List.filterMap_cons]
        rw [this]
      · exact this

theorem statesOfName_updateObject (objects : List Object3D) (ref : Nat)
    (f : Object3D → Object3D) (name : String)
    (hf : ∀ o, (f o).name = o.name ∧ materialState (f o) = materialState o) :
    statesOfName (updateObject objects ref f) name = statesOfName objects name := by
  unfold updateObject
  cases hget : objects[ref]? with
  | none => rfl
  | some o => exact statesOfName_set objects ref o (f o) name hget (hf o).1 (hf o).2

theorem InvisFinal.statesOfName_changeColorLoop (objects : List Object3D)
    (intersects : Nat → Bool) (random : Nat) (meshes : List Nat) (name : String) :
    statesOfName (InvisFinal.changeColorLoop objects intersects random meshes).state.1 name =
      statesOfName objects name := by
  induction meshes with
  | nil => rfl
  | cons m rest ih =>
    unfold InvisFinal.changeColorLoop
    split
    · split
      · rename_i x hget
        split
        · rename_i mat hmat
          exact statesOfName_set objects m x _ name hget rfl
            (by simp [materialState, hmat])
        · rfl
      · rfl
    · exact ih

theorem InvisFinal.invis_wallProgress_displayToUser (s : InvisFinal.App) (content : String) :
    InvisFinal.wallProgress (InvisFinal.displayToUser s content) = InvisFinal.wallProgress s := by
  unfold InvisFinal.displayToUser
  split <;> rfl

theorem InvisFinal.invis_wallProgress_andThen (o : Outcome InvisFinal.App)
    (f : InvisFinal.App → Outcome InvisFinal.App)
    (hf : ∀ s, InvisFinal.wallProgress (f s).state = InvisFinal.wallProgress s) :
    InvisFinal.wallProgress (o.andThen f).state = InvisFinal.wallProgress o.state := by
  cases o with
  | ok s => exact hf s
  | threw s => rfl

theorem InvisFinal.invis_wallStates_placeWall (s : InvisFinal.App) (r : Option Nat)
    (material : Material) (visible : Bool) :
    (∃ t, InvisFinal.placeWall s r material visible = .threw t ∧
      InvisFinal.wallProgress t = InvisFinal.wallProgress s) ∨
    (∃ t, InvisFinal.placeWall s r material visible = .ok t ∧
      InvisFinal.wallProgress t =
        (InvisFinal.wallStates s ++ [(material.opacity, visible)], s.shouldDisplayInitialCube,
          s.shouldDisplayTransparentCube, s.transparencyType)) := by
  unfold InvisFinal.placeWall InvisFinal.addBoxToScene
  cases r with
  | none =>
    refine Or.inl ⟨_, rfl, ?_⟩
    simp [InvisFinal.wallProgress, InvisFinal.wallStates, statesOfName_append_one, newMesh]
  | some r =>
    refine Or.inr ⟨_, rfl, ?_⟩
    simp [InvisFinal.wallProgress, InvisFinal.wallStates, InvisFinal.makeCubeMarker,
      updateObject_append_length, statesOfName_append_one, newMesh, materialState]

theorem InvisFinal.invis_wallMove_componentB (s : InvisFinal.App) (r : Option Nat) :
    InvisFinal.WallMove (InvisFinal.wallProgress s)
      (InvisFinal.wallProgress (InvisFinal.componentB s r).state) := by
  unfold InvisFinal.componentB
  split
  · rename_i h1
    rcases InvisFinal.invis_wallStates_placeWall s r { color := 0x0000ff, opacity := 1 } true with
      ⟨t, ht, hp⟩ | ⟨t, ht, hp⟩
    · rw [ht]
      exact Or.inl hp
    · rw [ht]
      refine Or.inr (Or.inl ⟨h1, ?_⟩)
      have hd := InvisFinal.invis_wallProgress_displayToUser t
        "Verify that you can see Cube 2 but not Cube 1"
      have hd1 := congrArg Prod.fst hd
      have hd4 := congrArg (fun p => p.2.2.2) hd
      have hp1 := congrArg Prod.fst hp
      have hp4 := congrArg (fun p => p.2.2.2) hp
      simp only [InvisFinal.wallProgress, InvisFinal.wallStates] at hd1 hd4 hp1 hp4
      simp only [Outcome.andThen, Outcome.state, InvisFinal.wallProgress, InvisFinal.wallStates]
      rw [hd1, hd4, hp1, hp4]
  · rename_i h1
    have h1 : s.shouldDisplayInitialCube = false := by simpa using h1
    split
    · rename_i h2
      split
      · rename_i h3
        rcases InvisFinal.invis_wallStates_placeWall s r { color := 0x0000ff, opacity := 0 } true with
          ⟨t, ht, hp⟩ | ⟨t, ht, hp⟩
        · rw [ht]
          exact Or.inl hp
        · rw [ht]
          refine Or.inr (Or.inr (Or.inl ⟨h1, h2, h3, ?_⟩))
          have hp1 := congrArg Prod.fst hp
          have hp2 := congrArg (fun p => p.2.1) hp
          have hp4 := congrArg (fun p => p.2.2.2) hp
          simp only [InvisFinal.wallProgress, InvisFinal.wallStates] at hp1 hp2 hp4
          simp only [Outcome.andThen, Outcome.state]
          rw [InvisFinal.invis_wallProgress_displayToUser]
          simp only [InvisFinal.wallProgress, InvisFinal.wallStates]
          rw [hp1, hp2, hp4, h1, h3]
      · split
        · rename_i h3
          rcases InvisFinal.invis_wallStates_placeWall s r { color := 0x0000ff, opacity := 0 } false
            with ⟨t, ht, hp⟩ | ⟨t, ht, hp⟩
          · rw [ht]
            exact Or.inl hp
          · rw [ht]
            refine Or.inr (Or.inr (Or.inr (Or.inl ⟨h1, h2, h3, ?_⟩)))
            have hp1 := congrArg Prod.fst hp
            have hp2 := congrArg (fun p => p.2.1) hp
            simp only [InvisFinal.wallProgress, InvisFinal.wallStates] at hp1 hp2
            simp only [Outcome.andThen, Outcome.state]
            rw [InvisFinal.invis_wallProgress_displayToUser]
            simp only [InvisFinal.wallProgress, InvisFinal.wallStates]
            rw [hp1, hp2, h1]
        · exact Or.inl rfl
    · exact Or.inl rfl

theorem InvisFinal.invis_wallMove_onSelect (s : InvisFinal.App) :
    InvisFinal.WallMove (InvisFinal.wallProgress s)
      (InvisFinal.wallProgress (InvisFinal.onSelect s).state) := by
  unfold InvisFinal.onSelect
  simp only []
  rw [InvisFinal.invis_wallProgress_andThen]
  swap
  · intro t; rfl
  split
  · exact Or.inl rfl
  · split
    · split
      · rw [InvisFinal.invis_wallProgress_andThen]
        swap
        · intro t; rfl
        exact InvisFinal.invis_wallMove_componentB
          ({ s with shouldDisplay := true } : InvisFinal.App) s.anchoredObjects[0]?
      · exact Or.inl rfl
    · exact Or.inl rfl

theorem InvisFinal.invis_wallProgress_onTouchEnd (s : InvisFinal.App) (raycaster : Raycaster)
    (event : PointerEvent) (random : Nat) :
    InvisFinal.wallProgress (InvisFinal.onTouchEnd s raycaster event random).state =
      InvisFinal.wallProgress s := by
  have hl := InvisFinal.statesOfName_changeColorLoop s.objects (raycaster (deviceCoords event))
    random s.scene.reverse "Cube 2 Mesh"
  unfold InvisFinal.onTouchEnd
  simp only []
  rw [InvisFinal.invis_wallProgress_andThen]
  swap
  · intro t; rfl
  split
  · split
    · unfold InvisFinal.changeColorOnIntersect
      split
      · rename_i objects x heq
        rw [heq] at hl
        simp only [InvisFinal.wallProgress, InvisFinal.wallStates, Outcome.state] at hl ⊢
        rw [hl]
      · rename_i objects heq
        rw [heq] at hl
        simp only [InvisFinal.wallProgress, InvisFinal.wallStates, Outcome.state] at hl ⊢
        rw [hl]
      · rename_i objects mesh heq
        rw [heq] at hl
        simp only [InvisFinal.wallProgress, InvisFinal.wallStates, Outcome.state] at hl ⊢
        rw [statesOfName_updateObject objects mesh
          (fun o => { o with clickCount := o.clickCount.incr }) _ (fun o => ⟨rfl, rfl⟩), hl]
    · rfl
  · rfl

theorem InvisFinal.invis_wallMove_step (s : InvisFinal.App) (e : InvisFinal.Event) :
    InvisFinal.WallMove (InvisFinal.wallProgress s)
      (InvisFinal.wallProgress (InvisFinal.step s e)) := by
  cases e with
  | select => exact InvisFinal.invis_wallMove_onSelect s
  | touch r ev random => exact Or.inl (InvisFinal.invis_wallProgress_onTouchEnd s r ev random)
  | resolved =>
    refine Or.inl ?_
    show InvisFinal.wallProgress (InvisFinal.anchorResolved s) = _
    unfold InvisFinal.anchorResolved
    split
    · rfl
    · simp [InvisFinal.wallProgress, InvisFinal.wallStates, InvisFinal.componentA,
        InvisFinal.addAnchoredBoxToScene, InvisFinal.addBoxToScene, InvisFinal.makeCubeMarker,
        updateObject_append_length, statesOfName_append_one]
  | rejected err =>
    refine Or.inl ?_
    show InvisFinal.wallProgress (InvisFinal.anchorRejected s err) = _
    unfold InvisFinal.anchorRejected
    split <;> rfl
  | yes =>
    refine Or.inl ?_
    show InvisFinal.wallProgress (InvisFinal.onYesClick s).state = _
    unfold InvisFinal.onYesClick InvisFinal.removeObjectByName
    simp only []
    split
    · rfl
    · split <;> rfl
  | no => exact Or.inl rfl
  | next =>
    show InvisFinal.WallMove _ (InvisFinal.wallProgress (InvisFinal.onNextClick s).state)
    unfold InvisFinal.onNextClick InvisFinal.removeObjectByName
    split
    · exact Or.inl rfl
    · split
      · exact Or.inl rfl
      · refine Or.inr (Or.inr (Or.inr (Or.inr ?_)))
        simp only [Outcome.andThen, Outcome.state]
        split <;> rfl
  | font =>
    refine Or.inl ?_
    show InvisFinal.wallProgress (InvisFinal.fontLoaded s) = _
    unfold InvisFinal.fontLoaded
    split
    · rfl
    · simp [InvisFinal.wallProgress, InvisFinal.wallStates, statesOfName_append_one, newText,
        materialState]
  | timeout =>
    refine Or.inl ?_
    show InvisFinal.wallProgress (InvisFinal.timeoutFired s) = _
    unfold InvisFinal.timeoutFired
    split <;> rfl

theorem InvisFinal.invis_wallsStaged_move (p q : List (ℚ × Bool) × Bool × Bool × Nat)
    (hp : InvisFinal.WallsStaged p) (hm : InvisFinal.WallMove p q) :
    InvisFinal.WallsStaged q := by
  obtain ⟨w, a, b, n⟩ := p
  unfold InvisFinal.WallsStaged at hp ⊢
  unfold InvisFinal.WallMove at hm
  simp only [] at hp hm
  rcases hm with rfl | ⟨ha, rfl⟩ | ⟨ha, hb, hn, rfl⟩ | ⟨ha, hb, hn, rfl⟩ | rfl
  · exact hp
  · subst ha
    rcases hp with ⟨_, hw⟩ | ⟨h, _⟩ | ⟨h, _⟩ | ⟨h, _⟩
    · subst hw
      exact Or.inr (Or.inl ⟨rfl, rfl⟩)
    all_goals exact Bool.noConfusion h
  · subst ha hb hn
    rcases hp with ⟨h, _⟩ | ⟨_, hw⟩ | ⟨_, _, h⟩ | ⟨_, h, _⟩
    · exact Bool.noConfusion h
    · subst hw
      exact Or.inr (Or.inr (Or.inl ⟨rfl, rfl, fun h => Bool.noConfusion h⟩))
    · exact absurd (h rfl) (by decide)
    · exact absurd h (by decide)
  · subst ha hb hn
    rcases hp with ⟨h, _⟩ | ⟨_, hw⟩ | ⟨_, hw, _⟩ | ⟨_, h, _⟩
    · exact Bool.noConfusion h
    · subst hw
      exact Or.inr (Or.inr (Or.inr ⟨rfl, Nat.le_refl 2, Or.inl rfl⟩))
    · subst hw
      exact Or.inr (Or.inr (Or.inr ⟨rfl, Nat.le_refl 2, Or.inr rfl⟩))
    · exact absurd h (by decide)
  · rcases hp with ⟨ha, hw⟩ | ⟨ha, hw⟩ | ⟨ha, hw, _⟩ | ⟨ha, hn, hw⟩
    · exact Or.inl ⟨ha, hw⟩
    · exact Or.inr (Or.inl ⟨ha, hw⟩)
    · exact Or.inr (Or.inr (Or.inl ⟨ha, hw, fun _ => Nat.le_add_left 1 n⟩))
    · exact Or.inr (Or.inr (Or.inr ⟨ha, Nat.le_succ_of_le hn, hw⟩))

theorem InvisFinal.invis_wallsStaged_run (es : List InvisFinal.Event) (s : InvisFinal.App)
    (h : InvisFinal.WallsStaged (InvisFinal.wallProgress s)) :
    InvisFinal.WallsStaged (InvisFinal.wallProgress (InvisFinal.run s es)) := by
  induction es generalizing s with
  | nil => exact h
  | cons e es ih =>
    exact ih (InvisFinal.step s e)
      (InvisFinal.invis_wallsStaged_move _ _ h (InvisFinal.invis_wallMove_step s e))

theorem statesOfName_none (objects : List Object3D) (name : String)
    (h : ∀ o ∈ objects, o.name ≠ name) : statesOfName objects name = [] := by
  unfold statesOfName
  rw [List.filter_eq_nil_iff.mpr (fun o ho => by simpa using h o ho)]
  rfl

theorem ArkaFinal.arka_wallProgress_displayToUser (s : ArkaFinal.App) (content : String) :
    ArkaFinal.wallProgress (ArkaFinal.displayToUser s content) = ArkaFinal.wallProgress s := by
  unfold ArkaFinal.displayToUser
  split <;> rfl

theorem ArkaFinal.arka_wallProgress_andThen (o : Outcome ArkaFinal.App)
    (f : ArkaFinal.App → Outcome ArkaFinal.App)
    (hf : ∀ s, ArkaFinal.wallProgress (f s).state = ArkaFinal.wallProgress s) :
    ArkaFinal.wallProgress (o.andThen f).state = ArkaFinal.wallProgress o.state := by
  cases o with
  | ok s => exact hf s
  | threw s => rfl

theorem ArkaFinal.arka_wallStates_placeWall (s : ArkaFinal.App) (r : Option Nat)
    (material : Material) :
    (∃ t, ArkaFinal.placeWall s r material = .threw t ∧
      ArkaFinal.wallProgress t = ArkaFinal.wallProgress s) ∨
    (∃ t, ArkaFinal.placeWall s r material = .ok t ∧
      ArkaFinal.wallProgress t =
        (ArkaFinal.wallStates s ++ [(material.opacity, true)], s.shouldDisplayInitialCube,
          s.shouldDisplayTransparentCube)) := by
  unfold ArkaFinal.placeWall ArkaFinal.addBoxToScene
  cases r with
  | none =>
    refine Or.inl ⟨_, rfl, ?_⟩
    simp [ArkaFinal.wallProgress, ArkaFinal.wallStates, statesOfName_append_one, newMesh]
  | some r =>
    refine Or.inr ⟨_, rfl, ?_⟩
    simp [ArkaFinal.wallProgress, ArkaFinal.wallStates, updateObject_append_length,
      statesOfName_append_one, newMesh, materialState]

theorem ArkaFinal.arka_wallMove_componentB (s : ArkaFinal.App) (r : Option Nat) :
    ArkaFinal.WallMove (ArkaFinal.wallProgress s)
      (ArkaFinal.wallProgress (ArkaFinal.componentB s r).state) := by
  unfold ArkaFinal.componentB
  split
  · rename_i h1
    rcases ArkaFinal.arka_wallStates_placeWall s r { color := 0x0000ff, opacity := 0.75 } with
      ⟨t, ht, hp⟩ | ⟨t, ht, hp⟩
    · rw [ht]
      exact Or.inl hp
    · rw [ht]
      refine Or.inr (Or.inl ⟨h1, ?_⟩)
      have hd := ArkaFinal.arka_wallProgress_displayToUser t
        "Verify that you can see Cube 2 but not Cube 1"
      have hd1 := congrArg Prod.fst hd
      have hp1 := congrArg Prod.fst hp
      simp only [ArkaFinal.wallProgress, ArkaFinal.wallStates] at hd1 hp1
      simp only [Outcome.andThen, Outcome.state, ArkaFinal.wallProgress, ArkaFinal.wallStates]
      rw [hd1, hp1]
  · rename_i h1
    have h1 : s.shouldDisplayInitialCube = false := by simpa using h1
    split
    · rename_i h2
      rcases ArkaFinal.arka_wallStates_placeWall s r { color := 0x0000ff, opacity := 0 } with
        ⟨t, ht, hp⟩ | ⟨t, ht, hp⟩
      · rw [ht]
        exact Or.inl hp
      · rw [ht]
        refine Or.inr (Or.inr ⟨h1, h2, ?_⟩)
        have hp1 := congrArg Prod.fst hp
        have hp2 := congrArg (fun p => p.2.1) hp
        simp only [ArkaFinal.wallProgress, ArkaFinal.wallStates] at hp1 hp2
        simp only [Outcome.andThen, Outcome.state, ArkaFinal.wallProgress, ArkaFinal.wallStates]
        rw [hp1, hp2, h1]
    · exact Or.inl rfl

theorem ArkaFinal.statesOfName_changeColorOnIntersect (objects : List Object3D)
    (intersects : Nat → Bool) (random : Nat) (mesh : Option Nat) (name : String) :
    statesOfName (ArkaFinal.changeColorOnIntersect objects intersects random mesh).state name =
      statesOfName objects name := by
  unfold ArkaFinal.changeColorOnIntersect
  cases mesh with
  | none => rfl
  | some m =>
    simp only []
    split
    · split
      · rename_i x hget
        split
        · rename_i mat hmat
          exact statesOfName_set objects m x _ name hget rfl (by simp [materialState, hmat])
        · rfl
      · rfl
    · rfl

theorem ArkaFinal.arka_wallMove_step (s : ArkaFinal.App) (e : ArkaFinal.Event) :
    ArkaFinal.WallMove (ArkaFinal.wallProgress s)
      (ArkaFinal.wallProgress (ArkaFinal.step s e)) := by
  cases e with
  | select =>
    show ArkaFinal.WallMove _ (ArkaFinal.wallProgress (ArkaFinal.onSelect s).state)
    unfold ArkaFinal.onSelect
    simp only []
    split
    · exact Or.inl rfl
    · split
      · split
        · rw [ArkaFinal.arka_wallProgress_andThen]
          swap
          · intro t; rfl
          exact ArkaFinal.arka_wallMove_componentB
            ({ s with shouldDisplay := true } : ArkaFinal.App) s.anchoredObjects[0]?
        · exact Or.inl rfl
      · exact Or.inl rfl
  | touch r ev random =>
    refine Or.inl ?_
    show ArkaFinal.wallProgress (ArkaFinal.onTouchEnd s r ev random).state = _
    unfold ArkaFinal.onTouchEnd
    simp only []
    split
    · split
      · have hl := ArkaFinal.statesOfName_changeColorOnIntersect s.objects
          (r (deviceCoords ev)) random
          (ArkaFinal.getObjectByName ({ s with mouse := deviceCoords ev } : ArkaFinal.App)
            "testcube") "thewall"
        split
        · rename_i objects heq
          rw [heq] at hl
          simp only [ArkaFinal.wallProgress, ArkaFinal.wallStates, Outcome.state] at hl ⊢
          rw [hl]
        · rename_i objects heq
          rw [heq] at hl
          simp only [ArkaFinal.wallProgress, ArkaFinal.wallStates, Outcome.state] at hl ⊢
          rw [hl]
      · rfl
    · rfl
  | resolved =>
    refine Or.inl ?_
    show ArkaFinal.wallProgress (ArkaFinal.anchorResolved s) = _
    unfold ArkaFinal.anchorResolved
    split
    · rfl
    · simp [ArkaFinal.wallProgress, ArkaFinal.wallStates, ArkaFinal.componentA,
        ArkaFinal.addAnchoredBoxToScene, ArkaFinal.addBoxToScene,
        updateObject_append_length, statesOfName_append_one]
  | rejected err =>
    refine Or.inl ?_
    show ArkaFinal.wallProgress (ArkaFinal.anchorRejected s err) = _
    unfold ArkaFinal.anchorRejected
    split <;> rfl
  | yes =>
    refine Or.inl ?_
    show ArkaFinal.wallProgress (ArkaFinal.onYesClick s) = _
    unfold ArkaFinal.onYesClick ArkaFinal.removeObjectByName
    simp only []
    split <;> rfl
  | no => exact Or.inl rfl
  | timeout =>
    refine Or.inl ?_
    show ArkaFinal.wallProgress (ArkaFinal.timeoutFired s) = _
    unfold ArkaFinal.timeoutFired
    split <;> rfl

theorem ArkaFinal.arka_wallsStaged_move (p q : List (ℚ × Bool) × Bool × Bool)
    (hp : ArkaFinal.WallsStaged p) (hm : ArkaFinal.WallMove p q) :
    ArkaFinal.WallsStaged q := by
  obtain ⟨w, a, b⟩ := p
  unfold ArkaFinal.WallsStaged at hp ⊢
  unfold ArkaFinal.WallMove at hm
  simp only [] at hp hm
  rcases hm with rfl | ⟨ha, rfl⟩ | ⟨ha, hb, rfl⟩
  · exact hp
  · subst ha
    rcases hp with ⟨_, hw⟩ | ⟨h, _⟩ | ⟨h, _⟩
    · subst hw
      exact Or.inr (Or.inl ⟨rfl, rfl, rfl⟩)
    all_goals exact Bool.noConfusion h
  · subst ha hb
    rcases hp with ⟨h, _⟩ | ⟨_, _, hw⟩ | ⟨_, h, _⟩
    · exact Bool.noConfusion h
    · subst hw
      exact Or.inr (Or.inr ⟨rfl, rfl, rfl⟩)
    · exact Bool.noConfusion h

theorem ArkaFinal.arka_wallsStaged_run (es : List ArkaFinal.Event) (s : ArkaFinal.App)
    (h : ArkaFinal.WallsStaged (ArkaFinal.wallProgress s)) :
    ArkaFinal.WallsStaged (ArkaFinal.wallProgress (ArkaFinal.run s es)) := by
  induction es generalizing s with
  | nil => exact h
  | cons e es ih =>
    exact ih (ArkaFinal.step s e)
      (ArkaFinal.arka_wallsStaged_move _ _ h (ArkaFinal.arka_wallMove_step s e))

/-- C10, amended: the wall sequences the two variants do realise.  In every
run of invisibility-experiments/final (from a scene without a 'Cube 2 Mesh')
the walls created so far are, in creation order, an initial part of
(opacity 1, visible), (opacity 0, visible), (opacity 0, not visible), or they
are (opacity 1, visible), (opacity 0, not visible), the stage (0, visible)
being skipped when Next comes before the second wall; no wall has opacity
0.75.  In every run of invisibility-experiments-arka/final (from a scene
without a 'thewall') they are an initial part of (opacity 0.75, visible),
(opacity 0, visible); no wall is invisible.  Each of these lists is reached:
the longest ones along select, anchor settled, select, Yes, select, Next,
select and along select, anchor settled, select, Yes, select. -/
theorem wall_sequences_of_the_variants (litI litA : List Object3D)
    (esI : List InvisFinal.Event) (esA : List ArkaFinal.Event)
    (hI : ∀ o ∈ litI, o.name ≠ "Cube 2 Mesh") (hA : ∀ o ∈ litA, o.name ≠ "thewall") :
    (InvisFinal.wallStates (InvisFinal.run (InvisFinal.init litI) esI) = [] ∨
      InvisFinal.wallStates (InvisFinal.run (InvisFinal.init litI) esI) = [(1, true)] ∨
      InvisFinal.wallStates (InvisFinal.run (InvisFinal.init litI) esI) =
        [(1, true), (0, true)] ∨
      InvisFinal.wallStates (InvisFinal.run (InvisFinal.init litI) esI) =
        [(1, true), (0, false)] ∨
      InvisFinal.wallStates (InvisFinal.run (InvisFinal.init litI) esI) =
        [(1, true), (0, true), (0, false)]) ∧
    (ArkaFinal.wallStates (ArkaFinal.run (ArkaFinal.init litA) esA) = [] ∨
      ArkaFinal.wallStates (ArkaFinal.run (ArkaFinal.init litA) esA) = [(0.75, true)] ∨
      ArkaFinal.wallStates (ArkaFinal.run (ArkaFinal.init litA) esA) =
        [(0.75, true), (0, true)]) ∧
    InvisFinal.wallStates (InvisFinal.run (InvisFinal.init []) [.select, .resolved, .select]) =
      [(1, true)] ∧
    InvisFinal.wallStates (InvisFinal.run (InvisFinal.init [])
        [.select, .resolved, .select, .yes, .select]) =
      [(1, true), (0, true)] ∧
    InvisFinal.wallStates (InvisFinal.run (InvisFinal.init [])
        [.select, .resolved, .select, .next, .select]) =
      [(1, true), (0, false)] ∧
    InvisFinal.wallStates (InvisFinal.run (InvisFinal.init [])
        [.select, .resolved, .select, .yes, .select, .next, .select]) =
      [(1, true), (0, true), (0, false)] ∧
    ArkaFinal.wallStates (ArkaFinal.run (ArkaFinal.init []) [.select, .resolved, .select]) =
      [(0.75, true)] ∧
    ArkaFinal.wallStates (ArkaFinal.run (ArkaFinal.init [])
        [.select, .resolved, .select, .yes, .select]) =
      [(0.75, true), (0, true)] := by
  refine ⟨?_, ?_, rfl, rfl, rfl, rfl, rfl, rfl⟩
  · have h := InvisFinal.invis_wallsStaged_run esI (InvisFinal.init litI)
      (Or.inl ⟨rfl, statesOfName_none litI _ hI⟩)
    unfold InvisFinal.WallsStaged at h
    simp only [InvisFinal.wallProgress] at h
    rcases h with ⟨_, hw⟩ | ⟨_, hw⟩ | ⟨_, hw, _⟩ | ⟨_, _, hw | hw⟩
    · exact Or.inl hw
    · exact Or.inr (Or.inl hw)
    · exact Or.inr (Or.inr (Or.inl hw))
    · exact Or.inr (Or.inr (Or.inr (Or.inl hw)))
    · exact Or.inr (Or.inr (Or.inr (Or.inr hw)))
  · have h := ArkaFinal.arka_wallsStaged_run esA (ArkaFinal.init litA)
      (Or.inl ⟨rfl, statesOfName_none litA _ hA⟩)
    unfold ArkaFinal.WallsStaged at h
    simp only [ArkaFinal.wallProgress] at h
    rcases h with ⟨_, hw⟩ | ⟨_, _, hw⟩ | ⟨_, _, hw⟩
    · exact Or.inl hw
    · exact Or.inr (Or.inl hw)
    · exact Or.inr (Or.inr hw)

/-- C10, amended, on a scene that starts with one light: after select, anchor
settled, select, Next, select, Next, select the walls of
invisibility-experiments/final are one of the five lists, and after select,
anchor settled, select, Yes, select, Yes, select those of
invisibility-experiments-arka/final are one of the three. -/
theorem wall_sequences_of_the_variants_witness :
    (∀ o ∈ [({ name := "", material := none, visible := true, clickCount := .undefined } :
        Object3D)], o.name ≠ "Cube 2 Mesh") ∧
    (∀ o ∈ [({ name := "", material := none, visible := true, clickCount := .undefined } :
        Object3D)], o.name ≠ "thewall") ∧
    (InvisFinal.wallStates (InvisFinal.run (InvisFinal.init
        [{ name := "", material := none, visible := true, clickCount := .undefined }])
        [.select, .resolved, .select, .next, .select, .next, .select]) = [] ∨
      InvisFinal.wallStates (InvisFinal.run (InvisFinal.init
        [{ name := "", material := none, visible := true, clickCount := .undefined }])
        [.select, .resolved, .select, .next, .select, .next, .select]) = [(1, true)] ∨
      InvisFinal.wallStates (InvisFinal.run (InvisFinal.init
        [{ name := "", material := none, visible := true, clickCount := .undefined }])
        [.select, .resolved, .select, .next, .select, .next, .select]) =
        [(1, true), (0, true)] ∨
      InvisFinal.wallStates (InvisFinal.run (InvisFinal.init
        [{ name := "", material := none, visible := true, clickCount := .undefined }])
        [.select, .resolved, .select, .next, .select, .next, .select]) =
        [(1, true), (0, false)] ∨
      InvisFinal.wallStates (InvisFinal.run (InvisFinal.init
        [{ name := "", material := none, visible := true, clickCount := .undefined }])
        [.select, .resolved, .select, .next, .select, .next, .select]) =
        [(1, true), (0, true), (0, false)]) ∧
    (ArkaFinal.wallStates (ArkaFinal.run (ArkaFinal.init
        [{ name := "", material := none, visible := true, clickCount := .undefined }])
        [.select, .resolved, .select, .yes, .select, .yes, .select]) = [] ∨
      ArkaFinal.wallStates (ArkaFinal.run (ArkaFinal.init
        [{ name := "", material := none, visible := true, clickCount := .undefined }])
        [.select, .resolved, .select, .yes, .select, .yes, .select]) = [(0.75, true)] ∨
      ArkaFinal.wallStates (ArkaFinal.run (ArkaFinal.init
        [{ name := "", material := none, visible := true, clickCount := .undefined }])
        [.select, .resolved, .select, .yes, .select, .yes, .select]) =
        [(0.75, true), (0, true)]) :=
  ⟨by decide, by decide,
    (wall_sequences_of_the_variants
      [{ name := "", material := none, visible := true, clickCount := .undefined }]
      [{ name := "", material := none, visible := true, clickCount := .undefined }]
      [.select, .resolved, .select, .next, .select, .next, .select]
      [.select, .resolved, .select, .yes, .select, .yes, .select]
      (by decide) (by decide)).1,
    (wall_sequences_of_the_variants
      [{ name := "", material := none, visible := true, clickCount := .undefined }]
      [{ name := "", material := none, visible := true, clickCount := .undefined }]
      [.select, .resolved, .select, .next, .select, .next, .select]
      [.select, .resolved, .select, .yes, .select, .yes, .select]
      (by decide) (by decide)).2.1⟩
